import Mathlib

/-
  Verification development for the ao-lens semantic analysis core.

  The TypeScript sources are shallowly embedded as executable Lean
  definitions.  The external tree-sitter parser is out of scope (the spec
  declares it an external collaborator), so all tree-derived facts
  (handler registrations, per-handler authorization / state-access query
  results) enter the embedding as inputs; every text-based computation
  (raw-line scanning, check evaluation, deduplication, ranking, dynamic
  rule application, diffing) is translated from the sources.

  JavaScript regular expressions are an external engine; they are
  modelled by an explicit regex AST (`Rx`) with derivative-based
  matching.  Each concrete regular expression of the sources is
  transcribed into an `Rx` term next to a comment quoting the original.
  Brace characters inside string literals are written with \x7b and \x7d
  escapes.
-/

namespace AoLens

/-! ## Basic character and list utilities -/

/-- JavaScript whitespace class `\s` restricted to the characters that can
occur in the analyzed sources: space, tab, newline, carriage return,
vertical tab and form feed. -/
def isJsWs (c : Char) : Bool :=
  c = ' ' || c = '\t' || c = '\n' || c = '\r' || c = '\x0b' || c = '\x0c'

/-- JavaScript word-character class `\w`: ASCII letters, digits, underscore. -/
def isWordChar (c : Char) : Bool :=
  (('a' ≤ c && c ≤ 'z') || ('A' ≤ c && c ≤ 'Z') || ('0' ≤ c && c ≤ '9') || c = '_')

/-- ASCII letter or underscore (JS class `[A-Za-z_]`). -/
def isAlphaUnd (c : Char) : Bool :=
  (('a' ≤ c && c ≤ 'z') || ('A' ≤ c && c ≤ 'Z') || c = '_')

/-- Substring containment over character lists (JS `String.prototype.includes`). -/
def listContainsSub : List Char → List Char → Bool
  | _, [] => true
  | [], _ :: _ => false
  | c :: cs, sub => List.isPrefixOf sub (c :: cs) || listContainsSub cs sub

/-- JS `haystack.includes(needle)`. -/
def strIncludes (haystack needle : String) : Bool :=
  listContainsSub haystack.data needle.data

/-- Split a character list at newlines, keeping empty segments
(JS `sourceCode.split("\n")`).  Written structurally so the kernel can
evaluate it. -/
def splitLinesGo (acc : List Char) : List Char → List String
  | [] => [String.mk acc.reverse]
  | c :: cs =>
    if c = '\n' then String.mk acc.reverse :: splitLinesGo [] cs
    else splitLinesGo (c :: acc) cs

/-- JS `sourceCode.split("\n")`. -/
def splitLines (s : String) : List String :=
  splitLinesGo [] s.data

/-- JS `lines.join("\n")` (via `Array.prototype.join`). -/
def joinLines : List String → String
  | [] => ""
  | [s] => s
  | s :: rest => s ++ "\n" ++ joinLines rest

/-- JS `lines.slice(a, b)` for `0 ≤ a ≤ b` (both clamped to the length). -/
def sliceList (a b : Nat) (l : List String) : List String :=
  (l.drop a).take (b - a)

/-- The line list with 0-based indices attached (models `for (let i = 0; ...)`
loops over `lines[i]`). -/
def enumLines (lines : List String) : List (Nat × String) :=
  lines.enum

/-! ## A small regex engine

`Rx` models the fragment of JavaScript regular expressions used by the
sources: literals, character classes, alternation, concatenation, star.
`rxTest` is unanchored search (`RegExp.prototype.test` without flags);
anchored variants model `^`/`$`. -/

inductive Rx where
  | eps : Rx
  | chr : (Char → Bool) → Rx
  | cat : Rx → Rx → Rx
  | alt : Rx → Rx → Rx
  | star : Rx → Rx

/-- The empty (never-matching) regex. -/
def Rx.fail : Rx := .chr (fun _ => false)

def Rx.nullable : Rx → Bool
  | .eps => true
  | .chr _ => false
  | .cat a b => a.nullable && b.nullable
  | .alt a b => a.nullable || b.nullable
  | .star _ => true

/-- Brzozowski derivative. -/
def Rx.deriv : Rx → Char → Rx
  | .eps, _ => Rx.fail
  | .chr p, c => if p c then .eps else Rx.fail
  | .cat a b, c =>
      if a.nullable then .alt (.cat (a.deriv c) b) (b.deriv c)
      else .cat (a.deriv c) b
  | .alt a b, c => .alt (a.deriv c) (b.deriv c)
  | .star a, c => .cat (a.deriv c) (.star a)

/-- Whole-list match. -/
def Rx.matchList (r : Rx) (cs : List Char) : Bool :=
  (cs.foldl Rx.deriv r).nullable

/-- `.` never matches a newline in JS (no `s` flag anywhere in the sources). -/
def Rx.dot : Rx := .chr (fun c => c ≠ '\n')

/-- `[\s\S]` (any character, including newline). -/
def Rx.anyc : Rx := .chr (fun _ => true)

def Rx.anyStar : Rx := .star Rx.anyc

/-- Search: does some substring starting at some position match `r`? -/
def rxTestList (r : Rx) : List Char → Bool
  | [] => r.nullable
  | c :: cs => Rx.matchList (.cat r Rx.anyStar) (c :: cs) || rxTestList r cs

/-- `new RegExp(p).test(s)` (unanchored, stateless). -/
def rxTest (r : Rx) (s : String) : Bool :=
  rxTestList r s.data

/-- Anchored-at-start search (a pattern beginning with `^`, no `m` flag). -/
def rxTestStart (r : Rx) (s : String) : Bool :=
  Rx.matchList (.cat r Rx.anyStar) s.data

/-- Anchored-at-end search (a pattern ending in `$`, no `m` flag: the match
must reach the very end of the string). -/
def rxTestEndList (r : Rx) : List Char → Bool
  | [] => r.nullable
  | c :: cs => Rx.matchList r (c :: cs) || rxTestEndList r cs

def rxTestEnd (r : Rx) (s : String) : Bool :=
  rxTestEndList r s.data

/-- Fully anchored match (`^...$`, no `m` flag). -/
def rxTestExact (r : Rx) (s : String) : Bool :=
  Rx.matchList r s.data

/-! ### Regex notation helpers (plain functions, no syntax) -/

/-- A literal string regex. -/
def rxLit (s : String) : Rx :=
  s.data.foldr (fun c r => .cat (.chr (fun x => x = c)) r) .eps

/-- Concatenation of a list. -/
def rxSeq (l : List Rx) : Rx :=
  l.foldr .cat .eps

/-- Alternation of a nonempty list (folds with `Rx.fail`). -/
def rxAlt (l : List Rx) : Rx :=
  l.foldr .alt Rx.fail

def rxOpt (r : Rx) : Rx := .alt .eps r

def rxPlus (r : Rx) : Rx := .cat r (.star r)

/-- `\s*` -/
def ws0 : Rx := .star (.chr isJsWs)

/-- `\s+` -/
def ws1 : Rx := rxPlus (.chr isJsWs)

/-- `\w` -/
def rxWord : Rx := .chr isWordChar

/-- A negated character class `[^ ...]` given the excluded characters
(never matching is not implied for newline: JS negated classes do match
newline unless it is listed). -/
def rxNone (excluded : List Char) : Rx :=
  .chr (fun c => !(excluded.contains c))

/-- A positive character class given as a predicate. -/
def rxCls (p : Char → Bool) : Rx := .chr p

end AoLens

namespace AoLens

/-! ## Deterministic leftmost-match scanners

JS `String.prototype.match` (no `g` flag) returns the leftmost match; the
concrete patterns below are deterministic (their greedy runs cannot
backtrack), so a position-by-position scanner is faithful. -/

/-- Expect a literal, return the rest. -/
def eatLit (lit : List Char) (cs : List Char) : Option (List Char) :=
  if List.isPrefixOf lit cs then some (cs.drop lit.length) else none

/-- Greedily drop `\s*`. -/
def eatWs (cs : List Char) : List Char := cs.dropWhile (fun c => isJsWs c)

/-- Try a positional parser at every position, leftmost first. -/
def scanFirst (f : List Char → Option α) : List Char → Option α
  | [] => f []
  | c :: cs =>
    match f (c :: cs) with
    | some v => some v
    | none => scanFirst f cs

/-- Is the character a quote (JS class `["']`)? -/
def isQuote (c : Char) : Bool := c = '"' || c = '\''

end AoLens

namespace AoLens

/-! ## Core data model (`security/types.ts`, `handler-analyzer.ts`) -/

inductive Severity where
  | critical | high | medium | low | info
deriving DecidableEq, Repr

/-- `const severityOrder = { critical: 0, high: 1, medium: 2, low: 3, info: 4 }`
(`SecurityAnalyzer.deduplicate`). -/
def severityRank : Severity → Nat
  | .critical => 0
  | .high => 1
  | .medium => 2
  | .low => 3
  | .info => 4

/-- `Finding` of `security/types.ts`. -/
structure Finding where
  code : String
  message : String
  severity : Severity
  line : Nat
  column : Option Nat := none
  fix : Option String := none
  cwe : Option String := none
deriving DecidableEq, Repr

/-- A value stored in `StateFieldInfo.value` (typed `unknown` in TS). -/
inductive JsValue where
  | str : String → JsValue
  | boolean : Bool → JsValue
  | table : JsValue
  | null : JsValue
deriving DecidableEq, Repr

structure StateFieldInfo where
  initialized : Bool
  value : JsValue
  line : Nat
deriving DecidableEq, Repr

/-- `StateAnalysis` of `security/types.ts`; the `fields` Map is an
insertion-ordered association list. -/
structure StateAnalysis where
  fields : List (String × StateFieldInfo)
  frozenInitialized : Bool
  frozenValue : Option Bool
  ownerInitialized : Bool
  ownerSource : Option String
deriving DecidableEq, Repr

/-- JS `Map.prototype.set`: overwrite keeps the original insertion position. -/
def mapSet (m : List (String × α)) (k : String) (v : α) : List (String × α) :=
  if m.any (fun p => p.1 = k) then m.map (fun p => if p.1 = k then (k, v) else p)
  else m ++ [(k, v)]

def mapGet (m : List (String × α)) (k : String) : Option α :=
  (m.find? (fun p => p.1 = k)).map (fun p => p.2)

/-- `HandlerTrigger` of `handler-analyzer.ts`. -/
structure HandlerTrigger where
  action_tag : Option String
  required_tags : List (String × String)
  checks_from : Bool
  checks_data : Bool
  checks_frozen : Bool
deriving DecidableEq, Repr

inductive MatcherType where
  | inline_function | hasMatchingTag | always_true | complex
deriving DecidableEq, Repr

inductive Strictness where
  | loose | moderate | strict
deriving DecidableEq, Repr

structure MatcherAnalysis where
  type : MatcherType
  strictness : Strictness
  validates_schema : Bool
  checks_authorization : Bool
deriving DecidableEq, Repr

structure SafeLibraryOptions where
  owner : Bool
  frozen : Bool
  isPublic : Bool
deriving DecidableEq, Repr

inductive SignatureType where
  | function_matcher | hasMatchingTag | table | safe_handler | safe_query
deriving DecidableEq, Repr

/-- `HandlerInfo` of `handler-analyzer.ts`: the tree-derived description of
one `Handlers.add` / `Safe.handler` / `Safe.query` registration.  Produced
by the tree-walking `findHandlers`, which consumes the external parser's
output, so values of this type are inputs of the embedding. -/
structure HandlerInfo where
  name : String
  line : Nat
  end_line : Nat
  signature_type : SignatureType
  trigger : HandlerTrigger
  matcher_analysis : MatcherAnalysis
  has_handler_body : Bool
  is_safe_library : Bool
  safe_options : Option SafeLibraryOptions := none
deriving DecidableEq, Repr

/-! ## `HandlerAnalyzer.analyzeInlineMatcher` (text part)

The function receives the matcher's `block` node; everything it does with
the node is `funcBody.text` string analysis, transcribed here.  The input
is the body text (`none` models a missing `block` child). -/

def emptyTrigger : HandlerTrigger :=
  { action_tag := none, required_tags := [], checks_from := false,
    checks_data := false, checks_frozen := false }

/-- Leftmost capture of `/msg\.Tags\.Action\s*[=~]=\s*["']([^"']+)["']/`. -/
def matchActionTagAt (cs : List Char) : Option String := do
  let rest ← eatLit "msg.Tags.Action".data cs
  let rest := eatWs rest
  match rest with
  | c :: rest =>
    if c = '=' || c = '~' then do
      let rest ← eatLit ['='] rest
      let rest := eatWs rest
      match rest with
      | q :: rest2 =>
        if isQuote q then
          let run := rest2.takeWhile (fun c => !(isQuote c))
          let after := rest2.drop run.length
          if run.isEmpty then none
          else match after with
            | q2 :: _ => if isQuote q2 then some (String.mk run) else none
            | [] => none
        else none
      | [] => none
    else none
  | [] => none

def matchActionTag (s : String) : Option String :=
  scanFirst matchActionTagAt s.data

/-- JS `String.prototype.trim` (kernel-evaluable). -/
def jsTrim (s : String) : String :=
  String.mk (((s.data.dropWhile (fun c => isJsWs c)).reverse.dropWhile
    (fun c => isJsWs c)).reverse)

/-- `/^\s*return\s+true\s*$/.test(bodyText.trim())`. -/
def isAlwaysTrueBody (bodyText : String) : Bool :=
  rxTestExact (rxSeq [ws0, rxLit "return", ws1, rxLit "true", ws0]) (jsTrim bodyText)

/-- `HandlerAnalyzer.analyzeInlineMatcher`, given the matcher function's
body text (`none`: no `block` child was found). -/
def analyzeInlineMatcher (funcBodyText : Option String) :
    MatcherAnalysis × HandlerTrigger :=
  match funcBodyText with
  | none =>
    ({ type := .inline_function, strictness := .loose,
       validates_schema := false, checks_authorization := false },
     emptyTrigger)
  | some bodyText =>
    let checksFrom := strIncludes bodyText "msg.From"
    let checksFrozen := strIncludes bodyText "State.Frozen" || strIncludes bodyText "Frozen"
    let checksData := strIncludes bodyText "msg.Data"
    let usesPcall := strIncludes bodyText "pcall"
    let checksType := strIncludes bodyText "type("
    let actionMatch := matchActionTag bodyText
    let trigger : HandlerTrigger :=
      { action_tag := actionMatch,
        required_tags := match actionMatch with
          | some a => mapSet [] "Action" a
          | none => [],
        checks_from := checksFrom,
        checks_data := checksData,
        checks_frozen := checksFrozen }
    let validatesSchema := usesPcall || checksType
    let strictness : Strictness :=
      if checksFrom && validatesSchema then .strict
      else if checksFrom || validatesSchema || checksFrozen then .moderate
      else .loose
    let isAlwaysTrue := isAlwaysTrueBody bodyText
    ({ type := if isAlwaysTrue then .always_true else .inline_function,
       strictness := if isAlwaysTrue then .loose else strictness,
       validates_schema := validatesSchema,
       checks_authorization := checksFrom },
     trigger)

end AoLens

namespace AoLens

/-! ## `ProcessContextBuilder.analyzeStateInit` (context, `part_024`) -/

/-- `/Safe\.initState\s*\(/` -/
def rxSafeInit : Rx := rxSeq [rxLit "Safe.initState", ws0, rxLit "("]

/-- `/^State\s*=/` -/
def rxStateEqA : Rx := rxSeq [rxLit "State", ws0, rxLit "="]

/-- `/^\s*State\s*=/` -/
def rxStateEqB : Rx := rxSeq [ws0, rxLit "State", ws0, rxLit "="]

/-- `/Owner\s*=\s*nil/` -/
def rxOwnerNil : Rx := rxSeq [rxLit "Owner", ws0, rxLit "=", ws0, rxLit "nil"]

/-- The right-hand alternation `(ao\.env\.Process\.Owner|["'][^"']+["'])`. -/
def rxOwnerRhs : Rx :=
  rxAlt [rxLit "ao.env.Process.Owner",
         rxSeq [rxCls isQuote, rxPlus (rxCls (fun c => !(isQuote c))), rxCls isQuote]]

/-- `/if\s+not\s+State\.Owner\s+then\s+State\.Owner\s*=\s*(ao\.env\.Process\.Owner|["'][^"']+["'])/` -/
def rxCondOwnerInit : Rx :=
  rxSeq [rxLit "if", ws1, rxLit "not", ws1, rxLit "State.Owner", ws1,
         rxLit "then", ws1, rxLit "State.Owner", ws0, rxLit "=", ws0, rxOwnerRhs]

/-- `/Data\s*=\s*\{/` -/
def rxDataBrace : Rx := rxSeq [rxLit "Data", ws0, rxLit "=", ws0, rxLit "\x7b"]

/-- `/^\s*(Frozen|Owner|Data)\s*=/` -/
def rxContField : Rx :=
  rxSeq [ws0, rxAlt [rxLit "Frozen", rxLit "Owner", rxLit "Data"], ws0, rxLit "="]

/-- `/State\.Owner\s*=\s*State\.Owner\s+or\s+ao\.env\.Process\.Owner/` -/
def rxOwnerOrEnv : Rx :=
  rxSeq [rxLit "State.Owner", ws0, rxLit "=", ws0, rxLit "State.Owner", ws1,
         rxLit "or", ws1, rxLit "ao.env.Process.Owner"]

/-- `/assert\s*\(\s*State\.Owner\s*~=\s*nil/` -/
def rxAssertStateOwnerNotNil : Rx :=
  rxSeq [rxLit "assert", ws0, rxLit "(", ws0, rxLit "State.Owner", ws0,
         rxLit "~=", ws0, rxLit "nil"]

/-- Leftmost capture of `/Frozen\s*=\s*(true|false)/`. -/
def matchFrozenBoolAt (cs : List Char) : Option Bool := do
  let rest ← eatLit "Frozen".data cs
  let rest := eatWs rest
  let rest ← eatLit ['='] rest
  let rest := eatWs rest
  match eatLit "true".data rest with
  | some _ => some true
  | none =>
    match eatLit "false".data rest with
    | some _ => some false
    | none => none

def matchFrozenBool (s : String) : Option Bool :=
  scanFirst matchFrozenBoolAt s.data

/-- Leftmost capture of `/Owner\s*=\s*(ao\.env\.Process\.Owner|["'][^"']+["'])/`
(the captured text keeps the surrounding quotes for the string alternative). -/
def matchOwnerValueAt (cs : List Char) : Option String := do
  let rest ← eatLit "Owner".data cs
  let rest := eatWs rest
  let rest ← eatLit ['='] rest
  let rest := eatWs rest
  match eatLit "ao.env.Process.Owner".data rest with
  | some _ => some "ao.env.Process.Owner"
  | none =>
    match rest with
    | q :: rest2 =>
      if isQuote q then
        let run := rest2.takeWhile (fun c => !(isQuote c))
        let after := rest2.drop run.length
        if run.isEmpty then none
        else match after with
          | q2 :: _ => if isQuote q2 then some (String.mk (q :: (run ++ [q2]))) else none
          | [] => none
      else none
    | [] => none

def matchOwnerValue (s : String) : Option String :=
  scanFirst matchOwnerValueAt s.data

/-- First block of the `analyzeStateInit` line loop: `State =` lines
(frozen flag, owner value, `Owner = nil` with conditional-init lookahead,
`Data = \x7b`). -/
def stateInitLineA (lines : List String) (acc : StateAnalysis) (il : Nat × String) :
    StateAnalysis :=
  let i := il.1
  let line := il.2
  let lineNumber := i + 1
  if rxTestStart rxStateEqA line || rxTestStart rxStateEqB line then
    let acc :=
      match matchFrozenBool line with
      | some b =>
        { acc with frozenInitialized := true, frozenValue := some b,
                   fields := mapSet acc.fields "Frozen" ⟨true, .boolean b, lineNumber⟩ }
      | none => acc
    let acc :=
      match matchOwnerValue line with
      | some v =>
        { acc with ownerInitialized := true, ownerSource := some v,
                   fields := mapSet acc.fields "Owner" ⟨true, .str v, lineNumber⟩ }
      | none =>
        if rxTest rxOwnerNil line then
          let nextLines := joinLines (sliceList i (i + 5) lines)
          if rxTest rxCondOwnerInit nextLines then
            { acc with ownerInitialized := true, ownerSource := some "conditional",
                       fields := mapSet acc.fields "Owner" ⟨true, .str "conditional", lineNumber⟩ }
          else
            { acc with fields := mapSet acc.fields "Owner" ⟨false, .null, lineNumber⟩ }
        else acc
    if rxTest rxDataBrace line then
      { acc with fields := mapSet acc.fields "Data" ⟨true, .table, lineNumber⟩ }
    else acc
  else acc

/-- Second block: continuation field lines (`Frozen|Owner|Data =` past the
first line). -/
def stateInitLineB (acc : StateAnalysis) (il : Nat × String) : StateAnalysis :=
  let i := il.1
  let line := il.2
  let lineNumber := i + 1
  if decide (0 < i) && rxTestStart rxContField line then
    let acc :=
      match matchFrozenBool line with
      | some b =>
        { acc with frozenInitialized := true, frozenValue := some b,
                   fields := mapSet acc.fields "Frozen" ⟨true, .boolean b, lineNumber⟩ }
      | none => acc
    match matchOwnerValue line with
    | some v =>
      { acc with ownerInitialized := true, ownerSource := some v,
                 fields := mapSet acc.fields "Owner" ⟨true, .str v, lineNumber⟩ }
    | none => acc
  else acc

/-- Third block: the `State.Owner = State.Owner or ao.env.Process.Owner`
fallback with the assert lookahead window. -/
def stateInitLineC (lines : List String) (acc : StateAnalysis) (il : Nat × String) :
    StateAnalysis :=
  let i := il.1
  let line := il.2
  let lineNumber := i + 1
  if rxTest rxOwnerOrEnv line then
    let nextLines := joinLines (sliceList i (i + 5) lines)
    if rxTest rxAssertStateOwnerNotNil nextLines then
      { acc with ownerInitialized := true, ownerSource := some "or_with_assert",
                 fields := mapSet acc.fields "Owner" ⟨true, .str "or_with_assert", lineNumber⟩ }
    else acc
  else acc

/-- One iteration of the `analyzeStateInit` line loop: the three blocks
run in sequence on the shared accumulator. -/
def stateInitStep (lines : List String) (acc : StateAnalysis) (il : Nat × String) :
    StateAnalysis :=
  stateInitLineC lines (stateInitLineB (stateInitLineA lines acc il) il) il

/-- 1-based line of the first line containing `Safe.initState(`, else 1
(the builder leaves the provisional line 1 when no single line matches). -/
def safeInitLine (lines : List String) : Nat :=
  match lines.findIdx? (fun l => rxTest rxSafeInit l) with
  | some j => j + 1
  | none => 1

/-- `ProcessContextBuilder.analyzeStateInit` (the `_rootNode` parameter is
unused in the source). -/
def analyzeStateInit (sourceCode : String) : StateAnalysis :=
  let lines := splitLines sourceCode
  let start : StateAnalysis :=
    if rxTest rxSafeInit sourceCode then
      let ln := safeInitLine lines
      { fields := mapSet (mapSet [] "Owner" ⟨true, .str "Safe.initState", ln⟩)
                    "Frozen" ⟨true, .boolean false, ln⟩,
        frozenInitialized := true, frozenValue := some false,
        ownerInitialized := true, ownerSource := some "Safe.initState" }
    else
      { fields := [], frozenInitialized := false, frozenValue := none,
        ownerInitialized := false, ownerSource := none }
  (enumLines lines).foldl (stateInitStep lines) start

/-! ## File classification (`detectLibrary`, `detectTestFile`) -/

def isSlash (c : Char) : Bool := c = '/' || c = '\\'

/-- `return\s+\1\s*$` (with the `m` flag): after `return`, whitespace, the
module name, the rest up to some line end must be whitespace. -/
def returnNameHere (name : List Char) (cs : List Char) : Bool :=
  match eatLit "return".data cs with
  | some rest =>
    match rest with
    | c :: _ =>
      if isJsWs c then
        match eatLit name (eatWs rest) with
        | some tail =>
          let pre := tail.takeWhile (fun c => isJsWs c)
          decide (pre.length = tail.length) || pre.contains '\n'
        | none => false
      else false
    | [] => false
  | none => false

def returnNameSearch (name : List Char) : List Char → Bool
  | [] => false
  | c :: rest => returnNameHere name (c :: rest) || returnNameSearch name rest

/-- Parse `local\s+(\w+)\s*=\s*\{\s*\}` at a line start and then search the
remainder for `return\s+\1\s*$`. -/
def localModuleHere (cs : List Char) : Bool :=
  match eatLit "local".data cs with
  | some r1 =>
    match r1 with
    | c :: _ =>
      if isJsWs c then
        let r2 := eatWs r1
        let name := r2.takeWhile (fun c => isWordChar c)
        if name.isEmpty then false
        else
          let r3 := eatWs (r2.drop name.length)
          match eatLit ['='] r3 with
          | some r4 =>
            match eatLit ['{'] (eatWs r4) with
            | some r5 =>
              match eatLit ['}'] (eatWs r5) with
              | some r6 => returnNameSearch name r6
              | none => false
            | none => false
          | none => false
      else false
    | [] => false
  | none => false

def localModuleScan : List Char → Bool → Bool
  | [], _ => false
  | c :: rest, atStart =>
    (atStart && localModuleHere (c :: rest)) || localModuleScan rest (c = '\n')

/-- `/^local\s+(\w+)\s*=\s*\{\s*\}[\s\S]*return\s+\1\s*$/m` — the
local-module-table library pattern (with a backreference, hence a bespoke
scanner). -/
def localModulePattern (sourceCode : String) : Bool :=
  localModuleScan sourceCode.data true

/-- `/return\s+\w+\s*(?:--[^\n]*)?\s*$/` (no `m` flag: anchored at the very
end of the source). -/
def moduleReturnPattern (sourceCode : String) : Bool :=
  rxTestEnd (rxSeq [rxLit "return", ws1, rxPlus rxWord, ws0,
                    rxOpt (rxSeq [rxLit "--", .star Rx.dot]), ws0]) sourceCode

/-- The annotation pattern: two dashes, then `\s*@ao-lens[:\s-]library`. -/
def rxLibraryAnnotation : Rx :=
  rxSeq [rxLit "--", ws0, rxLit "@ao-lens",
         rxCls (fun c => c = ':' || isJsWs c || c = '-'), rxLit "library"]

/-- `ProcessContextBuilder.detectLibrary`. -/
def detectLibrary (sourceCode filePath : String) : Bool :=
  if rxTest (rxSeq [rxCls isSlash, rxLit "lib", rxCls isSlash]) filePath then true
  else if moduleReturnPattern sourceCode then true
  else if rxTest rxLibraryAnnotation sourceCode then true
  else if localModulePattern sourceCode then true
  else false

/-- Split at every slash or backslash, keeping empty segments. -/
def splitSlashGo (acc : List Char) : List Char → List String
  | [] => [String.mk acc.reverse]
  | c :: cs =>
    if isSlash c then String.mk acc.reverse :: splitSlashGo [] cs
    else splitSlashGo (c :: acc) cs

/-- `filePath.split(/[\/\\]/).pop() || ""`. -/
def fileNameOf (filePath : String) : String :=
  (splitSlashGo [] filePath.data).getLastD ""

/-- `ProcessContextBuilder.detectTestFile`. -/
def detectTestFile (filePath : String) : Bool :=
  if rxTest (rxSeq [rxCls isSlash, rxLit "test", rxCls isSlash]) filePath then true
  else
    let fileName := fileNameOf filePath
    if rxTestStart (rxLit "test_") fileName || rxTestEnd (rxLit "_test.lua") fileName then true
    else if fileName = "test.lua" then true
    else false

end AoLens

namespace AoLens

/-! ## Tree-derived per-handler facts (`StateAnalyzer` query results)

`checkAuthPattern`, `findStateAccessInRange` and `findAoSendsInRange`
walk the external parser's tree; their results are inputs here. -/

inductive AuthPattern where
  | assert | conditional | mixed | safe_library | none
deriving DecidableEq, Repr

inductive AuthLocation where
  | matcher | body | both | internal | none
deriving DecidableEq, Repr

/-- Result of `StateAnalyzer.checkAuthPattern` (its `pattern` is always
`assert`, `conditional` or `none`). -/
structure AuthCheckResult where
  validates : Bool
  pattern : AuthPattern
deriving DecidableEq, Repr

/-- One entry of `findStateAccessInRange().reads/writes` (the `type` tag is
determined by which list it sits in). -/
structure StateAccessFact where
  field : String
  line : Nat
deriving DecidableEq, Repr

/-- One entry of `findAoSendsInRange` (target and action label). -/
structure SendFact where
  target : String
  action : Option String
deriving DecidableEq, Repr

structure HandlerBodyFacts where
  auth : AuthCheckResult
  reads : List StateAccessFact
  writes : List StateAccessFact
  sends : List SendFact
deriving DecidableEq, Repr

/-- The `bodyAnalysis` object assembled by `buildHandlerContext`. -/
structure BodyAnalysis where
  validates_auth : Bool
  auth_pattern : AuthPattern
  checks_frozen : Bool
  parses_json : Bool
  json_is_pcalled : Bool
  state_reads : List String
  state_writes : List String
  ao_sends : List SendFact
  local_functions_called : List String
deriving DecidableEq, Repr

/-- `HandlerContext` of `security/types.ts` (the nested `auth`/`frozen`
objects are flattened into `authLocation`/`authPattern`/`frozenLocation`). -/
structure HandlerContext where
  name : String
  startLine : Nat
  endLine : Nat
  handlerInfo : HandlerInfo
  bodyAnalysis : BodyAnalysis
  authLocation : AuthLocation
  authPattern : AuthPattern
  frozenLocation : AuthLocation
  isSafeLibrary : Bool
  mutatesState : Bool
  stateFieldsWritten : List String
  sendsResponse : Bool
  responseTargets : List String
deriving DecidableEq, Repr

structure ProjectContext where
  usesFrozen : Bool
  usesAuth : Bool
  handlerCount : Nat
  hasStateInit : Bool
deriving DecidableEq, Repr

/-- `ProcessContext` of `security/types.ts`.  `isAosStyle` is read by the
`OWNER_NEVER_INITIALIZED` check but is absent from the TS `ProcessContext`
type and never assigned by the builder, so at runtime it is `undefined`
(falsy); the builder sets it to `false`. -/
structure ProcessContext where
  sourceCode : String
  filePath : String
  isLibrary : Bool
  isTestFile : Bool
  state : StateAnalysis
  handlers : List (String × HandlerContext)
  project : ProjectContext
  isAosStyle : Bool
deriving DecidableEq, Repr

/-! ## `ProcessContextBuilder.buildHandlerContext` / `build` -/

/-- `extractLines`. -/
def extractLines (sourceCode : String) (startLine endLine : Nat) : String :=
  joinLines (sliceList (startLine - 1) endLine (splitLines sourceCode))

/-- `/msg\.reply\s*\(/` -/
def rxMsgReply : Rx := rxSeq [rxLit "msg.reply", ws0, rxLit "("]

/-- `/Safe\.reply\s*\(/` -/
def rxSafeReply : Rx := rxSeq [rxLit "Safe.reply", ws0, rxLit "("]

/-- `/pcall\s*\(\s*json\.decode/` -/
def rxPcallJsonDecode : Rx :=
  rxSeq [rxLit "pcall", ws0, rxLit "(", ws0, rxLit "json.decode"]

/-- `/pcall\s*\(\s*function.*json\.decode/` -/
def rxPcallFunctionJsonDecode : Rx :=
  rxSeq [rxLit "pcall", ws0, rxLit "(", ws0, rxLit "function", .star Rx.dot,
         rxLit "json.decode"]

def buildHandlerContext (sourceCode : String) (hi : HandlerInfo)
    (bf : HandlerBodyFacts) : HandlerContext :=
  let startLine := hi.line
  let endLine := hi.end_line
  let isSafeLibrary := hi.is_safe_library
  let handlerSource := extractLines sourceCode startLine endLine
  let hasMsgReply := rxTest rxMsgReply handlerSource
  let hasSafeReply := rxTest rxSafeReply handlerSource
  let hasAoSend := decide (0 < bf.sends.length)
  let safeOwner := (hi.safe_options.map (fun o => o.owner)).getD false
  let safeFrozen := (hi.safe_options.map (fun o => o.frozen)).getD false
  let authLocation : AuthLocation :=
    if isSafeLibrary then
      if safeOwner then .internal else .none
    else
      let matcherHasAuth := hi.matcher_analysis.checks_authorization
      let bodyHasAuth := bf.auth.validates
      if matcherHasAuth && bodyHasAuth then .both
      else if matcherHasAuth then .matcher
      else if bodyHasAuth then .body
      else .none
  let authPattern : AuthPattern :=
    if isSafeLibrary then
      if safeOwner then .safe_library else .none
    else bf.auth.pattern
  let frozenLocation : AuthLocation :=
    if isSafeLibrary then
      if safeFrozen then .internal else .none
    else
      let matcherHasFrozen := hi.trigger.checks_frozen
      let bodyHasFrozen := strIncludes handlerSource "State.Frozen"
      if matcherHasFrozen && bodyHasFrozen then .both
      else if matcherHasFrozen then .matcher
      else if bodyHasFrozen then .body
      else .none
  let bodyHasFrozenCheck := strIncludes handlerSource "State.Frozen"
  let bodyAnalysis : BodyAnalysis :=
    { validates_auth := if isSafeLibrary then safeOwner else bf.auth.validates,
      auth_pattern := authPattern,
      checks_frozen := if isSafeLibrary then safeFrozen else bodyHasFrozenCheck,
      parses_json := isSafeLibrary || strIncludes handlerSource "json.decode",
      json_is_pcalled := isSafeLibrary
        || rxTest rxPcallJsonDecode handlerSource
        || rxTest rxPcallFunctionJsonDecode handlerSource,
      state_reads := bf.reads.map (fun r => r.field),
      state_writes := bf.writes.map (fun w => w.field),
      ao_sends := bf.sends,
      local_functions_called := [] }
  { name := hi.name,
    startLine := startLine,
    endLine := endLine,
    handlerInfo := hi,
    bodyAnalysis := bodyAnalysis,
    authLocation := authLocation,
    authPattern := authPattern,
    frozenLocation := frozenLocation,
    isSafeLibrary := isSafeLibrary,
    mutatesState := decide (0 < bf.writes.length),
    stateFieldsWritten := bf.writes.map (fun w => w.field),
    sendsResponse := hasAoSend || hasMsgReply || hasSafeReply,
    responseTargets := bf.sends.map (fun s => s.target) }

/-- `ProcessContextBuilder.buildProjectContext`. -/
def buildProjectContext (handlers : List (String × HandlerContext))
    (state : StateAnalysis) : ProjectContext :=
  let usesFrozen := state.frozenInitialized
    || handlers.any (fun p => p.2.frozenLocation ≠ AuthLocation.none)
  let usesAuth := handlers.any (fun p => p.2.authLocation ≠ AuthLocation.none)
  { usesFrozen := usesFrozen,
    usesAuth := usesAuth,
    handlerCount := handlers.length,
    hasStateInit := decide (0 < state.fields.length) }

/-- `ProcessContextBuilder.build`.  `handlerFacts` bundles the result of
`findHandlers` with the per-handler `StateAnalyzer` query results, both
derived from the external parser's tree. -/
def build (sourceCode filePath : String)
    (handlerFacts : List (HandlerInfo × HandlerBodyFacts)) : ProcessContext :=
  let isLibrary := detectLibrary sourceCode filePath
  let isTestFile := detectTestFile filePath
  let state := analyzeStateInit sourceCode
  let handlers := handlerFacts.foldl
    (fun m p => mapSet m p.1.name (buildHandlerContext sourceCode p.1 p.2)) []
  let project := buildProjectContext handlers state
  { sourceCode := sourceCode, filePath := filePath,
    isLibrary := isLibrary, isTestFile := isTestFile,
    state := state, handlers := handlers, project := project,
    isAosStyle := false }

end AoLens

namespace AoLens

/-! ## Shared check utilities -/

/-- First index of `sub` in `cs` (JS `String.prototype.indexOf`). -/
def idxOfSubAux (sub : List Char) : List Char → Nat → Option Nat
  | [], i => if sub.isEmpty then some i else none
  | c :: cs, i =>
    if List.isPrefixOf sub (c :: cs) then some i else idxOfSubAux sub cs (i + 1)

def idxOfSub (s sub : String) : Option Nat :=
  idxOfSubAux sub.data s.data 0

/-- Number of occurrences of a character. -/
def countChar (s : String) (c : Char) : Nat :=
  (s.data.filter (fun x => x = c)).length

/-- `stripLuaComments` (defined identically in `types.ts`, the json check
module and the determinism check module). -/
def stripLuaComments (line : String) : String :=
  match idxOfSub line "--" with
  | none => line
  | some commentIndex =>
    let beforeComment := String.mk (line.data.take commentIndex)
    let singleQuotes := countChar beforeComment '\''
    let doubleQuotes := countChar beforeComment '"'
    if singleQuotes % 2 = 1 || doubleQuotes % 2 = 1 then line
    else beforeComment

/-- Case-insensitive prefix test: `/^Pat/i.test(name)`. -/
def startsWithCI (s p : String) : Bool :=
  List.isPrefixOf (p.data.map Char.toLower) (s.data.map Char.toLower)

/-- Case-insensitive equality (for `/^(A|B)$/i`-style full matches). -/
def eqCI (s p : String) : Bool :=
  s.data.map Char.toLower = p.data.map Char.toLower

/-- Search with a one-character negative lookbehind: a position matches when
the preceding character (if any) does not satisfy `bad` and `r` matches a
prefix of the remaining text. -/
def searchWithPrev (bad : Char → Bool) (r : Rx) : Option Char → List Char → Bool
  | _, [] => false
  | prev, c :: cs =>
    (!((prev.map bad).getD false) && Rx.matchList (.cat r Rx.anyStar) (c :: cs))
      || searchWithPrev bad r (some c) cs

/-- `(?<![A-Za-z_])` style search. -/
def rxTestNoPrev (bad : Char → Bool) (r : Rx) (s : String) : Bool :=
  searchWithPrev bad r none s.data

/-- Search for a literal with a trailing word boundary (`lit\b`). -/
def searchLitBoundary (lit : List Char) : List Char → Bool
  | [] => false
  | c :: cs =>
    (List.isPrefixOf lit (c :: cs)
      && (match (c :: cs).drop lit.length with
          | [] => true
          | d :: _ => !isWordChar d))
      || searchLitBoundary lit cs

/-- Search for a word-bounded literal (`\blit\b`), e.g. `/\bend\b/`. -/
def searchWordLit (lit : List Char) : Option Char → List Char → Bool
  | _, [] => false
  | prev, c :: cs =>
    (!((prev.map isWordChar).getD false)
      && List.isPrefixOf lit (c :: cs)
      && (match (c :: cs).drop lit.length with
          | [] => true
          | d :: _ => !isWordChar d))
      || searchWordLit lit (some c) cs

/-- `/\bend\b/.test(s)` -/
def testWordEnd (s : String) : Bool :=
  searchWordLit "end".data none s.data

/-- `/\bfunction\s*\(/.test(s)` (leading word boundary). -/
def testWordFunctionParen (s : String) : Bool :=
  rxTestNoPrev isWordChar (rxSeq [rxLit "function", ws0, rxLit "("]) s

/-- `types.ts` `findHandlerAtLine`. -/
def findHandlerAtLine (ctx : ProcessContext) (line : Nat) : Option HandlerContext :=
  (ctx.handlers.find? (fun p => p.2.startLine ≤ line && line ≤ p.2.endLine)).map
    (fun p => p.2)

/-- `SecurityCheck` of `security/types.ts`.  `appliesToLibrary` defaults to
`false` (TS `undefined` is falsy in `!check.appliesToLibrary`);
`appliesToTestFile` defaults to `true` (TS skips only on `=== false`). -/
structure SecurityCheck where
  id : String
  category : String
  description : String
  appliesToLibrary : Bool := false
  appliesToTestFile : Bool := true
  run : ProcessContext → List Finding

end AoLens

namespace AoLens

/-! ## Authorization checks (`checks/auth.ts`) -/

def noAuthCheckRun (ctx : ProcessContext) : List Finding :=
  ctx.handlers.flatMap (fun p =>
    let name := p.1
    let handler := p.2
    if !handler.mutatesState then []
    else if handler.authLocation = AuthLocation.none then
      [{ code := "NO_AUTH_CHECK",
         message := "Mutating handler \"" ++ name ++ "\" has no authorization check",
         severity := .critical,
         line := handler.startLine,
         fix := some "Add auth check: if msg.From ~= State.Owner then return false end" }]
    else [])

def hasMatchingTagNoHandlerAuthRun (ctx : ProcessContext) : List Finding :=
  ctx.handlers.flatMap (fun p =>
    let name := p.1
    let handler := p.2
    let info := handler.handlerInfo
    if info.signature_type = SignatureType.hasMatchingTag
        && handler.authLocation = AuthLocation.none
        && handler.mutatesState then
      [{ code := "HASMATCHING_TAG_NO_HANDLER_AUTH",
         message := "Handler \"" ++ name ++ "\" uses hasMatchingTag but has no handler body auth",
         severity := .critical,
         line := handler.startLine,
         fix := some "Add assert(msg.From == State.Owner, 'Unauthorized') in handler body" }]
    else [])

def looseMatcherWithBodyAuthRun (ctx : ProcessContext) : List Finding :=
  ctx.handlers.flatMap (fun p =>
    let name := p.1
    let handler := p.2
    let info := handler.handlerInfo
    if info.matcher_analysis.strictness = Strictness.loose
        && handler.authLocation = AuthLocation.body then
      [{ code := "LOOSE_MATCHER_WITH_BODY_AUTH",
         message := "Handler \"" ++ name ++ "\" has body auth but loose matcher",
         severity := .low,
         line := handler.startLine,
         fix := some "Consider adding auth check to matcher for defense-in-depth" }]
    else [])

def missingBeltAndSuspendersRun (ctx : ProcessContext) : List Finding :=
  ctx.handlers.flatMap (fun p =>
    let name := p.1
    let handler := p.2
    if handler.authLocation = AuthLocation.matcher && handler.mutatesState then
      [{ code := "MISSING_BELT_AND_SUSPENDERS",
         message := "Handler \"" ++ name ++ "\" has auth in matcher but not in body",
         severity := .medium,
         line := handler.startLine,
         fix := some "Add assert(msg.From == State.Owner, 'Unauthorized') in handler body too" }]
    else [])

/-- `/require\s*\(\s*['"][^'"]*acl[^'"]*['"]\s*\)/` -/
def rxAclRequire : Rx :=
  rxSeq [rxLit "require", ws0, rxLit "(", ws0, rxCls isQuote,
         .star (rxCls (fun c => !(isQuote c))), rxLit "acl",
         .star (rxCls (fun c => !(isQuote c))), rxCls isQuote, ws0, rxLit ")"]

def ownerNeverInitializedRun (ctx : ProcessContext) : List Finding :=
  if ctx.project.usesAuth && !ctx.state.ownerInitialized then
    let hasAclModule := rxTest rxAclRequire ctx.sourceCode
    let hasDirectOwnerAuth := rxTest (rxLit "ao.env.Process.Owner") ctx.sourceCode
    if hasAclModule || hasDirectOwnerAuth then []
    else if ctx.isAosStyle && !(rxTest (rxLit "State.Owner") ctx.sourceCode) then []
    else
      match ctx.handlers.find? (fun p => p.2.authLocation ≠ AuthLocation.none) with
      | some _ =>
        [{ code := "OWNER_NEVER_INITIALIZED",
           message := "State.Owner is referenced but never properly initialized",
           severity := .critical,
           line := 1,
           fix := some "Initialize Owner: State = State or \x7b Owner = ao.env.Process.Owner \x7d" }]
      | none => []
  else []

def localStateShadowRun (ctx : ProcessContext) : List Finding :=
  let lines := splitLines ctx.sourceCode
  (enumLines lines).flatMap (fun il =>
    let i := il.1
    let line := il.2
    -- /^\s*local\s+State\s*=/
    if rxTestStart (rxSeq [ws0, rxLit "local", ws1, rxLit "State", ws0, rxLit "="]) line then
      [{ code := "LOCAL_STATE_SHADOW",
         message := "local State = shadows global state - state won't persist across messages",
         severity := .critical,
         line := i + 1,
         fix := some "Remove 'local' keyword: use 'State = State or \x7b...\x7d' for global holographic state" }]
    else [])

/-- `/Owner\s*=\s*[^,}]*\s+or\s+/` -/
def rxOwnerOrAny : Rx :=
  rxSeq [rxLit "Owner", ws0, rxLit "=", ws0, .star (rxNone [',', '}']),
         ws1, rxLit "or", ws1]

/-- `/assert\s*\(\s*[^,)]+Owner[^,)]*~=\s*nil/` -/
def rxAssertAnyOwnerNotNil : Rx :=
  rxSeq [rxLit "assert", ws0, rxLit "(", ws0, rxPlus (rxNone [',', ')']),
         rxLit "Owner", .star (rxNone [',', ')']), rxLit "~=", ws0, rxLit "nil"]

def unsafeOwnerOrPatternRun (ctx : ProcessContext) : List Finding :=
  let lines := splitLines ctx.sourceCode
  (enumLines lines).flatMap (fun il =>
    let i := il.1
    let line := il.2
    if rxTest rxOwnerOrAny line && !(rxTest (rxLit "ao.env.Process.Owner") line) then
      let nextLines := joinLines (sliceList i (i + 6) lines)
      let hasAssert := rxTest rxAssertStateOwnerNotNil nextLines
        || rxTest rxAssertAnyOwnerNotNil nextLines
      if !hasAssert then
        [{ code := "UNSAFE_OWNER_OR_PATTERN",
           message := "Owner set with 'or' pattern without assert - could remain nil",
           severity := .critical,
           line := i + 1,
           fix := some "Add assert(State.Owner ~= nil, 'Owner not initialized') after assignment" }]
      else []
    else [])

def matcherMissingActionTagRun (ctx : ProcessContext) : List Finding :=
  ctx.handlers.flatMap (fun p =>
    let name := p.1
    let handler := p.2
    let info := handler.handlerInfo
    if info.signature_type ≠ SignatureType.function_matcher then []
    else if info.trigger.action_tag ≠ Option.none then []
    else
      let severity : Severity := if handler.mutatesState then .high else .medium
      [{ code := "MATCHER_MISSING_ACTION_TAG",
         message := "Handler \"" ++ name ++ "\" matcher does not validate msg.Tags.Action - may trigger on unintended messages",
         severity := severity,
         line := handler.startLine,
         fix := some ("Add in matcher: if msg.Tags.Action ~= \"" ++ name ++ "\" then return false end") }])

def ownerExplicitNilRun (ctx : ProcessContext) : List Finding :=
  let lines := splitLines ctx.sourceCode
  (enumLines lines).flatMap (fun il =>
    let i := il.1
    let line := il.2
    -- /(?<![A-Za-z_])Owner\s*=\s*nil/
    if rxTestNoPrev isAlphaUnd rxOwnerNil line then
      [{ code := "OWNER_EXPLICIT_NIL",
         message := "Owner = nil creates nil==nil bypass vulnerability for all auth checks",
         severity := .critical,
         line := i + 1,
         fix := some "Initialize Owner from spawn: Owner = ao.env.Process.Owner" }]
    else [])

/-- `/(?:State\.)?Owner\s*=\s*(?:State\.)?Owner\s+or\s+msg\.From/` -/
def rxFirstCallerWins : Rx :=
  rxSeq [rxOpt (rxLit "State."), rxLit "Owner", ws0, rxLit "=", ws0,
         rxOpt (rxLit "State."), rxLit "Owner", ws1, rxLit "or", ws1,
         rxLit "msg.From"]

def firstCallerWinsOwnerRun (ctx : ProcessContext) : List Finding :=
  let lines := splitLines ctx.sourceCode
  (enumLines lines).flatMap (fun il =>
    let i := il.1
    let line := il.2
    if rxTest rxFirstCallerWins line then
      [{ code := "FIRST_CALLER_WINS_OWNER",
         message := "First-caller-wins owner pattern: any caller can claim ownership before legitimate owner",
         severity := .critical,
         line := i + 1,
         fix := some "Use spawn parameter: State.Owner = ao.env.Process.Owner or require explicit Init handler" }]
    else [])

/-- `/Target\s*=\s*msg\.From/` -/
def rxTargetMsgFrom : Rx := rxSeq [rxLit "Target", ws0, rxLit "=", ws0, rxLit "msg.From"]

def aoSendTargetNoNilGuardRun (ctx : ProcessContext) : List Finding :=
  let lines := splitLines ctx.sourceCode
  (enumLines lines).flatMap (fun il =>
    let i := il.1
    let line := il.2
    -- /ao\.send\s*\(\s*\{/ or /Target\s*=\s*msg\.From/
    if rxTest (rxSeq [rxLit "ao.send", ws0, rxLit "(", ws0, rxLit "\x7b"]) line
        || rxTest rxTargetMsgFrom line then
      let context := joinLines (sliceList (i - 2) (min lines.length (i + 5)) lines)
      if rxTest rxTargetMsgFrom context then
        let handlerContext := joinLines (sliceList (i - 15) (i + 1) lines)
        let hasNilGuard :=
          rxTest (rxSeq [rxLit "if", ws1, rxLit "not", ws1, rxLit "msg.From"]) handlerContext
          || rxTest (rxSeq [rxLit "msg.From", ws1, rxLit "and", ws1]) handlerContext
          || rxTest (rxSeq [rxLit "assert", ws0, rxLit "(", ws0, rxLit "msg.From"]) handlerContext
        if !hasNilGuard && rxTest rxTargetMsgFrom line then
          match findHandlerAtLine ctx (i + 1) with
          | some handler =>
            if handler.handlerInfo.signature_type = SignatureType.hasMatchingTag then []
            else
              [{ code := "AO_SEND_TARGET_NO_NIL_GUARD",
                 message := "Target = msg.From without nil guard - may fail if msg.From is nil",
                 severity := .medium,
                 line := i + 1,
                 fix := some "Add guard: if not msg.From then return end before ao.send()" }]
          | none =>
            [{ code := "AO_SEND_TARGET_NO_NIL_GUARD",
               message := "Target = msg.From without nil guard - may fail if msg.From is nil",
               severity := .medium,
               line := i + 1,
               fix := some "Add guard: if not msg.From then return end before ao.send()" }]
        else []
      else []
    else [])

end AoLens

namespace AoLens

/-! ### `ARBITRARY_STATE_OVERWRITE` -/

/-- `/State\s*\[\s*\w+\s*\]\s*=/` -/
def rxStateDynKeyAssign : Rx :=
  rxSeq [rxLit "State", ws0, rxLit "[", ws0, rxPlus rxWord, ws0, rxLit "]", ws0, rxLit "="]

/-- `/State\s*\[\s*["']/` -/
def rxStateLitKey : Rx :=
  rxSeq [rxLit "State", ws0, rxLit "[", ws0, rxCls isQuote]

/-- `/if\s+State\s*\[\s*\w+\s*\]\s*==\s*nil\s+then/` -/
def rxIfStateKeyNil : Rx :=
  rxSeq [rxLit "if", ws1, rxLit "State", ws0, rxLit "[", ws0, rxPlus rxWord, ws0,
         rxLit "]", ws0, rxLit "==", ws0, rxLit "nil", ws1, rxLit "then"]

/-- `/for\s+\w+\s*,\s*\w+\s+in\s+pairs/` -/
def rxForPairs : Rx :=
  rxSeq [rxLit "for", ws1, rxPlus rxWord, ws0, rxLit ",", ws0, rxPlus rxWord,
         ws1, rxLit "in", ws1, rxLit "pairs"]

/-- `/State\s*\[\s*\w+\s*\]\s*=\s*\w+/` -/
def rxStateKeyAssignWord : Rx :=
  rxSeq [rxLit "State", ws0, rxLit "[", ws0, rxPlus rxWord, ws0, rxLit "]",
         ws0, rxLit "=", ws0, rxPlus rxWord]

/-- `/if\s+State\s*\[\s*\w+\s*\]\s*==\s*nil\s+then[\s\S]*?State\s*\[\s*\w+\s*\]\s*=/` -/
def rxNilGuardLoop : Rx :=
  rxSeq [rxIfStateKeyNil, Rx.anyStar, rxStateDynKeyAssign]

/-- `/result\s*\[\s*\w+\s*\]\s*=\s*\w+/` -/
def rxResultKeyAssign : Rx :=
  rxSeq [rxLit "result", ws0, rxLit "[", ws0, rxPlus rxWord, ws0, rxLit "]",
         ws0, rxLit "=", ws0, rxPlus rxWord]

/-- Leftmost capture of `/pairs\s*\(\s*(\w+)\s*\)/`. -/
def pairsMatchAt (cs : List Char) : Option String := do
  let rest ← eatLit "pairs".data cs
  let rest := eatWs rest
  let rest ← eatLit ['('] rest
  let rest := eatWs rest
  let run := rest.takeWhile (fun c => isWordChar c)
  if run.isEmpty then none
  else
    let rest2 := eatWs (rest.drop run.length)
    match eatLit [')'] rest2 with
    | some _ => some (String.mk run)
    | none => none

def pairsMatch (s : String) : Option String :=
  scanFirst pairsMatchAt s.data

/-- Leftmost captures of `/(\w+)\s*\[\s*\w+\s*\]\s*=\s*(\w+)/`. -/
def stateWriteMatchAt (cs : List Char) : Option (String × String) :=
  let run1 := cs.takeWhile (fun c => isWordChar c)
  if run1.isEmpty then none
  else
    let r1 := eatWs (cs.drop run1.length)
    match eatLit ['['] r1 with
    | none => none
    | some r2 =>
      let r2 := eatWs r2
      let run2 := r2.takeWhile (fun c => isWordChar c)
      if run2.isEmpty then none
      else
        let r3 := eatWs (r2.drop run2.length)
        match eatLit [']'] r3 with
        | none => none
        | some r4 =>
          match eatLit ['='] (eatWs r4) with
          | none => none
          | some r5 =>
            let r5 := eatWs r5
            let run3 := r5.takeWhile (fun c => isWordChar c)
            if run3.isEmpty then none
            else some (String.mk run1, String.mk run3)

def stateWriteMatch (s : String) : Option (String × String) :=
  scanFirst stateWriteMatchAt s.data

def trustedSources : List String :=
  ["defaults", "schema", "opts", "options", "config", "keys"]

/-- The first block of the `ARBITRARY_STATE_OVERWRITE` line loop (dynamic
`State[key] =` outside a loop).  Returns `none` when the `continue`
statement is reached (skipping the second block too). -/
def arbitraryStateBlockA (lines : List String) (i : Nat) (line : String) :
    Option (List Finding) :=
  if rxTest rxStateDynKeyAssign line then
    if !(rxTest rxStateLitKey line) then
      let prevLine := if 0 < i then (lines.drop (i - 1)).headD "" else ""
      let combinedContext := prevLine ++ " " ++ line
      if rxTest rxIfStateKeyNil combinedContext then none
      else
        some [{ code := "ARBITRARY_STATE_OVERWRITE",
                message := "Dynamic State[key] = value allows overwriting Owner/Frozen",
                severity := .critical,
                line := i + 1,
                fix := some "Whitelist allowed keys: if key == 'Params' then State.Params = value end" }]
    else some []
  else some []

/-- The second block (`for k,v in pairs` loops writing to `State`). -/
def arbitraryStateBlockB (lines : List String) (i : Nat) (line : String) :
    List Finding :=
  if rxTest rxForPairs line then
    let context := joinLines (sliceList i (min lines.length (i + 8)) lines)
    if rxTest rxStateKeyAssignWord context then
      if rxTest rxNilGuardLoop context then []
      else
        let trusted :=
          match pairsMatch line with
          | some iterSource => trustedSources.contains iterSource
          | none => false
        if trusted then []
        else
          let safe3 :=
            if !(rxTest rxStateDynKeyAssign context) || rxTest rxResultKeyAssign context then
              match stateWriteMatch context with
              | some m => m.1 ≠ "State"
              | none => false
            else false
          if safe3 then []
          else
            [{ code := "ARBITRARY_STATE_OVERWRITE",
               message := "Loop writes user input keys to State - can overwrite Owner/Frozen",
               severity := .critical,
               line := i + 1,
               fix := some "Whitelist allowed keys instead of blindly copying all" }]
    else []
  else []

def arbitraryStateOverwriteRun (ctx : ProcessContext) : List Finding :=
  let lines := splitLines ctx.sourceCode
  (enumLines lines).flatMap (fun il =>
    let i := il.1
    let line := il.2
    match arbitraryStateBlockA lines i line with
    | none => []
    | some fs => fs ++ arbitraryStateBlockB lines i line)

def authChecks : List SecurityCheck :=
  [{ id := "NO_AUTH_CHECK", category := "auth",
     description := "Handler has no authorization check",
     appliesToTestFile := false, run := noAuthCheckRun },
   { id := "HASMATCHING_TAG_NO_HANDLER_AUTH", category := "auth",
     description := "hasMatchingTag pattern without body authorization",
     appliesToTestFile := false, run := hasMatchingTagNoHandlerAuthRun },
   { id := "LOOSE_MATCHER_WITH_BODY_AUTH", category := "auth",
     description := "Handler has auth in body but uses loose matcher (informational)",
     run := looseMatcherWithBodyAuthRun },
   { id := "MISSING_BELT_AND_SUSPENDERS", category := "auth",
     description := "Auth in matcher but not in body (missing defense-in-depth)",
     appliesToTestFile := false, run := missingBeltAndSuspendersRun },
   { id := "OWNER_NEVER_INITIALIZED", category := "auth",
     description := "State.Owner is never properly initialized",
     appliesToTestFile := false, run := ownerNeverInitializedRun },
   { id := "LOCAL_STATE_SHADOW", category := "auth",
     description := "local State = shadows global state, state won't persist across messages",
     run := localStateShadowRun },
   { id := "UNSAFE_OWNER_OR_PATTERN", category := "auth",
     description := "Owner set with 'or' pattern without subsequent assert verification",
     appliesToTestFile := false, run := unsafeOwnerOrPatternRun },
   { id := "MATCHER_MISSING_ACTION_TAG", category := "auth",
     description := "Handler matcher does not validate msg.Tags.Action - may trigger on unintended messages",
     run := matcherMissingActionTagRun },
   { id := "OWNER_EXPLICIT_NIL", category := "auth",
     description := "State.Owner explicitly set to nil creates nil==nil bypass vulnerability",
     appliesToTestFile := false, run := ownerExplicitNilRun },
   { id := "FIRST_CALLER_WINS_OWNER", category := "auth",
     description := "First message sender becomes owner - race condition vulnerability",
     appliesToTestFile := false, run := firstCallerWinsOwnerRun },
   { id := "AO_SEND_TARGET_NO_NIL_GUARD", category := "auth",
     description := "ao.send() with Target = msg.From without nil check",
     run := aoSendTargetNoNilGuardRun },
   { id := "ARBITRARY_STATE_OVERWRITE", category := "auth",
     description := "Dynamic key assignment to State allows overwriting critical fields like Owner",
     appliesToTestFile := false, run := arbitraryStateOverwriteRun }]

end AoLens

namespace AoLens

/-! ## Frozen-state checks (`checks/frozen.ts`) -/

def frozenMutatingNamePatterns : List String :=
  ["Update", "Set", "Delete", "Remove", "Add", "Create",
   "Modify", "Change", "Edit", "Write", "Save", "Store",
   "Transfer", "Mint", "Burn", "Freeze", "Unfreeze",
   "Register", "Deregister", "Subscribe", "Unsubscribe"]

def readOnlyNamePatterns : List String :=
  ["Get", "Query", "List", "Info", "Status", "Read"]

def noFrozenCheckRun (ctx : ProcessContext) : List Finding :=
  ctx.handlers.flatMap (fun p =>
    let name := p.1
    let handler := p.2
    let isMutatingByName := frozenMutatingNamePatterns.any (fun pat => startsWithCI name pat)
    let isMutatingByState := handler.mutatesState
    let isReadOnly := readOnlyNamePatterns.any (fun pat => startsWithCI name pat)
    if !isMutatingByName && !isMutatingByState then []
    else if isReadOnly && !isMutatingByState then []
    else if handler.frozenLocation = AuthLocation.none then
      let reason := if isMutatingByName
        then "name pattern \"" ++ name ++ "\" suggests mutation"
        else "writes to State"
      [{ code := "NO_FROZEN_CHECK",
         message := "Handler \"" ++ name ++ "\" does not check Frozen state (" ++ reason ++ ")",
         severity := .high,
         line := handler.startLine,
         fix := some "Use Safe.handler() which handles frozen checks automatically, or add: if State.Frozen then return false end" }]
    else [])

def stateFrozenNotInitializedRun (ctx : ProcessContext) : List Finding :=
  let anyHandlerChecksFrozen :=
    ctx.handlers.any (fun p => p.2.frozenLocation ≠ AuthLocation.none)
  if anyHandlerChecksFrozen && !ctx.state.frozenInitialized then
    [{ code := "STATE_FROZEN_NOT_INITIALIZED",
       message := "State.Frozen is checked but never initialized - will be nil on first message",
       severity := .high,
       line := 1,
       fix := some "Initialize Frozen: State = State or \x7b Frozen = false \x7d" }]
  else []

def assertNotFrozenNilBypassRun (ctx : ProcessContext) : List Finding :=
  if ctx.state.frozenInitialized then []
  else
    let lines := splitLines ctx.sourceCode
    (enumLines lines).flatMap (fun il =>
      let i := il.1
      let line := il.2
      -- /assert\s*\(\s*not\s+State\.Frozen/
      if rxTest (rxSeq [rxLit "assert", ws0, rxLit "(", ws0, rxLit "not", ws1,
                        rxLit "State.Frozen"]) line then
        [{ code := "ASSERT_NOT_FROZEN_NIL_BYPASS",
           message := "assert(not State.Frozen) bypassed when Frozen is nil (not nil = true)",
           severity := .high,
           line := i + 1,
           fix := some "Use: assert(State.Frozen == false, 'Process is frozen') or initialize Frozen = false" }]
      else [])

def frozenCheckNotInMatcherRun (ctx : ProcessContext) : List Finding :=
  ctx.handlers.flatMap (fun p =>
    let name := p.1
    let handler := p.2
    let info := handler.handlerInfo
    if info.signature_type = SignatureType.table then []
    else if info.signature_type = SignatureType.hasMatchingTag then []
    else if handler.frozenLocation = AuthLocation.body
        && info.signature_type = SignatureType.function_matcher then
      [{ code := "FROZEN_CHECK_NOT_IN_MATCHER",
         message := "Handler \"" ++ name ++ "\" checks Frozen in body but not matcher (wastes compute)",
         severity := .medium,
         line := handler.startLine,
         fix := some "Add frozen check to matcher: if State.Frozen then return false end" }]
    else [])

def frozenChecks : List SecurityCheck :=
  [{ id := "NO_FROZEN_CHECK", category := "frozen",
     description := "Mutating handler does not check Frozen state",
     appliesToTestFile := false, run := noFrozenCheckRun },
   { id := "STATE_FROZEN_NOT_INITIALIZED", category := "frozen",
     description := "Project uses Frozen checks but Frozen is not initialized",
     appliesToTestFile := false, run := stateFrozenNotInitializedRun },
   { id := "ASSERT_NOT_FROZEN_NIL_BYPASS", category := "frozen",
     description := "assert(not State.Frozen) can be bypassed if Frozen is nil (nil is falsy, so not nil = true)",
     appliesToTestFile := false, run := assertNotFrozenNilBypassRun },
   { id := "FROZEN_CHECK_NOT_IN_MATCHER", category := "frozen",
     description := "Frozen check is only in body, not in matcher (wasted compute if frozen)",
     appliesToTestFile := false, run := frozenCheckNotInMatcherRun }]

/-! ## Determinism checks (the determinism module bundled with
`checks/response.ts`) -/

def osTimeUsageRun (ctx : ProcessContext) : List Finding :=
  let lines := splitLines ctx.sourceCode
  (enumLines lines).flatMap (fun il =>
    let i := il.1
    let codeOnly := stripLuaComments il.2
    -- /os\.time\s*\(/
    if rxTest (rxSeq [rxLit "os.time", ws0, rxLit "("]) codeOnly then
      [{ code := "OS_TIME_USAGE",
         message := "os.time() breaks determinism on replay",
         severity := .high,
         line := i + 1,
         fix := some "Use msg.Timestamp instead of os.time()" }]
    else [])

def mathRandomUnseededRun (ctx : ProcessContext) : List Finding :=
  let lines := splitLines ctx.sourceCode
  let hasRandomSeed :=
    lines.any (fun line => rxTest (rxLit "math.randomseed") (stripLuaComments line))
  (enumLines lines).flatMap (fun il =>
    let i := il.1
    let codeOnly := stripLuaComments il.2
    -- /math\.random\s*\(/
    if rxTest (rxSeq [rxLit "math.random", ws0, rxLit "("]) codeOnly then
      if !hasRandomSeed then
        [{ code := "MATH_RANDOM_UNSEEDED",
           message := "math.random() without deterministic seed",
           severity := .high,
           line := i + 1,
           fix := some "Seed with msg.Id hash: math.randomseed(tonumber(string.sub(msg.Id, 1, 8), 16))" }]
      else []
    else [])

def ioOperationRun (ctx : ProcessContext) : List Finding :=
  let lines := splitLines ctx.sourceCode
  (enumLines lines).flatMap (fun il =>
    let i := il.1
    let line := il.2
    -- /io\.\w+\s*\(/
    if rxTest (rxSeq [rxLit "io.", rxPlus rxWord, ws0, rxLit "("]) line then
      [{ code := "IO_OPERATION",
         message := "IO operations are not available in AO",
         severity := .high,
         line := i + 1,
         fix := some "Remove IO operations - use ao.send() for external communication" }]
    else [])

/-- One iteration of the `GLOBAL_STATE_MUTATION` loop: updates the function
nesting depth and possibly emits a finding. -/
def globalStateStep (acc : Nat × List Finding) (il : Nat × String) :
    Nat × List Finding :=
  let functionDepth := acc.1
  let i := il.1
  let line := il.2
  let functionDepth :=
    if rxTest (rxSeq [rxLit "Handlers.add", ws0, rxLit "("]) line
        || rxTest (rxSeq [rxLit "Safe.handler", ws0, rxLit "("]) line
        || rxTest (rxSeq [rxLit "Safe.query", ws0, rxLit "("]) line then
      functionDepth + 1
    else functionDepth
  let functionDepth :=
    if rxTest (rxSeq [rxLit "function", ws0, rxLit "("]) line
        || rxTest (rxSeq [rxLit "function", ws1, rxPlus rxWord, ws0, rxLit "("]) line then
      functionDepth + 1
    else functionDepth
  let functionDepth :=
    -- /^\s*end\s*\)?\s*$/ or /^\s*end\s*\)\s*$/
    if (rxTestExact (rxSeq [ws0, rxLit "end", ws0, rxOpt (rxLit ")"), ws0]) line
        || rxTestExact (rxSeq [ws0, rxLit "end", ws0, rxLit ")", ws0]) line)
       && 0 < functionDepth then
      functionDepth - 1
    else functionDepth
  let fs :=
    if functionDepth = 0
        && rxTest (rxSeq [rxLit "State.", rxPlus (rxCls isAlphaUnd), ws0, rxLit "="]) line
        && !(rxTest (rxSeq [rxLit "State", ws0, rxLit "=", ws0, rxLit "State", ws1, rxLit "or"]) line)
        && !(strIncludes line "==")
        && decide (10 < i) then
      [{ code := "GLOBAL_STATE_MUTATION",
         message := "State mutation outside handler affects replay safety",
         severity := .info,
         line := i + 1,
         fix := some "Move state mutations inside handlers to ensure replay determinism" }]
    else []
  (functionDepth, acc.2 ++ fs)

def globalStateMutationRun (ctx : ProcessContext) : List Finding :=
  let lines := splitLines ctx.sourceCode
  ((enumLines lines).foldl globalStateStep (0, [])).2

end AoLens

namespace AoLens

/-! ### `MODULE_LEVEL_MUTABLE_STATE` -/

/-- `lines[i]`. -/
def lineAt (lines : List String) (i : Nat) : String :=
  (lines.drop i).headD ""

/-- Anchored capture of `/^\s*local\s+([a-zA-Z_][a-zA-Z0-9_]*)\s*=/`. -/
def localDeclMatch (s : String) : Option String :=
  let cs := eatWs s.data
  match eatLit "local".data cs with
  | none => none
  | some r1 =>
    match r1 with
    | c :: _ =>
      if isJsWs c then
        let r2 := eatWs r1
        match r2 with
        | d :: _ =>
          if isAlphaUnd d then
            let run := r2.takeWhile (fun c => isWordChar c)
            let r3 := eatWs (r2.drop run.length)
            match eatLit ['='] r3 with
            | some _ => some (String.mk run)
            | none => none
          else none
        | [] => none
      else none
    | [] => none

/-- `varName.match(/^[A-Z_]+$/)`. -/
def isAllCaps (s : String) : Bool :=
  !s.data.isEmpty && s.data.all (fun c => ('A' ≤ c && c ≤ 'Z') || c = '_')

/-- `new RegExp("(?<!local\\s)\\b" + varName + "\\s*=(?!=)")` applied at one
position; `prevRev` holds the preceding characters, closest first. -/
def assignVarHere (varName : List Char) (prevRev : List Char) (cs : List Char) : Bool :=
  let boundaryOk :=
    match prevRev with
    | [] => true
    | p :: _ => !isWordChar p
  let lookbehindBad :=
    match prevRev with
    | w :: 'l' :: 'a' :: 'c' :: 'o' :: 'l' :: _ => isJsWs w
    | _ => false
  if boundaryOk && !lookbehindBad then
    if List.isPrefixOf varName cs then
      let rest := eatWs (cs.drop varName.length)
      match eatLit ['='] rest with
      | some after =>
        match after with
        | [] => true
        | d :: _ => d ≠ '='
      | none => false
    else false
  else false

def assignVarScan (varName : List Char) : List Char → List Char → Bool
  | _, [] => false
  | prevRev, c :: cs =>
    assignVarHere varName prevRev (c :: cs) || assignVarScan varName (c :: prevRev) cs

def assignVarTest (varName : String) (s : String) : Bool :=
  assignVarScan varName.data [] s.data

/-- Phase-1 accumulator of `MODULE_LEVEL_MUTABLE_STATE`. -/
structure MlPhase1 where
  moduleLocals : List (String × Nat)
  handlerRanges : List (Nat × Nat)
  handlerStart : Nat
  handlerDepth : Int
  inHandler : Bool

def mlPhase1Step (acc : MlPhase1) (il : Nat × String) : MlPhase1 :=
  let i := il.1
  let line := il.2
  let codeOnly := stripLuaComments line
  let acc :=
    if rxTest (rxSeq [rxLit "Handlers.add", ws0, rxLit "("]) codeOnly then
      { acc with handlerStart := i, inHandler := true, handlerDepth := 0 }
    else acc
  if acc.inHandler then
    let d := acc.handlerDepth
    let d := if testWordFunctionParen codeOnly then d + 1 else d
    let d := if testWordEnd codeOnly then d - 1 else d
    if rxTestExact (rxSeq [ws0, rxLit ")", ws0]) codeOnly && d ≤ 0 then
      { acc with handlerRanges := acc.handlerRanges ++ [(acc.handlerStart, i)],
                 inHandler := false, handlerDepth := 0 }
    else { acc with handlerDepth := d }
  else
    match localDeclMatch codeOnly with
    | some varName =>
      if varName ≠ "json" && !(strIncludes line "require(") && !isAllCaps varName then
        { acc with moduleLocals := mapSet acc.moduleLocals varName (i + 1) }
      else acc
    | none => acc

/-- `range.start` to `range.end` inclusive. -/
def rangeIdx (a b : Nat) : List Nat :=
  (List.range (b + 1 - a)).map (fun k => a + k)

def mlFinding (i : Nat) (varName : String) (declLine : Nat) : Finding :=
  { code := "MODULE_LEVEL_MUTABLE_STATE",
    message := "Module-level variable \"" ++ varName ++ "\" (line " ++ toString declLine
      ++ ") mutated inside handler - creates shared state between messages",
    severity := .high,
    line := i + 1,
    fix := some ("Move \"" ++ varName
      ++ "\" inside handler function or pass via msg.Tags to avoid race conditions") }

def mlLineStep (lines : List String)
    (acc : List (String × Nat) × List Finding) (i : Nat) :
    List (String × Nat) × List Finding :=
  let codeOnly := stripLuaComments (lineAt lines i)
  match acc.1.find? (fun p => assignVarTest p.1 codeOnly) with
  | some p =>
    (acc.1.filter (fun q => q.1 ≠ p.1), acc.2 ++ [mlFinding i p.1 p.2])
  | none => acc

def moduleLevelMutableStateRun (ctx : ProcessContext) : List Finding :=
  let lines := splitLines ctx.sourceCode
  let ph1 := (enumLines lines).foldl mlPhase1Step
    { moduleLocals := [], handlerRanges := [], handlerStart := 0,
      handlerDepth := 0, inHandler := false }
  if ph1.moduleLocals.isEmpty || ph1.handlerRanges.isEmpty then []
  else
    (ph1.handlerRanges.foldl
      (fun acc r => (rangeIdx r.1 r.2).foldl (mlLineStep lines) acc)
      (ph1.moduleLocals, [])).2

def determinismChecks : List SecurityCheck :=
  [{ id := "OS_TIME_USAGE", category := "determinism",
     description := "os.time() breaks determinism - use msg.Timestamp instead",
     run := osTimeUsageRun },
   { id := "MATH_RANDOM_UNSEEDED", category := "determinism",
     description := "math.random() without deterministic seed breaks replay safety",
     run := mathRandomUnseededRun },
   { id := "IO_OPERATION", category := "determinism",
     description := "IO operations are not available in AO processes",
     run := ioOperationRun },
   { id := "GLOBAL_STATE_MUTATION", category := "determinism",
     description := "State mutation outside handler may affect replay determinism",
     run := globalStateMutationRun },
   { id := "MODULE_LEVEL_MUTABLE_STATE", category := "determinism",
     description := "Module-level variable mutated inside handler creates shared state between message invocations",
     run := moduleLevelMutableStateRun }]

end AoLens

namespace AoLens

/-! ## JSON safety checks (bundled with `checks/auth.ts`) -/

/-- `/pcall\s*\(\s*require\s*\(\s*["']json["']\s*\)\.decode/` (or `.encode`). -/
def rxPcallRequireJson (suffix : String) : Rx :=
  rxSeq [rxLit "pcall", ws0, rxLit "(", ws0, rxLit "require", ws0, rxLit "(", ws0,
         rxCls isQuote, rxLit "json", rxCls isQuote, ws0, rxLit ")", rxLit suffix]

/-- `/require\s*\(\s*["']json["']\s*\)\.decode/` (or `.encode`). -/
def rxRequireJson (suffix : String) : Rx :=
  rxSeq [rxLit "require", ws0, rxLit "(", ws0, rxCls isQuote, rxLit "json",
         rxCls isQuote, ws0, rxLit ")", rxLit suffix]

/-- `/pcall\s*\(\s*function/` -/
def rxPcallFunction : Rx := rxSeq [rxLit "pcall", ws0, rxLit "(", ws0, rxLit "function"]

/-- `/local\s+\w+\s*,\s*\w+\s*=\s*pcall/` -/
def rxLocalPcallPair : Rx :=
  rxSeq [rxLit "local", ws1, rxPlus rxWord, ws0, rxLit ",", ws0, rxPlus rxWord,
         ws0, rxLit "=", ws0, rxLit "pcall"]

def jsonDecodeNoPcallRun (ctx : ProcessContext) : List Finding :=
  let lines := splitLines ctx.sourceCode
  (enumLines lines).flatMap (fun il =>
    let i := il.1
    let line := stripLuaComments il.2
    if !(strIncludes line ".decode") && !(strIncludes line "json.decode") then []
    else if rxTest rxPcallJsonDecode line then []
    else if rxTest (rxPcallRequireJson ".decode") line then []
    else if rxTest rxPcallFunction line && strIncludes line ".decode" then []
    else if rxTest rxLocalPcallPair line then []
    else if !(strIncludes line "json.decode") && !(rxTest (rxRequireJson ".decode") line) then []
    else
      let multiLinePcall :=
        decide (0 < i) &&
          (let context := joinLines (sliceList (i - 3) (i + 1) lines)
           rxTest rxPcallFunction context && strIncludes context ".decode")
      if multiLinePcall then []
      else
        [{ code := "JSON_DECODE_NO_PCALL",
           message := "json.decode() without pcall crashes on malformed JSON",
           severity := .high,
           line := i + 1,
           fix := some "Use: local ok, data = pcall(json.decode, msg.Data); if not ok then return end" }])

/-- `/pcall\s*\(\s*json\.encode/` -/
def rxPcallJsonEncode : Rx :=
  rxSeq [rxLit "pcall", ws0, rxLit "(", ws0, rxLit "json.encode"]

def jsonEncodeNoPcallRun (ctx : ProcessContext) : List Finding :=
  let lines := splitLines ctx.sourceCode
  (enumLines lines).flatMap (fun il =>
    let i := il.1
    let line := stripLuaComments il.2
    if !(strIncludes line ".encode") && !(strIncludes line "json.encode") then []
    else if rxTest rxPcallJsonEncode line then []
    else if rxTest (rxPcallRequireJson ".encode") line then []
    else if rxTest rxPcallFunction line && strIncludes line ".encode" then []
    else if rxTest rxLocalPcallPair line then []
    else if !(strIncludes line "json.encode") && !(rxTest (rxRequireJson ".encode") line) then []
    else
      let multiLinePcall :=
        decide (0 < i) &&
          (let context := joinLines (sliceList (i - 3) (i + 1) lines)
           rxTest rxPcallFunction context && strIncludes context ".encode")
      if multiLinePcall then []
      else
        [{ code := "JSON_ENCODE_NO_PCALL",
           message := "json.encode() without pcall may crash on circular references",
           severity := .high,
           line := i + 1,
           fix := some "Use: local ok, result = pcall(json.encode, data); if not ok then ... end" }])

/-- Count of non-overlapping occurrences (`handlerSource.match(/json\.decode/g)`). -/
def countOccur (s sub : String) : Nat :=
  (List.range s.data.length).countP
    (fun i => List.isPrefixOf sub.data (s.data.drop i))

def duplicateJsonDecodeRun (ctx : ProcessContext) : List Finding :=
  ctx.handlers.flatMap (fun p =>
    let name := p.1
    let handler := p.2
    let info := handler.handlerInfo
    if info.signature_type ≠ SignatureType.function_matcher then []
    else
      let lines := splitLines ctx.sourceCode
      let handlerSource := joinLines (sliceList (handler.startLine - 1) handler.endLine lines)
      let n := countOccur handlerSource "json.decode"
      if 2 ≤ n then
        [{ code := "DUPLICATE_JSON_DECODE",
           message := "Handler \"" ++ name ++ "\" decodes JSON " ++ toString n
             ++ " times - parse once and pass via closure or msg.Tags",
           severity := .low,
           line := handler.startLine,
           fix := some "Parse JSON once in matcher, store result, access in handler body" }]
      else [])

def dataHandlerNamePatterns : List String :=
  ["Update", "Set", "Create", "Add", "Modify", "Submit", "Register", "Configure", "Init"]

def msgDataNoJsonDecodeRun (ctx : ProcessContext) : List Finding :=
  ctx.handlers.flatMap (fun p =>
    let name := p.1
    let handler := p.2
    if handler.isSafeLibrary then []
    else if !(dataHandlerNamePatterns.any (fun pat => startsWithCI name pat)) then []
    else
      let lines := splitLines ctx.sourceCode
      let handlerSource := joinLines (sliceList (handler.startLine - 1) handler.endLine lines)
      if strIncludes handlerSource "json.decode" then []
      else
        let usesMsgData := strIncludes handlerSource "msg.Data"
        [{ code := "MSG_DATA_NO_JSON_DECODE",
           message := "Handler \"" ++ name ++ "\" likely expects JSON data but doesn't parse msg.Data",
           severity := if usesMsgData then .high else .medium,
           line := handler.startLine,
           fix := some "Add: local ok, data = pcall(json.decode, msg.Data); if not ok then return end" }])

/-- `/pcall\s*\(\s*json\.(decode|encode)/` -/
def rxPcallJsonEither : Rx :=
  rxSeq [rxLit "pcall", ws0, rxLit "(", ws0, rxLit "json.",
         rxAlt [rxLit "decode", rxLit "encode"]]

def silentPcallFailureRun (ctx : ProcessContext) : List Finding :=
  let lines := splitLines ctx.sourceCode
  (enumLines lines).flatMap (fun il =>
    let i := il.1
    let line := il.2
    if !(rxTest rxPcallJsonEither line) then []
    else
      let nextLines := joinLines (sliceList i (i + 5) lines)
      let hasErrorHandling :=
        rxTest (rxSeq [rxLit "if", ws1, rxLit "not", ws1, rxLit "ok"]) nextLines
        || rxTest (rxSeq [rxLit "ao.send", .star Rx.dot, rxLit "Error"]) nextLines
        || rxTest (rxSeq [rxLit "msg.reply", .star Rx.dot, rxLit "Error"]) nextLines
        || rxTest (rxSeq [rxLit "return", .star Rx.dot, rxLit "nil"]) nextLines
        || rxTestEnd (rxSeq [rxLit "return", ws0]) nextLines
        || rxTest (rxSeq [rxLit "return", ws1, rxLit "false"]) nextLines
      if !hasErrorHandling then
        [{ code := "SILENT_PCALL_FAILURE",
           message := "pcall failure is silently ignored",
           severity := .info,
           line := i + 1,
           fix := some "Add: if not ok then ao.send(\x7bTarget=msg.From, Action='Error', Data='Invalid JSON'\x7d) return end" }]
      else [])

def jsonChecks : List SecurityCheck :=
  [{ id := "JSON_DECODE_NO_PCALL", category := "json",
     description := "json.decode() without pcall will crash on malformed JSON input",
     run := jsonDecodeNoPcallRun },
   { id := "JSON_ENCODE_NO_PCALL", category := "json",
     description := "json.encode() without pcall may crash on circular references or invalid data",
     run := jsonEncodeNoPcallRun },
   { id := "DUPLICATE_JSON_DECODE", category := "json",
     description := "JSON decoded twice in same handler (matcher + body) - inefficient",
     run := duplicateJsonDecodeRun },
   { id := "MSG_DATA_NO_JSON_DECODE", category := "json",
     description := "Handler likely receives JSON in msg.Data but never parses it",
     run := msgDataNoJsonDecodeRun },
   { id := "SILENT_PCALL_FAILURE", category := "json",
     description := "pcall failure is silently ignored - user won't know what went wrong",
     run := silentPcallFailureRun }]

end AoLens

namespace AoLens

/-! ## Response checks (`checks/response.ts`) -/

def mutatingHandlerNoResponseRun (ctx : ProcessContext) : List Finding :=
  ctx.handlers.flatMap (fun p =>
    let name := p.1
    let handler := p.2
    if !handler.mutatesState then []
    else if ["Freeze", "Unfreeze", "Init", "Initialize"].any (fun pat => eqCI name pat) then []
    else if !handler.sendsResponse then
      [{ code := "MUTATING_HANDLER_NO_RESPONSE",
         message := "Mutating handler \"" ++ name ++ "\" doesn't send a response",
         severity := .low,
         line := handler.startLine,
         fix := some "Add: ao.send(\x7bTarget=msg.From, Data='OK'\x7d) or msg.reply(\x7bData='OK'\x7d)" }]
    else [])

/-- The depth update of one matcher-scan iteration (`matcherDepth++` on a
word-bounded `function(`, `--` on a word-bounded `end`). -/
def matcherStepDepth (depth : Int) (line : String) : Int :=
  let d := if testWordFunctionParen line then depth + 1 else depth
  if testWordEnd line then d - 1 else d

/-- The matcher-scanning loop shared by both `MATCHER_SIDE_EFFECT_*` checks:
enters the first `function(` block, tracks depth, stops at depth 0, and
emits per-line findings via `emit`. -/
def matcherWalk (emit : Nat → String → List Finding) :
    Bool → Int → List (Nat × String) → List Finding
  | _, _, [] => []
  | inMatcher, depth, (i, line) :: rest =>
    if !inMatcher && rxTest (rxSeq [rxLit "function", ws0, rxLit "("]) line then
      matcherWalk emit true 1 rest
    else if inMatcher then
      if matcherStepDepth depth line = 0 then []
      else emit i line ++ matcherWalk emit true (matcherStepDepth depth line) rest
    else matcherWalk emit inMatcher depth rest

def matcherSideEffectAoSendRun (ctx : ProcessContext) : List Finding :=
  ctx.handlers.flatMap (fun p =>
    let name := p.1
    let handler := p.2
    if handler.handlerInfo.signature_type ≠ SignatureType.function_matcher then []
    else
      let handlerLines :=
        sliceList (handler.startLine - 1) handler.endLine (splitLines ctx.sourceCode)
      matcherWalk
        (fun i line =>
          if rxTest (rxSeq [rxLit "ao.send", ws0, rxLit "("]) line then
            [{ code := "MATCHER_SIDE_EFFECT_AO_SEND",
               message := "Handler \"" ++ name ++ "\" matcher contains ao.send() side effect",
               severity := .high,
               line := handler.startLine + i,
               fix := some "Move ao.send() to handler body - matchers should be pure" }]
          else [])
        false 0 (enumLines handlerLines))

def matcherSideEffectStateMutationRun (ctx : ProcessContext) : List Finding :=
  ctx.handlers.flatMap (fun p =>
    let name := p.1
    let handler := p.2
    if handler.handlerInfo.signature_type ≠ SignatureType.function_matcher then []
    else
      let handlerLines :=
        sliceList (handler.startLine - 1) handler.endLine (splitLines ctx.sourceCode)
      matcherWalk
        (fun i line =>
          if rxTest (rxSeq [rxLit "State.", rxPlus (rxCls isAlphaUnd), ws0, rxLit "="]) line
              && !(strIncludes line "==") then
            [{ code := "MATCHER_SIDE_EFFECT_STATE_MUTATION",
               message := "Handler \"" ++ name ++ "\" matcher mutates State",
               severity := .high,
               line := handler.startLine + i,
               fix := some "Move state mutation to handler body - matchers should be pure" }]
          else [])
        false 0 (enumLines handlerLines))

/-! ### `INCONSISTENT_ERROR_ACTIONS`

Capture of `/ao\.send\s*\(\s*\{[^}]*Action\s*=\s*["']([^"']*Error[^"']*)["']/`:
the greedy `[^}]*` makes the engine keep the last parseable `Action = ...`
inside the brace-free run. -/

def errorActionPartAt (cs : List Char) : Option String := do
  let rest ← eatLit "Action".data cs
  let rest := eatWs rest
  let rest ← eatLit ['='] rest
  let rest := eatWs rest
  match rest with
  | q :: r2 =>
    if isQuote q then
      let run := r2.takeWhile (fun c => !(isQuote c))
      match r2.drop run.length with
      | q2 :: _ =>
        if isQuote q2 && listContainsSub run "Error".data then some (String.mk run)
        else none
      | [] => none
    else none
  | [] => none

def errorActionInner : List Char → Option String
  | [] => errorActionPartAt []
  | c :: rest =>
    let later := if c ≠ '}' then errorActionInner rest else none
    match later with
    | some v => some v
    | none => errorActionPartAt (c :: rest)

def errorActionHere (cs : List Char) : Option String := do
  let rest ← eatLit "ao.send".data cs
  let rest := eatWs rest
  let rest ← eatLit ['('] rest
  let rest := eatWs rest
  let rest ← eatLit ['{'] rest
  errorActionInner rest

def errorActionMatch (s : String) : Option String :=
  scanFirst errorActionHere s.data

def inconsistentErrorActionsRun (ctx : ProcessContext) : List Finding :=
  let lines := splitLines ctx.sourceCode
  let errorActions :=
    (enumLines lines).foldl
      (fun (m : List (String × List Nat)) il =>
        match errorActionMatch il.2 with
        | some action => mapSet m action ((mapGet m action).getD [] ++ [il.1 + 1])
        | none => m)
      []
  if 1 < errorActions.length then
    let firstAction := (errorActions.headD ("", [])).1
    let firstLines := (errorActions.headD ("", [])).2
    [{ code := "INCONSISTENT_ERROR_ACTIONS",
       message := "Inconsistent error Action tags: "
         ++ String.intercalate ", " (errorActions.map (fun p => "'" ++ p.1 ++ "'"))
         ++ " - use consistent naming",
       severity := .low,
       line := firstLines.headD 0,
       fix := some ("Standardize error actions to '" ++ firstAction ++ "' or 'Handler-Error' pattern") }]
  else []

def responseChecks : List SecurityCheck :=
  [{ id := "MUTATING_HANDLER_NO_RESPONSE", category := "response",
     description := "Mutating handler doesn't send a response to the caller",
     run := mutatingHandlerNoResponseRun },
   { id := "MATCHER_SIDE_EFFECT_AO_SEND", category := "response",
     description := "Matcher function contains ao.send() - matchers should be pure",
     run := matcherSideEffectAoSendRun },
   { id := "MATCHER_SIDE_EFFECT_STATE_MUTATION", category := "response",
     description := "Matcher function mutates State - matchers should be pure",
     run := matcherSideEffectStateMutationRun },
   { id := "INCONSISTENT_ERROR_ACTIONS", category := "response",
     description := "Inconsistent Action tags for error responses (e.g., 'Error' vs 'Handler-Error')",
     run := inconsistentErrorActionsRun }]

end AoLens

namespace AoLens

/-! ## Style checks (bundled with `checks/auth.ts`) -/

def matcherNoActionCheckRun (ctx : ProcessContext) : List Finding :=
  ctx.handlers.flatMap (fun p =>
    let name := p.1
    let handler := p.2
    let info := handler.handlerInfo
    -- `if (info.trigger.action_tag) continue;` — JS truthiness ("" is falsy)
    if (info.trigger.action_tag.getD "") ≠ "" then []
    else if info.matcher_analysis.type = MatcherType.hasMatchingTag then []
    else if info.signature_type = SignatureType.table then []
    else if handler.mutatesState && info.signature_type = SignatureType.function_matcher then
      [{ code := "MATCHER_NO_ACTION_CHECK",
         message := "Handler \"" ++ name ++ "\" doesn't verify msg.Tags.Action",
         severity := .medium,
         line := handler.startLine,
         fix := some "Add action check: if msg.Tags.Action ~= 'ExpectedAction' then return false end" }]
    else [])

/-- `/type\s*\([^)]+\)\s*[~=]=\s*["'](?:number|string|table|boolean)["']/` -/
def rxTypeCheck : Rx :=
  rxSeq [rxLit "type", ws0, rxLit "(", rxPlus (rxNone [')']), rxLit ")", ws0,
         rxCls (fun c => c = '~' || c = '='), rxLit "=", ws0, rxCls isQuote,
         rxAlt [rxLit "number", rxLit "string", rxLit "table", rxLit "boolean"],
         rxCls isQuote]

def noSchemaValidationRun (ctx : ProcessContext) : List Finding :=
  ctx.handlers.flatMap (fun p =>
    let name := p.1
    let handler := p.2
    let info := handler.handlerInfo
    if info.trigger.checks_data && !info.matcher_analysis.validates_schema then
      [{ code := "NO_SCHEMA_VALIDATION",
         message := "Handler \"" ++ name ++ "\" reads msg.Data without schema validation",
         severity := .medium,
         line := handler.startLine,
         fix := some "Validate data structure: if type(data.field) ~= 'expected' then return false end" }]
    else
      let lines := splitLines ctx.sourceCode
      let handlerSource := joinLines (sliceList (handler.startLine - 1) handler.endLine lines)
      if !(strIncludes handlerSource "json.decode") then []
      else
        let hasTypeCheck := rxTest rxTypeCheck handlerSource
        let hasAssertType :=
          rxTest (rxSeq [rxLit "assert", ws0, rxLit "(", ws0, rxLit "type", ws0, rxLit "("]) handlerSource
        if handler.mutatesState && !hasTypeCheck && !hasAssertType then
          [{ code := "NO_SCHEMA_VALIDATION",
             message := "Handler \"" ++ name ++ "\" parses JSON but doesn't validate field types",
             severity := .medium,
             line := handler.startLine,
             fix := some "Add type validation: if type(data.field) ~= 'number' then return end" }]
        else [])

def alwaysTrueMatcherRun (ctx : ProcessContext) : List Finding :=
  ctx.handlers.flatMap (fun p =>
    let name := p.1
    let handler := p.2
    if handler.handlerInfo.matcher_analysis.type = MatcherType.always_true then
      [{ code := "ALWAYS_TRUE_MATCHER",
         message := "Handler \"" ++ name ++ "\" has always-true matcher",
         severity := .low,
         line := handler.startLine,
         fix := some "Add specific action check to prevent catching unrelated messages" }]
    else [])

def msgTagsNoNilGuardRun (ctx : ProcessContext) : List Finding :=
  let lines := splitLines ctx.sourceCode
  (enumLines lines).flatMap (fun il =>
    let i := il.1
    let line := il.2
    -- /msg\.Tags\.[A-Za-z_]/
    if rxTest (rxSeq [rxLit "msg.Tags.", rxCls isAlphaUnd]) line then
      let context := joinLines (sliceList (i - 2) (i + 1) lines)
      let hasGuard :=
        rxTest (rxSeq [rxLit "msg.Tags", ws0, rxLit "and", ws0, rxLit "msg.Tags."]) context
        || rxTest (rxSeq [rxLit "if", ws1, rxLit "not", ws1, rxLit "msg.Tags"]) context
        || rxTest (rxSeq [rxLit "msg.Tags", ws0, rxLit "~=", ws0, rxLit "nil"]) context
      if !hasGuard then
        [{ code := "MSG_TAGS_NO_NIL_GUARD",
           message := "msg.Tags accessed without nil guard",
           severity := .low,
           line := i + 1,
           fix := some "Add guard: if not msg.Tags then return false end" }]
      else []
    else [])

def msgActionDirectAccessRun (ctx : ProcessContext) : List Finding :=
  let lines := splitLines ctx.sourceCode
  (enumLines lines).flatMap (fun il =>
    let i := il.1
    let line := il.2
    -- /msg\.Action\b/ with no /msg\.Tags\.Action/
    if searchLitBoundary "msg.Action".data line.data
        && !(strIncludes line "msg.Tags.Action") then
      [{ code := "MSG_ACTION_DIRECT_ACCESS",
         message := "Use msg.Tags.Action instead of msg.Action",
         severity := .high,
         line := i + 1,
         fix := some "Change to msg.Tags.Action" }]
    else [])

def knownMsgProps : List String :=
  ["From", "Owner", "Id", "Data", "Tags", "Timestamp", "Target", "Cron",
   "Epoch", "Nonce", "Block-Height", "Hash-Chain", "reply"]

def isPropChar (c : Char) : Bool := isWordChar c || c = '-'

/-- One match of `/msg\.([A-Za-z_][A-Za-z0-9_-]*)/`: the property name and
the rest of the text after the match. -/
def msgPropMatchAt (cs : List Char) : Option (String × List Char) := do
  let rest ← eatLit "msg.".data cs
  match rest with
  | d :: _ =>
    if isAlphaUnd d then
      let run := rest.takeWhile (fun c => isPropChar c)
      some (String.mk run, rest.drop run.length)
    else none
  | [] => none

/-- All matches with the `g` flag (non-overlapping, scanning resumes after
each match end); the fuel argument bounds the recursion and is ample at
the text's length. -/
def msgPropsGo : Nat → List Char → List String
  | 0, _ => []
  | _ + 1, [] => []
  | fuel + 1, c :: rest =>
    match msgPropMatchAt (c :: rest) with
    | some (prop, after) => prop :: msgPropsGo fuel after
    | none => msgPropsGo fuel rest

def msgProps (s : String) : List String :=
  msgPropsGo s.data.length s.data

def msgUnknownPropertyRun (ctx : ProcessContext) : List Finding :=
  let lines := splitLines ctx.sourceCode
  (enumLines lines).flatMap (fun il =>
    let i := il.1
    let line := il.2
    (msgProps line).flatMap (fun prop =>
      if prop = "Tags" then []
      else if knownMsgProps.contains prop then []
      else
        [{ code := "MSG_UNKNOWN_PROPERTY",
           message := "Unknown msg property: " ++ prop,
           severity := .high,
           line := i + 1,
           fix := some ("Use standard msg properties: "
             ++ String.intercalate ", " (knownMsgProps.take 5) ++ "...") }]))

def isDigit (c : Char) : Bool := '0' ≤ c && c ≤ '9'

def tonumberNoNilCheckRun (ctx : ProcessContext) : List Finding :=
  let lines := splitLines ctx.sourceCode
  (enumLines lines).flatMap (fun il =>
    let i := il.1
    let line := il.2
    if rxTest (rxSeq [rxLit "tonumber", ws0, rxLit "("]) line then
      let context := joinLines (sliceList i (i + 3) lines)
      let hasNilCheck :=
        rxTest (rxSeq [rxLit "if", ws1, rxLit "not", ws1, rxPlus rxWord, ws1, rxLit "then"]) context
        || rxTest (rxSeq [rxLit "~=", ws0, rxLit "nil"]) context
        || rxTest (rxSeq [rxLit "or", ws1, rxPlus (rxCls isDigit)]) line
      if !hasNilCheck then
        [{ code := "TONUMBER_NO_NIL_CHECK",
           message := "tonumber() result not checked for nil",
           severity := .high,
           line := i + 1,
           fix := some "Add nil check: local num = tonumber(x); if not num then return end" }]
      else []
    else [])

def noNanInfinityCheckRun (ctx : ProcessContext) : List Finding :=
  let lines := splitLines ctx.sourceCode
  (enumLines lines).flatMap (fun il =>
    let i := il.1
    -- unconditional cut at the first `--` (plain `indexOf`, unlike
    -- `stripLuaComments`)
    let line :=
      match idxOfSub il.2 "--" with
      | some k => String.mk (il.2.data.take k)
      | none => il.2
    if rxTest (rxSeq [rxPlus rxWord, ws0, rxLit "/", ws0, rxPlus rxWord]) line
        && !(rxTest (rxSeq [rxPlus rxWord, ws0, rxLit "/", ws0, rxPlus (rxCls isDigit)]) line) then
      let context := joinLines (sliceList i (i + 5) lines)
      let hasCheck :=
        strIncludes context "math.huge"
        || rxTest (rxSeq [rxLit "~=", ws0, rxLit "math.huge"]) context
        || strIncludes context "isnan"
        || rxTest (rxSeq [rxLit "==", ws0, rxLit "0"]) context
      if !hasCheck then
        [{ code := "NO_NAN_INFINITY_CHECK",
           message := "Division result not checked for NaN/Infinity",
           severity := .low,
           line := i + 1,
           fix := some "Add check: if result ~= result then ... end (NaN check)" }]
      else []
    else [])

def infoLeakSenderAddressRun (ctx : ProcessContext) : List Finding :=
  let lines := splitLines ctx.sourceCode
  (enumLines lines).flatMap (fun il =>
    let i := il.1
    let line := il.2
    if rxTest (rxSeq [rxCls isQuote, .star Rx.dot, rxLit "msg.From"]) line
        || rxTest (rxSeq [rxLit "tostring", ws0, rxLit "(", ws0, rxLit "msg.From"]) line
        || rxTest (rxSeq [rxLit "..", .star Rx.dot, rxLit "msg.From"]) line then
      [{ code := "INFO_LEAK_SENDER_ADDRESS",
         message := "Sender address may be leaked in output",
         severity := .low,
         line := i + 1,
         fix := some "Avoid including msg.From in error messages" }]
    else [])

def infoLeakInputDataRun (ctx : ProcessContext) : List Finding :=
  let lines := splitLines ctx.sourceCode
  (enumLines lines).flatMap (fun il =>
    let i := il.1
    let line := il.2
    if rxTest (rxSeq [rxLit "tostring", ws0, rxLit "(", ws0, rxLit "msg.Data"]) line
        || rxTest (rxSeq [rxLit "..", .star Rx.dot, rxLit "msg.Data"]) line
        || rxTest (rxSeq [rxLit "json.encode", .star Rx.dot, rxLit "msg.Data"]) line then
      [{ code := "INFO_LEAK_INPUT_DATA",
         message := "Input data may be leaked in output",
         severity := .low,
         line := i + 1,
         fix := some "Avoid including raw msg.Data in error messages" }]
    else [])

def strongMutatingNamePatterns : List String :=
  ["Update", "Set", "Delete", "Remove", "Add", "Create",
   "Modify", "Change", "Edit", "Write", "Save", "Store",
   "Transfer", "Mint", "Burn", "Register", "Deregister"]

def handlerNoStateMutationRun (ctx : ProcessContext) : List Finding :=
  ctx.handlers.flatMap (fun p =>
    let name := p.1
    let handler := p.2
    if !(strongMutatingNamePatterns.any (fun pat => startsWithCI name pat)) then []
    else if handler.mutatesState then []
    else
      let lines := splitLines ctx.sourceCode
      let handlerSource := joinLines (sliceList (handler.startLine - 1) handler.endLine lines)
      let hasStateWrite :=
        rxTest (rxSeq [rxLit "State", ws0, rxLit ".", ws0, rxPlus rxWord, ws0, rxLit "="]) handlerSource
        || rxTest (rxSeq [rxLit "State", ws0, rxLit "[", ws0, rxOpt (rxCls isQuote), rxPlus rxWord]) handlerSource
      if !hasStateWrite then
        [{ code := "HANDLER_NO_STATE_MUTATION",
           message := "Handler \"" ++ name ++ "\" suggests mutation but doesn't modify State",
           severity := .medium,
           line := handler.startLine,
           fix := some "Handler body should update State (e.g., State.Value = data.value)" }]
      else [])

def timestampMutatingNamePatterns : List String :=
  ["Update", "Set", "Delete", "Remove", "Add", "Create",
   "Modify", "Change", "Transfer", "Mint", "Burn"]

def noTimestampTrackingRun (ctx : ProcessContext) : List Finding :=
  ctx.handlers.flatMap (fun p =>
    let name := p.1
    let handler := p.2
    let isMutatingByName := timestampMutatingNamePatterns.any (fun pat => startsWithCI name pat)
    if !isMutatingByName && !handler.mutatesState then []
    else
      let lines := splitLines ctx.sourceCode
      let handlerSource := joinLines (sliceList (handler.startLine - 1) handler.endLine lines)
      let recordsTimestamp :=
        strIncludes handlerSource "msg.Timestamp"
        || rxTest (rxSeq [rxLit "Timestamp", ws0, rxLit "="]) handlerSource
        || rxTest (rxSeq [rxLit "UpdatedAt", ws0, rxLit "="]) handlerSource
        || rxTest (rxSeq [rxLit "LastModified", ws0, rxLit "="]) handlerSource
        || rxTest (rxSeq [rxLit "Safe.audit", ws0, rxLit "("]) handlerSource
      if !recordsTimestamp then
        [{ code := "NO_TIMESTAMP_TRACKING",
           message := "Handler \"" ++ name ++ "\" doesn't record msg.Timestamp for replay audit trail",
           severity := .low,
           line := handler.startLine,
           fix := some "Add: State.LastUpdated = msg.Timestamp" }]
      else [])

def lowerStr (s : String) : String := String.mk (s.data.map Char.toLower)

/-- The case-insensitive bounds-definition tests of `NO_BOUNDS_DEFINED`
(each `/...$/i` pattern is matched against the lowercased source with a
lowercased literal). -/
def hasBoundsDefinedCI (sourceCode : String) : Bool :=
  let l := lowerStr sourceCode
  rxTest (rxSeq [rxLit "state", ws0, rxOpt (rxLit "."), ws0, rxLit "bounds", ws0, rxLit "="]) l
  || rxTest (rxSeq [rxLit "bounds", ws0, rxLit "=", ws0, rxLit "\x7b"]) l
  || rxTest (rxSeq [rxLit "param_bounds", ws0, rxLit "="]) l
  || rxTest (rxSeq [rxLit "local", ws1, rxLit "bounds", ws0, rxLit "="]) l
  || rxTest (rxSeq [rxLit "safe.validatebounds", ws0, rxLit "("]) l

def noBoundsDefinedRun (ctx : ProcessContext) : List Finding :=
  if hasBoundsDefinedCI ctx.sourceCode then []
  else
    ctx.handlers.flatMap (fun p =>
      let name := p.1
      let handler := p.2
      if !(["Update", "Set", "Modify", "Configure"].any (fun pat => startsWithCI name pat)) then []
      else
        let lines := splitLines ctx.sourceCode
        let handlerSource := joinLines (sliceList (handler.startLine - 1) handler.endLine lines)
        let updatesParams :=
          rxTest (rxSeq [rxLit "State", ws0, rxLit ".", ws0, rxLit "Params", ws0, rxLit "="]) handlerSource
          || rxTest (rxSeq [rxLit "State", ws0, rxLit "[", ws0, rxCls isQuote, rxLit "Params",
                            rxCls isQuote, ws0, rxLit "]"]) handlerSource
          || rxTest (rxSeq [rxLit "Kp", ws0, rxLit "=", .star Rx.dot, rxLit "data"]) handlerSource
          || rxTest (rxSeq [rxLit "Ki", ws0, rxLit "=", .star Rx.dot, rxLit "data"]) handlerSource
          || rxTest (rxSeq [rxLit "Kd", ws0, rxLit "=", .star Rx.dot, rxLit "data"]) handlerSource
        if updatesParams then
          [{ code := "NO_BOUNDS_DEFINED",
             message := "Handler \"" ++ name ++ "\" updates parameters but no bounds are defined",
             severity := .medium,
             line := handler.startLine,
             fix := some "Define bounds: local BOUNDS = \x7b Kp = \x7bmin=0, max=100\x7d, ... \x7d and validate" }]
        else [])

def boundsDefinedNotEnforcedRun (ctx : ProcessContext) : List Finding :=
  let hasBounds :=
    rxTest (rxSeq [rxLit "State", ws0, rxOpt (rxLit "."), ws0, rxLit "Bounds", ws0, rxLit "="]) ctx.sourceCode
    || rxTest (rxSeq [rxLit "Bounds", ws0, rxLit "=", ws0, rxLit "\x7b"]) ctx.sourceCode
  if !hasBounds then []
  else
    ctx.handlers.flatMap (fun p =>
      let name := p.1
      let handler := p.2
      if !(["Update", "Set", "Modify"].any (fun pat => startsWithCI name pat)) then []
      else
        let lines := splitLines ctx.sourceCode
        let handlerSource := joinLines (sliceList (handler.startLine - 1) handler.endLine lines)
        let checksBounds :=
          strIncludes handlerSource "Bounds"
            && (strIncludes handlerSource "min" || strIncludes handlerSource "max")
        if !checksBounds then
          [{ code := "BOUNDS_DEFINED_NOT_ENFORCED",
             message := "Handler \"" ++ name ++ "\" doesn't check State.Bounds - values can exceed limits",
             severity := .medium,
             line := handler.startLine,
             fix := some "Add bounds check: assert(value >= Bounds.min and value <= Bounds.max)" }]
        else [])

def styleChecks : List SecurityCheck :=
  [{ id := "MATCHER_NO_ACTION_CHECK", category := "style",
     description := "Matcher doesn't check Action tag on mutating handler",
     run := matcherNoActionCheckRun },
   { id := "NO_SCHEMA_VALIDATION", category := "style",
     description := "Handler reads msg.Data but doesn't validate schema",
     run := noSchemaValidationRun },
   { id := "ALWAYS_TRUE_MATCHER", category := "style",
     description := "Handler matcher always returns true (catches all messages)",
     run := alwaysTrueMatcherRun },
   { id := "MSG_TAGS_NO_NIL_GUARD", category := "style",
     description := "msg.Tags accessed without nil guard",
     run := msgTagsNoNilGuardRun },
   { id := "MSG_ACTION_DIRECT_ACCESS", category := "style",
     description := "Use msg.Tags.Action instead of msg.Action",
     run := msgActionDirectAccessRun },
   { id := "MSG_UNKNOWN_PROPERTY", category := "style",
     description := "Accessing non-standard msg property",
     run := msgUnknownPropertyRun },
   { id := "TONUMBER_NO_NIL_CHECK", category := "style",
     description := "tonumber() result not checked for nil",
     run := tonumberNoNilCheckRun },
   { id := "NO_NAN_INFINITY_CHECK", category := "style",
     description := "Numeric calculations without NaN/Infinity checks",
     appliesToTestFile := false, run := noNanInfinityCheckRun },
   { id := "INFO_LEAK_SENDER_ADDRESS", category := "style",
     description := "Sender address may be leaked in error messages",
     run := infoLeakSenderAddressRun },
   { id := "INFO_LEAK_INPUT_DATA", category := "style",
     description := "Input data may be leaked in error messages",
     run := infoLeakInputDataRun },
   { id := "HANDLER_NO_STATE_MUTATION", category := "style",
     description := "Handler name suggests mutation but body doesn't modify State",
     run := handlerNoStateMutationRun },
   { id := "NO_TIMESTAMP_TRACKING", category := "style",
     description := "Mutating handler doesn't record msg.Timestamp for audit trail",
     appliesToTestFile := false, run := noTimestampTrackingRun },
   { id := "NO_BOUNDS_DEFINED", category := "style",
     description := "Handler updates parameters without any bounds defined",
     appliesToTestFile := false, run := noBoundsDefinedRun },
   { id := "BOUNDS_DEFINED_NOT_ENFORCED", category := "style",
     description := "State.Bounds is defined but not checked when updating values",
     appliesToTestFile := false, run := boundsDefinedNotEnforcedRun }]

end AoLens

namespace AoLens

/-! ## `CheckRegistry` and `SecurityAnalyzer` (`part_023`, `part_022`) -/

/-- `CheckRegistry.getChecks`: categories in constructor order
(auth, frozen, determinism, json, response, style). -/
def registryChecks : List SecurityCheck :=
  authChecks ++ frozenChecks ++ determinismChecks ++ jsonChecks
    ++ responseChecks ++ styleChecks

/-- The two skip conditions of the `SecurityAnalyzer.analyze` loop. -/
def checkEligible (ctx : ProcessContext) (c : SecurityCheck) : Bool :=
  !(ctx.isLibrary && !c.appliesToLibrary)
    && !(ctx.isTestFile && c.appliesToTestFile = false)

/-- The gathering loop of `SecurityAnalyzer.analyze`: each eligible check's
findings in registry order.  (The TS `try`/`catch` only matters when a
check throws; the embedded checks are total.) -/
def runChecks (checks : List SecurityCheck) (ctx : ProcessContext) : List Finding :=
  (checks.filter (fun c => checkEligible ctx c)).flatMap (fun c => c.run ctx)

/-- First-occurrence filter of `deduplicate`: the Map keyed by
`code:line` keeps the first finding per key, in first-occurrence order
(the key string is injective in the `(code, line)` pair because the line
component is purely numeric, so the pair is used directly). -/
def dedupKeys : List (String × Nat) → List Finding → List Finding
  | _, [] => []
  | seen, f :: fs =>
    if (f.code, f.line) ∈ seen then dedupKeys seen fs
    else f :: dedupKeys ((f.code, f.line) :: seen) fs

/-- The comparator's strict order: `severityDiff < 0`, or tie and
`a.line - b.line < 0`. -/
def findingBefore (a b : Finding) : Bool :=
  severityRank a.severity < severityRank b.severity
    || (severityRank a.severity = severityRank b.severity && a.line < b.line)

/-- Stable insertion (a new element goes after existing comparator-equal
ones), modelling the stable `Array.prototype.sort`. -/
def insertFinding (f : Finding) : List Finding → List Finding
  | [] => [f]
  | g :: gs => if findingBefore f g then f :: g :: gs else g :: insertFinding f gs

def sortFindings (l : List Finding) : List Finding :=
  l.foldl (fun acc f => insertFinding f acc) []

/-- `SecurityAnalyzer.deduplicate`. -/
def deduplicate (findings : List Finding) : List Finding :=
  sortFindings (dedupKeys [] findings)

/-- `SecurityAnalyzer.analyze` / `analyzeWithContext` (findings component),
parametrised by the check list so a spec-modelled check can be appended
without touching the faithful registry. -/
def securityAnalyzeWith (checks : List SecurityCheck) (ctx : ProcessContext) :
    List Finding :=
  deduplicate (runChecks checks ctx)

def securityAnalyze (ctx : ProcessContext) : List Finding :=
  securityAnalyzeWith registryChecks ctx

end AoLens

namespace AoLens

/-! ## Dynamic rules (`rule-loader.ts`) and the adapter (`adapter.ts`) -/

/-- `Detection` tagged union.  Patterns are modelled by their compiled
matchers (`Rx`): the JS regex engine is external, and `Rx` covers the
fragment the analyzed patterns use. -/
inductive Detection where
  | handlerAnalysis (handler_name_contains handler_name_not_contains : Option (List String))
      (body_matches : Option Rx)
  | regex (pattern : Rx) (requires_following requires_context : Option Rx)
      (lines_to_check : Option Nat)
  | promptOnly

/-- `DetectionRule` of `rule-loader.ts`. -/
structure DetectionRule where
  id : String
  skillId : String
  description : String
  severity : Severity
  detection : Option Detection
  techStack : List String

/-- `RuleLoader.getRulesForTechStack`. -/
def getRulesForTechStack (rules : List DetectionRule) (techStack : List String) :
    List DetectionRule :=
  let stackSet := techStack.map (fun t => lowerStr t)
  rules.filter (fun rule => rule.techStack.any (fun t => stackSet.contains (lowerStr t)))

/-- Lengths at which `r` matches a prefix of `cs`; ascending. -/
def matchEndsGo (r : Rx) (cs : List Char) (k : Nat) (acc : List Nat) : List Nat :=
  let acc := if r.nullable then acc ++ [k] else acc
  match cs with
  | [] => acc
  | c :: rest => matchEndsGo (r.deriv c) rest (k + 1) acc

/-- Longest match length of `r` at the start of `cs`. -/
def longestLen (r : Rx) (cs : List Char) : Option Nat :=
  (matchEndsGo r cs 0 []).getLast?

/-- End index of the leftmost match of `r` in `cs`, counting from `i`
(the match taken longest at its start; for the metacharacter-free
patterns used concretely in this development this is the JS match). -/
def gMatchEnd (r : Rx) (i : Nat) : List Char → Option Nat
  | [] => if r.nullable then some i else none
  | c :: cs =>
    match longestLen r (c :: cs) with
    | some len => some (i + len)
    | none => gMatchEnd r (i + 1) cs

/-- `RegExp.prototype.test` with the `g` flag: searches from `lastIndex`;
on success `lastIndex` becomes the match end, on failure it resets to 0.
Returns `(hit, new lastIndex)`. -/
def jsGTest (r : Rx) (s : String) (lastIndex : Nat) : Bool × Nat :=
  match gMatchEnd r lastIndex (s.data.drop lastIndex) with
  | some e => (true, e)
  | none => (false, 0)

def mkRuleFinding (rule : DetectionRule) (line : Nat) : Finding :=
  { code := rule.id, message := rule.description,
    severity := rule.severity, line := line }

/-- `SecurityAnalyzerAdapter.applyRule`.  The per-line `pattern.test` reuses
one `g`-flagged regex, so its `lastIndex` threads through the loop; the
`requires_*` guards compile fresh flagless regexes each time. -/
def applyRule (rule : DetectionRule) (sourceCode : String) : List Finding :=
  match rule.detection with
  | none => []
  | some (Detection.promptOnly) => []
  | some (Detection.handlerAnalysis _ _ bodyMatches) =>
    match bodyMatches with
    | none => []
    | some pat =>
      let lines := splitLines sourceCode
      ((enumLines lines).foldl
        (fun (acc : Nat × List Finding) il =>
          let t := jsGTest pat il.2 acc.1
          if t.1 then (t.2, acc.2 ++ [mkRuleFinding rule (il.1 + 1)])
          else (t.2, acc.2))
        (0, [])).2
  | some (Detection.regex pat reqFollowing reqContext linesToCheck) =>
    let lines := splitLines sourceCode
    ((enumLines lines).foldl
      (fun (acc : Nat × List Finding) il =>
        let i := il.1
        let line := il.2
        let t := jsGTest pat line acc.1
        if t.1 then
          -- `regexDetection.lines_to_check || 5` (0 is falsy)
          let n := match linesToCheck with
            | some k => if k = 0 then 5 else k
            | none => 5
          let hasGuard :=
            match reqContext with
            | some cpat =>
              if rxTest cpat line then true
              else rxTest cpat (joinLines (sliceList (i - n) i lines))
            | none => false
          let hasGuard :=
            if !hasGuard then
              match reqFollowing with
              | some fpat => rxTest fpat (joinLines (sliceList (i + 1) (i + 1 + n) lines))
              | none => false
            else hasGuard
          if reqContext.isSome || reqFollowing.isSome then
            if !hasGuard then (t.2, acc.2 ++ [mkRuleFinding rule (i + 1)])
            else (t.2, acc.2)
          else (t.2, acc.2 ++ [mkRuleFinding rule (i + 1)])
        else (t.2, acc.2))
      (0, [])).2

/-- `SecurityFinding` (adapter wire shape). -/
structure SecurityFinding where
  severity : Severity
  code : String
  message : String
  suggestion : String
  handler : Option String := none
  line : Option Nat := none
  cwe : Option String := none
deriving DecidableEq, Repr

structure Summary where
  critical : Nat
  high : Nat
  medium : Nat
  low : Nat
  info : Nat
  total : Nat
deriving DecidableEq, Repr

structure SecurityReport where
  file : String
  findings : List SecurityFinding
  summary : Summary
deriving DecidableEq, Repr

def toSecurityFinding (f : Finding) : SecurityFinding :=
  { severity := f.severity, code := f.code, message := f.message,
    suggestion := f.fix.getD "", line := some f.line, cwe := f.cwe }

def createReport (file : String) (findings : List SecurityFinding) : SecurityReport :=
  { file := file, findings := findings,
    summary :=
      { critical := (findings.filter (fun f => f.severity = Severity.critical)).length,
        high := (findings.filter (fun f => f.severity = Severity.high)).length,
        medium := (findings.filter (fun f => f.severity = Severity.medium)).length,
        low := (findings.filter (fun f => f.severity = Severity.low)).length,
        info := (findings.filter (fun f => f.severity = Severity.info)).length,
        total := findings.length } }

/-- The `RuleLoader` as the adapter sees it: loaded rules plus the
`loaded` flag. -/
structure RuleLoaderState where
  rules : List DetectionRule
  loaded : Bool

/-- `ParseResult` restricted to the fields the adapter reads
(`sourceCode`, `file`), plus a representative ignored `stats` field. -/
structure ParseResult where
  file : String
  success : Bool := true
  sourceCode : Option String := none
  parse_time_ms : Nat := 0

/-- `SecurityAnalyzerAdapter.applyDynamicRules`. -/
def applyDynamicRules (rules : List DetectionRule) (sourceCode : String) :
    List Finding :=
  (getRulesForTechStack rules ["lua", "ao"]).flatMap
    (fun rule => applyRule rule sourceCode)

/-- `SecurityAnalyzerAdapter.analyze`.  `handlerFacts` are the tree-derived
inputs the embedded `build` consumes (the adapter re-parses `sourceCode`
through the external parser). -/
def adapterAnalyze (result : ParseResult)
    (handlerFacts : List (HandlerInfo × HandlerBodyFacts))
    (ruleLoader : Option RuleLoaderState) : SecurityReport :=
  let sourceCode := result.sourceCode.getD ""
  let filePath := result.file
  let ctx := build sourceCode filePath handlerFacts
  let findings := securityAnalyze ctx
  let isLibrary := ctx.isLibrary
  let dynamicFindings :=
    match ruleLoader with
    | some rl => if rl.loaded && !isLibrary then applyDynamicRules rl.rules sourceCode else []
    | none => []
  let allFindings := findings ++ dynamicFindings
  -- the `filterToHandlers` branch leaves the list unchanged
  createReport filePath (allFindings.map toSecurityFinding)

end AoLens

namespace AoLens

/-! ## Diff engine (`diff.ts`) -/

structure AuditResult where
  schema_version : String := ""
  timestamp : String := ""
  files : List SecurityReport
  pass : Bool
deriving Repr

/-- A finding with its file attached (`FindingWithFile`). -/
abbrev FWF := String × SecurityFinding

/-- `createFindingKey`: `file|code|severity|handler` (the `|`-joined string
is modelled by the tuple: the severity slot always holds one of five fixed
words and the final slot of the strict key is numeric, so the string is
injective in the components). -/
def fuzzyKey (f : FWF) : String × String × Severity × String :=
  (f.1, f.2.code, f.2.severity, f.2.handler.getD "")

/-- `createStrictFindingKey`: `file|code|severity|handler|line`. -/
def strictKey (f : FWF) : String × String × Severity × String × Nat :=
  (f.1, f.2.code, f.2.severity, f.2.handler.getD "", f.2.line.getD 0)

/-- `extractFindings`. -/
def extractFindings (audit : AuditResult) : List FWF :=
  audit.files.flatMap (fun r => r.findings.map (fun f => (r.file, f)))

structure MovedFinding where
  finding : FWF
  from_line : Nat
  to_line : Nat
deriving DecidableEq, Repr

structure DiffSummary where
  new_critical : Nat
  new_high : Nat
  new_medium : Nat
  new_low : Nat
  new_info : Nat
  resolved_critical : Nat
  resolved_high : Nat
  resolved_medium : Nat
  resolved_low : Nat
  resolved_info : Nat
deriving DecidableEq, Repr

structure DiffResult where
  regression_detected : Bool
  new_findings : List FWF
  resolved_findings : List FWF
  moved_findings : List MovedFinding
  summary : DiffSummary
  baseline_passed : Bool
  current_passed : Bool
deriving DecidableEq, Repr

/-- The fuzzy-key buckets (`baselineFuzzy` / `currentFuzzy`): per key, the
findings in list order. -/
def fuzzyBuckets (l : List FWF) : List ((String × String × Severity × String) × List FWF) :=
  l.foldl (fun m f => mapSetK m (fuzzyKey f) ((mapGetK m (fuzzyKey f)).getD [] ++ [f])) []
where
  mapSetK {κ : Type} [DecidableEq κ] (m : List (κ × List FWF)) (k : κ) (v : List FWF) :
      List (κ × List FWF) :=
    if m.any (fun p => p.1 = k) then m.map (fun p => if p.1 = k then (k, v) else p)
    else m ++ [(k, v)]
  mapGetK {κ : Type} [DecidableEq κ] (m : List (κ × List FWF)) (k : κ) : Option (List FWF) :=
    (m.find? (fun p => p.1 = k)).map (fun p => p.2)

def bucketGet (m : List ((String × String × Severity × String) × List FWF))
    (k : String × String × Severity × String) : Option (List FWF) :=
  (m.find? (fun p => p.1 = k)).map (fun p => p.2)

/-- State of the new/moved classification loop. -/
structure DiffLoopState where
  matchedBaseline : List (String × String × Severity × String × Nat)
  newFindings : List FWF
  movedFindings : List MovedFinding
deriving Repr

/-- One iteration of the `for (const f of currentFindings)` loop. -/
def diffStep (baselineStrictKeys : List (String × String × Severity × String × Nat))
    (baselineFuzzy : List ((String × String × Severity × String) × List FWF))
    (st : DiffLoopState) (f : FWF) : DiffLoopState :=
  let sk := strictKey f
  let fk := fuzzyKey f
  if sk ∈ baselineStrictKeys then
    { st with matchedBaseline := st.matchedBaseline ++ [sk] }
  else
    match bucketGet baselineFuzzy fk with
    | some baseMatches =>
      match baseMatches.find? (fun b => !(decide (strictKey b ∈ st.matchedBaseline))) with
      | some b =>
        let st := { st with matchedBaseline := st.matchedBaseline ++ [strictKey b] }
        if b.2.line ≠ f.2.line then
          { st with movedFindings := st.movedFindings
              ++ [{ finding := f, from_line := b.2.line.getD 0, to_line := f.2.line.getD 0 }] }
        else st
      | none => { st with newFindings := st.newFindings ++ [f] }
    | none => { st with newFindings := st.newFindings ++ [f] }

def countSev (l : List FWF) (sev : Severity) : Nat :=
  (l.filter (fun f => f.2.severity = sev)).length

/-- `diffAuditResults`. -/
def diffAuditResults (baseline current : AuditResult) : DiffResult :=
  let baselineFindings := extractFindings baseline
  let currentFindings := extractFindings current
  let baselineStrictKeys := baselineFindings.map strictKey
  let baselineFuzzy := fuzzyBuckets baselineFindings
  let currentFuzzy := fuzzyBuckets currentFindings
  let st := currentFindings.foldl (diffStep baselineStrictKeys baselineFuzzy)
    { matchedBaseline := [], newFindings := [], movedFindings := [] }
  let resolvedFindings := baselineFindings.filter (fun f =>
    !(decide (strictKey f ∈ st.matchedBaseline))
      && ((bucketGet currentFuzzy (fuzzyKey f)).getD []).isEmpty)
  let summary : DiffSummary :=
    { new_critical := countSev st.newFindings .critical,
      new_high := countSev st.newFindings .high,
      new_medium := countSev st.newFindings .medium,
      new_low := countSev st.newFindings .low,
      new_info := countSev st.newFindings .info,
      resolved_critical := countSev resolvedFindings .critical,
      resolved_high := countSev resolvedFindings .high,
      resolved_medium := countSev resolvedFindings .medium,
      resolved_low := countSev resolvedFindings .low,
      resolved_info := countSev resolvedFindings .info }
  { regression_detected := 0 < summary.new_critical || 0 < summary.new_high,
    new_findings := st.newFindings,
    resolved_findings := resolvedFindings,
    moved_findings := st.movedFindings,
    summary := summary,
    baseline_passed := baseline.pass,
    current_passed := current.pass }

end AoLens

namespace AoLens

/-! ## The nil-guard check

Modelled from the spec: the `NIL_GUARD_REQUIRED` evaluator is not present
under `src/` (the repository plan, README, and fixtures document it; its
shipped implementation lives in an external skills rule file).  Per the
spec: an equality comparison between sender identity (`msg.From`) and the
ownership field (`State.Owner`), in either order, with no nil-guard on the
same line or within the preceding window (5 lines, per the design notes)
is critical; recognized safe forms are a conjunctive guard requiring both
operands truthy before the equality, or a preceding explicit non-nil
assertion on the ownership field within the window. -/

def rxSenderOwnerEquality : Rx :=
  rxAlt [rxSeq [rxLit "msg.From", ws0, rxLit "==", ws0, rxLit "State.Owner"],
         rxSeq [rxLit "State.Owner", ws0, rxLit "==", ws0, rxLit "msg.From"]]

/-- Modelled from the spec: the conjunctive guard — both operands required
truthy before the equality, in either order. -/
def rxConjunctiveGuard : Rx :=
  rxAlt [rxSeq [rxLit "State.Owner", ws1, rxLit "and", ws1, rxLit "msg.From", ws1, rxLit "and", ws1],
         rxSeq [rxLit "msg.From", ws1, rxLit "and", ws1, rxLit "State.Owner", ws1, rxLit "and", ws1]]

/-- Modelled from the spec: the nil-guard-required evaluator.  The window
is the comparison's line plus the five preceding lines. -/
def nilGuardRequiredRun (ctx : ProcessContext) : List Finding :=
  let lines := splitLines ctx.sourceCode
  (enumLines lines).flatMap (fun il =>
    let i := il.1
    let line := il.2
    if rxTest rxSenderOwnerEquality line then
      let window := joinLines (sliceList (i - 5) (i + 1) lines)
      if rxTest rxConjunctiveGuard window || rxTest rxAssertStateOwnerNotNil window then []
      else
        [{ code := "NIL_GUARD_REQUIRED",
           message := "msg.From == State.Owner without nil guards allows nil==nil bypass",
           severity := .critical,
           line := i + 1,
           fix := some "Use: if State.Owner and msg.From and msg.From == State.Owner then" }]
    else [])

/-- Modelled from the spec: the nil-guard check packaged as a registry
check (production auth checks do not apply to test files). -/
def nilGuardRequiredCheck : SecurityCheck :=
  { id := "NIL_GUARD_REQUIRED", category := "auth",
    description := "Equality between sender identity and the ownership field without nil guards",
    appliesToTestFile := false, run := nilGuardRequiredRun }

/-- The registry extended with the spec-modelled nil-guard check. -/
def registryWithNilGuard : List SecurityCheck :=
  registryChecks ++ [nilGuardRequiredCheck]

/-- Concrete scenario source for the nil-guard claim: owner left nil, an
unguarded sender-owner equality, a state write inside the branch. -/
def c1Src : String :=
  "State = State or \x7b Owner = nil \x7d\nif msg.From == State.Owner then\nState.X = 1\nend"

/-- Concrete handler facts for the nil-guard scenario: one mutating
handler with conditional sender authorization. -/
def c1Facts : List (HandlerInfo × HandlerBodyFacts) :=
  [({ name := "H", line := 2, end_line := 4,
      signature_type := SignatureType.function_matcher,
      trigger := { action_tag := none, required_tags := [], checks_from := false,
                   checks_data := false, checks_frozen := false },
      matcher_analysis := { type := MatcherType.inline_function,
                            strictness := Strictness.loose,
                            validates_schema := false,
                            checks_authorization := false },
      has_handler_body := true, is_safe_library := false },
    { auth := { validates := true, pattern := AuthPattern.conditional },
      reads := [], writes := [{ field := "X", line := 3 }],
      sends := [] })]

end AoLens

namespace AoLens

/-! ## Lemma infrastructure -/

/-- Two findings differ in their deduplication key. -/
def keyNe (a b : Finding) : Prop := ¬(a.code = b.code ∧ a.line = b.line)

/-- Non-decreasing comparator order (severity rank, then line). -/
def keyLe (a b : Finding) : Prop :=
  severityRank a.severity < severityRank b.severity
    ∨ (severityRank a.severity = severityRank b.severity ∧ a.line ≤ b.line)

theorem keyNe_symm : ∀ {a b : Finding}, keyNe a b → keyNe b a := by
  intro a b h hk
  exact h ⟨hk.1.symm, hk.2.symm⟩

theorem keyLe_trans : ∀ {a b c : Finding}, keyLe a b → keyLe b c → keyLe a c := by
  intro a b c hab hbc
  rcases hab with h1 | ⟨h1, h2⟩ <;> rcases hbc with h3 | ⟨h3, h4⟩
  · exact Or.inl (h1.trans h3)
  · exact Or.inl (h3 ▸ h1)
  · exact Or.inl (h1 ▸ h3)
  · exact Or.inr ⟨h1.trans h3, h2.trans h4⟩

theorem keyLe_of_not_before {a b : Finding} (h : findingBefore a b = false) : keyLe b a := by
  unfold findingBefore at h
  simp only [Bool.or_eq_false_iff, Bool.and_eq_false_iff, decide_eq_false_iff_not] at h
  obtain ⟨h1, h2⟩ := h
  rcases Nat.lt_or_ge (severityRank b.severity) (severityRank a.severity) with hlt | hge
  · exact Or.inl hlt
  · have heq : severityRank a.severity = severityRank b.severity :=
      Nat.le_antisymm hge (Nat.le_of_not_lt h1)
  
    rcases h2 with h2 | h2
    · exact absurd heq h2
    · exact Or.inr ⟨heq.symm, Nat.le_of_not_lt h2⟩

theorem keyLe_of_before {a b : Finding} (h : findingBefore a b = true) : keyLe a b := by
  unfold findingBefore at h
  simp only [Bool.or_eq_true, Bool.and_eq_true, decide_eq_true_eq] at h
  rcases h with h | ⟨h1, h2⟩
  · exact Or.inl h
  · exact Or.inr ⟨h1, Nat.le_of_lt h2⟩

theorem mem_insertFinding {a f : Finding} :
    ∀ {l : List Finding}, a ∈ insertFinding f l ↔ a = f ∨ a ∈ l := by
  intro l
  induction l with
  | nil => simp [insertFinding]
  | cons g gs ih =>
    cases hfb : findingBefore f g with
    | true => simp [insertFinding, hfb]
    | false =>
      simp only [insertFinding, hfb, Bool.false_eq_true, if_false, List.mem_cons, ih]
      tauto

theorem insertFinding_perm (f : Finding) :
    ∀ (l : List Finding), List.Perm (insertFinding f l) (f :: l) := by
  intro l
  induction l with
  | nil => simp [insertFinding]
  | cons g gs ih =>
    cases hfb : findingBefore f g with
    | true => simp [insertFinding, hfb]
    | false =>
      simp only [insertFinding, hfb, Bool.false_eq_true, if_false]
      exact (ih.cons g).trans (List.Perm.swap f g gs)

theorem insertFinding_pairwise {f : Finding} {l : List Finding}
    (h : List.Pairwise keyLe l) : List.Pairwise keyLe (insertFinding f l) := by
  induction l with
  | nil => simp [insertFinding]
  | cons g gs ih =>
    cases hfb : findingBefore f g with
    | true =>
      simp only [insertFinding, hfb, if_true]
      refine List.Pairwise.cons ?_ h
      intro b hb2
      rcases List.mem_cons.mp hb2 with rfl | hb3
      · exact keyLe_of_before hfb
      · exact keyLe_trans (keyLe_of_before hfb) (List.rel_of_pairwise_cons h hb3)
    | false =>
      simp only [insertFinding, hfb, Bool.false_eq_true, if_false]
      refine List.Pairwise.cons ?_ (ih h.of_cons)
      intro b hb2
      rcases mem_insertFinding.mp hb2 with rfl | hb3
      · exact keyLe_of_not_before hfb
      · exact List.rel_of_pairwise_cons h hb3

theorem sortFindings_go_perm :
    ∀ (l acc : List Finding),
      List.Perm (l.foldl (fun acc f => insertFinding f acc) acc) (acc ++ l) := by
  intro l
  induction l with
  | nil => simp
  | cons f fs ih =>
    intro acc
    have h1 : List.Perm (fs.foldl (fun acc f => insertFinding f acc) (insertFinding f acc))
        (insertFinding f acc ++ fs) := ih (insertFinding f acc)
    have h2 : List.Perm (insertFinding f acc ++ fs) ((f :: acc) ++ fs) :=
      (insertFinding_perm f acc).append_right fs
    have h3 : List.Perm ((f :: acc) ++ fs) (acc ++ f :: fs) := by
      simpa using (@List.perm_middle _ f acc fs).symm
    exact (h1.trans h2).trans h3

theorem sortFindings_perm (l : List Finding) : List.Perm (sortFindings l) l := by
  simpa [sortFindings] using sortFindings_go_perm l []

theorem sortFindings_pairwise (l : List Finding) :
    List.Pairwise keyLe (sortFindings l) := by
  have go : ∀ (l acc : List Finding), List.Pairwise keyLe acc →
      List.Pairwise keyLe (l.foldl (fun acc f => insertFinding f acc) acc) := by
    intro l
    induction l with
    | nil => intro acc h; exact h
    | cons f fs ih => intro acc h; exact ih (insertFinding f acc) (insertFinding_pairwise h)
  exact go l [] (by simp)

theorem mem_sortFindings {a : Finding} {l : List Finding} :
    a ∈ sortFindings l ↔ a ∈ l :=
  (sortFindings_perm l).mem_iff

theorem mem_of_mem_dedupKeys {f : Finding} :
    ∀ {seen : List (String × Nat)} {l : List Finding}, f ∈ dedupKeys seen l → f ∈ l := by
  intro seen l
  induction l generalizing seen with
  | nil => simp [dedupKeys]
  | cons g gs ih =>
    intro h
    by_cases hc : (g.code, g.line) ∈ seen
    · rw [dedupKeys, if_pos hc] at h
      exact List.mem_cons_of_mem g (ih h)
    · rw [dedupKeys, if_neg hc] at h
      rcases List.mem_cons.mp h with rfl | h2
      · exact List.mem_cons_self _ _
      · exact List.mem_cons_of_mem g (ih h2)

theorem dedupKeys_key_mem {f : Finding} :
    ∀ {seen : List (String × Nat)} {l : List Finding}, f ∈ l →
      (f.code, f.line) ∉ seen →
      ∃ g ∈ dedupKeys seen l, g.code = f.code ∧ g.line = f.line := by
  intro seen l
  induction l generalizing seen with
  | nil => simp
  | cons g gs ih =>
    intro hf hseen
    by_cases hc : (g.code, g.line) ∈ seen
    · rw [dedupKeys, if_pos hc]
      rcases List.mem_cons.mp hf with rfl | h2
      · exact absurd hc hseen
      · exact ih h2 hseen
    · rw [dedupKeys, if_neg hc]
      by_cases hkey : g.code = f.code ∧ g.line = f.line
      · exact ⟨g, List.mem_cons_self _ _, hkey⟩
      · rcases List.mem_cons.mp hf with rfl | h2
        · exact absurd ⟨rfl, rfl⟩ hkey
        · obtain ⟨g2, hg2, hk2⟩ := @ih ((g.code, g.line) :: seen) h2 (by
            intro hmem
            rcases List.mem_cons.mp hmem with h3 | h3
            · have h4 : f.code = g.code := congrArg Prod.fst h3
              have h5 : f.line = g.line := congrArg Prod.snd h3
              exact hkey ⟨h4.symm, h5.symm⟩
            · exact hseen h3)
          exact ⟨g2, List.mem_cons_of_mem g hg2, hk2⟩

theorem dedupKeys_pairwise :
    ∀ {l : List Finding} {seen : List (String × Nat)},
      List.Pairwise keyNe (dedupKeys seen l)
        ∧ ∀ f ∈ dedupKeys seen l, (f.code, f.line) ∉ seen := by
  intro l
  induction l with
  | nil => intro seen; simp [dedupKeys]
  | cons g gs ih =>
    intro seen
    by_cases hc : (g.code, g.line) ∈ seen
    · rw [dedupKeys, if_pos hc]
      exact ih
    · rw [dedupKeys, if_neg hc]
      obtain ⟨hpw, hnot⟩ := @ih ((g.code, g.line) :: seen)
      refine ⟨List.Pairwise.cons ?_ hpw, ?_⟩
      · intro b hb hk
        exact hnot b hb (by
          rw [← hk.1, ← hk.2]
          exact List.mem_cons_self _ _)
      · intro f hf
        rcases List.mem_cons.mp hf with rfl | h2
        · exact hc
        · exact fun hmem => hnot f h2 (List.mem_cons_of_mem _ hmem)

theorem mem_of_mem_deduplicate {f : Finding} {l : List Finding}
    (h : f ∈ deduplicate l) : f ∈ l :=
  mem_of_mem_dedupKeys (mem_sortFindings.mp h)

theorem deduplicate_key_mem {f : Finding} {l : List Finding} (hf : f ∈ l) :
    ∃ g ∈ deduplicate l, g.code = f.code ∧ g.line = f.line ∧ g ∈ l := by
  obtain ⟨g, hg, hk1, hk2⟩ := @dedupKeys_key_mem _ [] _ hf (by simp)
  exact ⟨g, mem_sortFindings.mpr hg, hk1, hk2, mem_of_mem_dedupKeys hg⟩

theorem deduplicate_pairwise_keyNe (l : List Finding) :
    List.Pairwise keyNe (deduplicate l) := by
  have h := (@dedupKeys_pairwise l []).1
  exact ((sortFindings_perm (dedupKeys [] l)).pairwise_iff
    (fun h => keyNe_symm h)).mpr h

theorem deduplicate_sorted (l : List Finding) :
    List.Pairwise keyLe (deduplicate l) :=
  sortFindings_pairwise _

end AoLens

namespace AoLens

/-! ### Per-check characterization lemmas -/

theorem foldl_snd_pres {α σ : Type} {step : (σ × List Finding) → α → (σ × List Finding)}
    {P : Finding → Prop}
    (h : ∀ acc x f, f ∈ (step acc x).2 → f ∈ acc.2 ∨ P f) :
    ∀ (l : List α) (acc : σ × List Finding) f, f ∈ (l.foldl step acc).2 → f ∈ acc.2 ∨ P f := by
  intro l
  induction l with
  | nil => intro acc f hf; exact Or.inl hf
  | cons x xs ih =>
    intro acc f hf
    rcases ih (step acc x) f hf with h2 | h2
    · exact h acc x f h2
    · exact Or.inr h2

theorem matcherWalk_pres {P : Finding → Prop} {emit : Nat → String → List Finding}
    (h : ∀ i line f, f ∈ emit i line → P f) :
    ∀ (l : List (Nat × String)) (b : Bool) (d : Int) f, f ∈ matcherWalk emit b d l → P f := by
  intro l
  induction l with
  | nil => intro b d f hf; simp [matcherWalk] at hf
  | cons x xs ih =>
    intro b d f hf
    obtain ⟨i, line⟩ := x
    rw [matcherWalk] at hf
    split at hf
    · exact ih _ _ f hf
    · split at hf
      · split at hf
        · simp at hf
        · rcases List.mem_append.mp hf with h2 | h2
          · exact h _ _ f h2
          · exact ih _ _ f h2
      · exact ih _ _ f hf

theorem noAuthCheckRun_mem {ctx : ProcessContext} {f : Finding}
    (hf : f ∈ noAuthCheckRun ctx) :
    f.code = "NO_AUTH_CHECK" ∧ f.severity = .critical
      ∧ ∃ p ∈ ctx.handlers, p.2.mutatesState = true ∧ p.2.authLocation = .none
          ∧ f.line = p.2.startLine := by
  simp only [noAuthCheckRun, List.mem_flatMap] at hf
  obtain ⟨p, hp, hfp⟩ := hf
  split at hfp
  · simp at hfp
  next hmut =>
    split at hfp
    next hloc =>
      rcases List.mem_singleton.mp hfp with rfl
      exact ⟨rfl, rfl, p, hp, by simpa using hmut, hloc, rfl⟩
    · simp at hfp

theorem hasMatchingTagRun_code {ctx : ProcessContext} {f : Finding}
    (hf : f ∈ hasMatchingTagNoHandlerAuthRun ctx) :
    f.code = "HASMATCHING_TAG_NO_HANDLER_AUTH" := by
  simp only [hasMatchingTagNoHandlerAuthRun, List.mem_flatMap] at hf
  obtain ⟨p, -, hfp⟩ := hf
  repeat' split at hfp
  all_goals simp_all

theorem looseMatcherRun_code {ctx : ProcessContext} {f : Finding}
    (hf : f ∈ looseMatcherWithBodyAuthRun ctx) :
    f.code = "LOOSE_MATCHER_WITH_BODY_AUTH" := by
  simp only [looseMatcherWithBodyAuthRun, List.mem_flatMap] at hf
  obtain ⟨p, -, hfp⟩ := hf
  repeat' split at hfp
  all_goals simp_all

theorem beltRun_code {ctx : ProcessContext} {f : Finding}
    (hf : f ∈ missingBeltAndSuspendersRun ctx) :
    f.code = "MISSING_BELT_AND_SUSPENDERS" := by
  simp only [missingBeltAndSuspendersRun, List.mem_flatMap] at hf
  obtain ⟨p, -, hfp⟩ := hf
  repeat' split at hfp
  all_goals simp_all

theorem ownerNeverRun_mem {ctx : ProcessContext} {f : Finding}
    (hf : f ∈ ownerNeverInitializedRun ctx) :
    f.code = "OWNER_NEVER_INITIALIZED" ∧ f.severity = .critical ∧ f.line = 1 := by
  unfold ownerNeverInitializedRun at hf
  repeat' split at hf
  all_goals simp_all

theorem localStateShadowRun_code {ctx : ProcessContext} {f : Finding}
    (hf : f ∈ localStateShadowRun ctx) :
    f.code = "LOCAL_STATE_SHADOW" := by
  simp only [localStateShadowRun, List.mem_flatMap] at hf
  obtain ⟨p, -, hfp⟩ := hf
  repeat' split at hfp
  all_goals simp_all

end AoLens

namespace AoLens

theorem unsafeOwnerOrRun_code {ctx : ProcessContext} {f : Finding}
    (hf : f ∈ unsafeOwnerOrPatternRun ctx) :
    f.code = "UNSAFE_OWNER_OR_PATTERN" ∧ f.severity = .critical := by
  simp only [unsafeOwnerOrPatternRun, List.mem_flatMap] at hf
  obtain ⟨p, -, hfp⟩ := hf
  repeat' split at hfp
  all_goals simp_all

theorem matcherMissingActionRun_code {ctx : ProcessContext} {f : Finding}
    (hf : f ∈ matcherMissingActionTagRun ctx) :
    f.code = "MATCHER_MISSING_ACTION_TAG" := by
  simp only [matcherMissingActionTagRun, List.mem_flatMap] at hf
  obtain ⟨p, -, hfp⟩ := hf
  repeat' split at hfp
  all_goals simp_all

theorem ownerExplicitNilRun_code {ctx : ProcessContext} {f : Finding}
    (hf : f ∈ ownerExplicitNilRun ctx) :
    f.code = "OWNER_EXPLICIT_NIL" := by
  simp only [ownerExplicitNilRun, List.mem_flatMap] at hf
  obtain ⟨p, -, hfp⟩ := hf
  repeat' split at hfp
  all_goals simp_all

theorem firstCallerRun_code {ctx : ProcessContext} {f : Finding}
    (hf : f ∈ firstCallerWinsOwnerRun ctx) :
    f.code = "FIRST_CALLER_WINS_OWNER" ∧ f.severity = .critical := by
  simp only [firstCallerWinsOwnerRun, List.mem_flatMap] at hf
  obtain ⟨p, -, hfp⟩ := hf
  repeat' split at hfp
  all_goals simp_all

theorem aoSendTargetRun_code {ctx : ProcessContext} {f : Finding}
    (hf : f ∈ aoSendTargetNoNilGuardRun ctx) :
    f.code = "AO_SEND_TARGET_NO_NIL_GUARD" := by
  simp only [aoSendTargetNoNilGuardRun, List.mem_flatMap] at hf
  obtain ⟨p, -, hfp⟩ := hf
  repeat' split at hfp
  all_goals simp_all

theorem arbitraryStateBlockA_code {lines : List String} {i : Nat} {line : String}
    {fs : List Finding} (h : arbitraryStateBlockA lines i line = some fs) :
    ∀ f ∈ fs, f.code = "ARBITRARY_STATE_OVERWRITE" := by
  unfold arbitraryStateBlockA at h
  repeat' split at h
  all_goals (try (simp only [] at h; split at h))
  all_goals (first
    | (injection h with h; subst h; intro f hf; simp_all)
    | (injection h))

theorem arbitraryStateBlockB_code {lines : List String} {i : Nat} {line : String} :
    ∀ f ∈ arbitraryStateBlockB lines i line, f.code = "ARBITRARY_STATE_OVERWRITE" := by
  intro f hf
  unfold arbitraryStateBlockB at hf
  repeat' split at hf
  all_goals simp_all

theorem arbitraryStateRun_code {ctx : ProcessContext} {f : Finding}
    (hf : f ∈ arbitraryStateOverwriteRun ctx) :
    f.code = "ARBITRARY_STATE_OVERWRITE" := by
  simp only [arbitraryStateOverwriteRun, List.mem_flatMap] at hf
  obtain ⟨p, -, hfp⟩ := hf
  split at hfp
  · simp at hfp
  next fs h =>
    rcases List.mem_append.mp hfp with h2 | h2
    · exact arbitraryStateBlockA_code h f h2
    · exact arbitraryStateBlockB_code f h2

theorem noFrozenRun_code {ctx : ProcessContext} {f : Finding}
    (hf : f ∈ noFrozenCheckRun ctx) : f.code = "NO_FROZEN_CHECK" := by
  simp only [noFrozenCheckRun, List.mem_flatMap] at hf
  obtain ⟨p, -, hfp⟩ := hf
  repeat' split at hfp
  all_goals simp_all

theorem stateFrozenNotInitRun_code {ctx : ProcessContext} {f : Finding}
    (hf : f ∈ stateFrozenNotInitializedRun ctx) :
    f.code = "STATE_FROZEN_NOT_INITIALIZED" := by
  unfold stateFrozenNotInitializedRun at hf
  repeat' split at hf
  all_goals simp_all

theorem assertNotFrozenRun_code {ctx : ProcessContext} {f : Finding}
    (hf : f ∈ assertNotFrozenNilBypassRun ctx) :
    f.code = "ASSERT_NOT_FROZEN_NIL_BYPASS" := by
  unfold assertNotFrozenNilBypassRun at hf
  split at hf
  · simp at hf
  · simp only [List.mem_flatMap] at hf
    obtain ⟨p, -, hfp⟩ := hf
    repeat' split at hfp
    all_goals simp_all

theorem frozenNotInMatcherRun_code {ctx : ProcessContext} {f : Finding}
    (hf : f ∈ frozenCheckNotInMatcherRun ctx) :
    f.code = "FROZEN_CHECK_NOT_IN_MATCHER" := by
  simp only [frozenCheckNotInMatcherRun, List.mem_flatMap] at hf
  obtain ⟨p, -, hfp⟩ := hf
  repeat' split at hfp
  all_goals simp_all

theorem osTimeRun_code {ctx : ProcessContext} {f : Finding}
    (hf : f ∈ osTimeUsageRun ctx) : f.code = "OS_TIME_USAGE" := by
  simp only [osTimeUsageRun, List.mem_flatMap] at hf
  obtain ⟨p, -, hfp⟩ := hf
  repeat' split at hfp
  all_goals simp_all

theorem mathRandomRun_code {ctx : ProcessContext} {f : Finding}
    (hf : f ∈ mathRandomUnseededRun ctx) : f.code = "MATH_RANDOM_UNSEEDED" := by
  simp only [mathRandomUnseededRun, List.mem_flatMap] at hf
  obtain ⟨p, -, hfp⟩ := hf
  repeat' split at hfp
  all_goals simp_all

theorem ioOperationRun_code {ctx : ProcessContext} {f : Finding}
    (hf : f ∈ ioOperationRun ctx) : f.code = "IO_OPERATION" := by
  simp only [ioOperationRun, List.mem_flatMap] at hf
  obtain ⟨p, -, hfp⟩ := hf
  repeat' split at hfp
  all_goals simp_all

theorem globalStateStep_snd {acc : Nat × List Finding} {x : Nat × String} {f : Finding}
    (hf : f ∈ (globalStateStep acc x).2) :
    f ∈ acc.2 ∨ f.code = "GLOBAL_STATE_MUTATION" := by
  unfold globalStateStep at hf
  repeat' split at hf
  all_goals (rcases List.mem_append.mp hf with h2 | h2)
  all_goals simp_all

theorem globalStateRun_code {ctx : ProcessContext} {f : Finding}
    (hf : f ∈ globalStateMutationRun ctx) : f.code = "GLOBAL_STATE_MUTATION" := by
  unfold globalStateMutationRun at hf
  have h := foldl_snd_pres (P := fun f => f.code = "GLOBAL_STATE_MUTATION")
    (fun acc x f hf => globalStateStep_snd hf) _ _ f hf
  rcases h with h | h
  · simp at h
  · exact h

theorem mlLineStep_snd {lines : List String} {acc : List (String × Nat) × List Finding}
    {i : Nat} {f : Finding} (hf : f ∈ (mlLineStep lines acc i).2) :
    f ∈ acc.2 ∨ f.code = "MODULE_LEVEL_MUTABLE_STATE" := by
  unfold mlLineStep at hf
  simp only [] at hf
  split at hf
  · rcases List.mem_append.mp hf with h2 | h2
    · exact Or.inl h2
    · simp only [List.mem_singleton] at h2
      exact Or.inr (by rw [h2]; rfl)
  · exact Or.inl hf

theorem moduleLevelRun_code {ctx : ProcessContext} {f : Finding}
    (hf : f ∈ moduleLevelMutableStateRun ctx) :
    f.code = "MODULE_LEVEL_MUTABLE_STATE" := by
  unfold moduleLevelMutableStateRun at hf
  simp only [] at hf
  split at hf
  · simp at hf
  · have h := foldl_snd_pres (P := fun f => f.code = "MODULE_LEVEL_MUTABLE_STATE")
      (fun acc r f hf => by
        have h2 := foldl_snd_pres (P := fun f => f.code = "MODULE_LEVEL_MUTABLE_STATE")
          (fun acc2 i f2 hf2 => mlLineStep_snd hf2) _ _ f hf
        exact h2) _ _ f hf
    rcases h with h | h
    · simp at h
    · exact h

theorem jsonDecodeRun_code {ctx : ProcessContext} {f : Finding}
    (hf : f ∈ jsonDecodeNoPcallRun ctx) : f.code = "JSON_DECODE_NO_PCALL" := by
  simp only [jsonDecodeNoPcallRun, List.mem_flatMap] at hf
  obtain ⟨p, -, hfp⟩ := hf
  repeat' split at hfp
  all_goals simp_all

theorem jsonEncodeRun_code {ctx : ProcessContext} {f : Finding}
    (hf : f ∈ jsonEncodeNoPcallRun ctx) : f.code = "JSON_ENCODE_NO_PCALL" := by
  simp only [jsonEncodeNoPcallRun, List.mem_flatMap] at hf
  obtain ⟨p, -, hfp⟩ := hf
  repeat' split at hfp
  all_goals simp_all

theorem duplicateJsonRun_code {ctx : ProcessContext} {f : Finding}
    (hf : f ∈ duplicateJsonDecodeRun ctx) : f.code = "DUPLICATE_JSON_DECODE" := by
  simp only [duplicateJsonDecodeRun, List.mem_flatMap] at hf
  obtain ⟨p, -, hfp⟩ := hf
  repeat' split at hfp
  all_goals simp_all

theorem msgDataNoJsonRun_code {ctx : ProcessContext} {f : Finding}
    (hf : f ∈ msgDataNoJsonDecodeRun ctx) : f.code = "MSG_DATA_NO_JSON_DECODE" := by
  simp only [msgDataNoJsonDecodeRun, List.mem_flatMap] at hf
  obtain ⟨p, -, hfp⟩ := hf
  repeat' split at hfp
  all_goals simp_all

theorem silentPcallRun_code {ctx : ProcessContext} {f : Finding}
    (hf : f ∈ silentPcallFailureRun ctx) : f.code = "SILENT_PCALL_FAILURE" := by
  simp only [silentPcallFailureRun, List.mem_flatMap] at hf
  obtain ⟨p, -, hfp⟩ := hf
  repeat' split at hfp
  all_goals simp_all

theorem mutatingNoResponseRun_code {ctx : ProcessContext} {f : Finding}
    (hf : f ∈ mutatingHandlerNoResponseRun ctx) :
    f.code = "MUTATING_HANDLER_NO_RESPONSE" := by
  simp only [mutatingHandlerNoResponseRun, List.mem_flatMap] at hf
  obtain ⟨p, -, hfp⟩ := hf
  repeat' split at hfp
  all_goals simp_all

theorem matcherAoSendRun_code {ctx : ProcessContext} {f : Finding}
    (hf : f ∈ matcherSideEffectAoSendRun ctx) :
    f.code = "MATCHER_SIDE_EFFECT_AO_SEND" := by
  simp only [matcherSideEffectAoSendRun, List.mem_flatMap] at hf
  obtain ⟨p, -, hfp⟩ := hf
  split at hfp
  · simp at hfp
  · refine matcherWalk_pres (P := fun g => g.code = "MATCHER_SIDE_EFFECT_AO_SEND") ?_ _ _ _ f hfp
    intro i line g hg
    split at hg
    · simp only [List.mem_singleton] at hg
      rw [hg]
    · simp at hg

theorem matcherStateMutRun_code {ctx : ProcessContext} {f : Finding}
    (hf : f ∈ matcherSideEffectStateMutationRun ctx) :
    f.code = "MATCHER_SIDE_EFFECT_STATE_MUTATION" := by
  simp only [matcherSideEffectStateMutationRun, List.mem_flatMap] at hf
  obtain ⟨p, -, hfp⟩ := hf
  split at hfp
  · simp at hfp
  · refine matcherWalk_pres (P := fun g => g.code = "MATCHER_SIDE_EFFECT_STATE_MUTATION") ?_ _ _ _ f hfp
    intro i line g hg
    split at hg
    · simp only [List.mem_singleton] at hg
      rw [hg]
    · simp at hg

theorem inconsistentErrorRun_code {ctx : ProcessContext} {f : Finding}
    (hf : f ∈ inconsistentErrorActionsRun ctx) :
    f.code = "INCONSISTENT_ERROR_ACTIONS" := by
  unfold inconsistentErrorActionsRun at hf
  repeat' split at hf
  all_goals simp_all

theorem matcherNoActionRun_code {ctx : ProcessContext} {f : Finding}
    (hf : f ∈ matcherNoActionCheckRun ctx) : f.code = "MATCHER_NO_ACTION_CHECK" := by
  simp only [matcherNoActionCheckRun, List.mem_flatMap] at hf
  obtain ⟨p, -, hfp⟩ := hf
  repeat' split at hfp
  all_goals simp_all

theorem noSchemaRun_code {ctx : ProcessContext} {f : Finding}
    (hf : f ∈ noSchemaValidationRun ctx) : f.code = "NO_SCHEMA_VALIDATION" := by
  simp only [noSchemaValidationRun, List.mem_flatMap] at hf
  obtain ⟨p, -, hfp⟩ := hf
  repeat' split at hfp
  all_goals simp_all

theorem alwaysTrueRun_code {ctx : ProcessContext} {f : Finding}
    (hf : f ∈ alwaysTrueMatcherRun ctx) : f.code = "ALWAYS_TRUE_MATCHER" := by
  simp only [alwaysTrueMatcherRun, List.mem_flatMap] at hf
  obtain ⟨p, -, hfp⟩ := hf
  repeat' split at hfp
  all_goals simp_all

theorem msgTagsRun_code {ctx : ProcessContext} {f : Finding}
    (hf : f ∈ msgTagsNoNilGuardRun ctx) : f.code = "MSG_TAGS_NO_NIL_GUARD" := by
  simp only [msgTagsNoNilGuardRun, List.mem_flatMap] at hf
  obtain ⟨p, -, hfp⟩ := hf
  repeat' split at hfp
  all_goals simp_all

theorem msgActionRun_code {ctx : ProcessContext} {f : Finding}
    (hf : f ∈ msgActionDirectAccessRun ctx) : f.code = "MSG_ACTION_DIRECT_ACCESS" := by
  simp only [msgActionDirectAccessRun, List.mem_flatMap] at hf
  obtain ⟨p, -, hfp⟩ := hf
  repeat' split at hfp
  all_goals simp_all

theorem msgUnknownRun_code {ctx : ProcessContext} {f : Finding}
    (hf : f ∈ msgUnknownPropertyRun ctx) : f.code = "MSG_UNKNOWN_PROPERTY" := by
  simp only [msgUnknownPropertyRun, List.mem_flatMap] at hf
  obtain ⟨p, -, q, -, hfq⟩ := hf
  repeat' split at hfq
  all_goals simp_all

theorem tonumberRun_code {ctx : ProcessContext} {f : Finding}
    (hf : f ∈ tonumberNoNilCheckRun ctx) : f.code = "TONUMBER_NO_NIL_CHECK" := by
  simp only [tonumberNoNilCheckRun, List.mem_flatMap] at hf
  obtain ⟨p, -, hfp⟩ := hf
  repeat' split at hfp
  all_goals simp_all

theorem noNanRun_code {ctx : ProcessContext} {f : Finding}
    (hf : f ∈ noNanInfinityCheckRun ctx) : f.code = "NO_NAN_INFINITY_CHECK" := by
  simp only [noNanInfinityCheckRun, List.mem_flatMap] at hf
  obtain ⟨p, -, hfp⟩ := hf
  repeat' split at hfp
  all_goals simp_all

theorem infoLeakSenderRun_code {ctx : ProcessContext} {f : Finding}
    (hf : f ∈ infoLeakSenderAddressRun ctx) : f.code = "INFO_LEAK_SENDER_ADDRESS" := by
  simp only [infoLeakSenderAddressRun, List.mem_flatMap] at hf
  obtain ⟨p, -, hfp⟩ := hf
  repeat' split at hfp
  all_goals simp_all

theorem infoLeakDataRun_code {ctx : ProcessContext} {f : Finding}
    (hf : f ∈ infoLeakInputDataRun ctx) : f.code = "INFO_LEAK_INPUT_DATA" := by
  simp only [infoLeakInputDataRun, List.mem_flatMap] at hf
  obtain ⟨p, -, hfp⟩ := hf
  repeat' split at hfp
  all_goals simp_all

theorem handlerNoMutRun_code {ctx : ProcessContext} {f : Finding}
    (hf : f ∈ handlerNoStateMutationRun ctx) : f.code = "HANDLER_NO_STATE_MUTATION" := by
  simp only [handlerNoStateMutationRun, List.mem_flatMap] at hf
  obtain ⟨p, -, hfp⟩ := hf
  repeat' split at hfp
  all_goals simp_all

theorem noTimestampRun_code {ctx : ProcessContext} {f : Finding}
    (hf : f ∈ noTimestampTrackingRun ctx) : f.code = "NO_TIMESTAMP_TRACKING" := by
  simp only [noTimestampTrackingRun, List.mem_flatMap] at hf
  obtain ⟨p, -, hfp⟩ := hf
  repeat' split at hfp
  all_goals simp_all

theorem noBoundsRun_code {ctx : ProcessContext} {f : Finding}
    (hf : f ∈ noBoundsDefinedRun ctx) : f.code = "NO_BOUNDS_DEFINED" := by
  unfold noBoundsDefinedRun at hf
  split at hf
  · simp at hf
  · simp only [List.mem_flatMap] at hf
    obtain ⟨p, -, hfp⟩ := hf
    repeat' split at hfp
    all_goals simp_all

theorem boundsNotEnforcedRun_code {ctx : ProcessContext} {f : Finding}
    (hf : f ∈ boundsDefinedNotEnforcedRun ctx) :
    f.code = "BOUNDS_DEFINED_NOT_ENFORCED" := by
  unfold boundsDefinedNotEnforcedRun at hf
  simp only [] at hf
  split at hf
  · simp at hf
  · simp only [List.mem_flatMap] at hf
    obtain ⟨p, -, hfp⟩ := hf
    repeat' split at hfp
    all_goals simp_all

theorem nilGuardRun_code {ctx : ProcessContext} {f : Finding}
    (hf : f ∈ nilGuardRequiredRun ctx) :
    f.code = "NIL_GUARD_REQUIRED" ∧ f.severity = .critical := by
  simp only [nilGuardRequiredRun, List.mem_flatMap] at hf
  obtain ⟨p, -, hfp⟩ := hf
  repeat' split at hfp
  all_goals simp_all

end AoLens

namespace AoLens

/-- Unpack membership in the analyzer's gathering loop. -/
theorem runChecks_mem {checks : List SecurityCheck} {ctx : ProcessContext} {f : Finding}
    (hf : f ∈ runChecks checks ctx) :
    ∃ c ∈ checks, checkEligible ctx c = true ∧ f ∈ c.run ctx := by
  simp only [runChecks, List.mem_flatMap, List.mem_filter] at hf
  obtain ⟨c, ⟨hc, he⟩, hrun⟩ := hf
  exact ⟨c, hc, he, hrun⟩

/-- Build membership in the analyzer's gathering loop. -/
theorem runChecks_intro {checks : List SecurityCheck} {ctx : ProcessContext}
    {c : SecurityCheck} {f : Finding} (hc : c ∈ checks)
    (he : checkEligible ctx c = true) (hrun : f ∈ c.run ctx) :
    f ∈ runChecks checks ctx := by
  simp only [runChecks, List.mem_flatMap, List.mem_filter]
  exact ⟨c, ⟨hc, he⟩, hrun⟩

/-- Origin of the codes the claims are about: across the whole registry
(with the spec-modelled nil-guard check appended), each of these codes is
emitted only by its own check, and that check ran eligibly, so the context
is neither a test file nor a library. -/
theorem registry_code_origin {ctx : ProcessContext} {f : Finding}
    (hf : f ∈ runChecks registryWithNilGuard ctx) :
    (f.code = "NO_AUTH_CHECK" →
      f ∈ noAuthCheckRun ctx ∧ ctx.isTestFile = false ∧ ctx.isLibrary = false)
    ∧ (f.code = "OWNER_NEVER_INITIALIZED" →
      f ∈ ownerNeverInitializedRun ctx ∧ ctx.isTestFile = false ∧ ctx.isLibrary = false)
    ∧ (f.code = "UNSAFE_OWNER_OR_PATTERN" →
      f ∈ unsafeOwnerOrPatternRun ctx ∧ ctx.isTestFile = false ∧ ctx.isLibrary = false)
    ∧ (f.code = "FIRST_CALLER_WINS_OWNER" →
      f ∈ firstCallerWinsOwnerRun ctx ∧ ctx.isTestFile = false ∧ ctx.isLibrary = false)
    ∧ (f.code = "NIL_GUARD_REQUIRED" →
      f ∈ nilGuardRequiredRun ctx ∧ ctx.isTestFile = false ∧ ctx.isLibrary = false) := by
  obtain ⟨c, hc, he, hrun⟩ := runChecks_mem hf
  simp only [registryWithNilGuard, registryChecks, authChecks, frozenChecks,
    determinismChecks, jsonChecks, responseChecks, styleChecks, nilGuardRequiredCheck,
    List.cons_append, List.nil_append, List.append_nil, List.mem_append, List.mem_cons,
    List.mem_singleton, List.not_mem_nil, or_false, false_or] at hc
  rcases hc with rfl|rfl|rfl|rfl|rfl|rfl|rfl|rfl|rfl|rfl|rfl|rfl|rfl|rfl|rfl|rfl|rfl|rfl|rfl|rfl|rfl|rfl|rfl|rfl|rfl|rfl|rfl|rfl|rfl|rfl|rfl|rfl|rfl|rfl|rfl|rfl|rfl|rfl|rfl|rfl|rfl|rfl|rfl|rfl|rfl
  · refine ⟨fun hcode => ?_, fun hcode => ?_, fun hcode => ?_, fun hcode => ?_, fun hcode => ?_⟩ <;>
      first
        | (refine ⟨hrun, ?_⟩; simp [checkEligible] at he; simp_all)
        | (have hcl := noAuthCheckRun_mem hrun; simp_all)
  · refine ⟨fun hcode => ?_, fun hcode => ?_, fun hcode => ?_, fun hcode => ?_, fun hcode => ?_⟩ <;>
      first
        | (refine ⟨hrun, ?_⟩; simp [checkEligible] at he; simp_all)
        | (have hcl := hasMatchingTagRun_code hrun; simp_all)
  · refine ⟨fun hcode => ?_, fun hcode => ?_, fun hcode => ?_, fun hcode => ?_, fun hcode => ?_⟩ <;>
      first
        | (refine ⟨hrun, ?_⟩; simp [checkEligible] at he; simp_all)
        | (have hcl := looseMatcherRun_code hrun; simp_all)
  · refine ⟨fun hcode => ?_, fun hcode => ?_, fun hcode => ?_, fun hcode => ?_, fun hcode => ?_⟩ <;>
      first
        | (refine ⟨hrun, ?_⟩; simp [checkEligible] at he; simp_all)
        | (have hcl := beltRun_code hrun; simp_all)
  · refine ⟨fun hcode => ?_, fun hcode => ?_, fun hcode => ?_, fun hcode => ?_, fun hcode => ?_⟩ <;>
      first
        | (refine ⟨hrun, ?_⟩; simp [checkEligible] at he; simp_all)
        | (have hcl := ownerNeverRun_mem hrun; simp_all)
  · refine ⟨fun hcode => ?_, fun hcode => ?_, fun hcode => ?_, fun hcode => ?_, fun hcode => ?_⟩ <;>
      first
        | (refine ⟨hrun, ?_⟩; simp [checkEligible] at he; simp_all)
        | (have hcl := localStateShadowRun_code hrun; simp_all)
  · refine ⟨fun hcode => ?_, fun hcode => ?_, fun hcode => ?_, fun hcode => ?_, fun hcode => ?_⟩ <;>
      first
        | (refine ⟨hrun, ?_⟩; simp [checkEligible] at he; simp_all)
        | (have hcl := unsafeOwnerOrRun_code hrun; simp_all)
  · refine ⟨fun hcode => ?_, fun hcode => ?_, fun hcode => ?_, fun hcode => ?_, fun hcode => ?_⟩ <;>
      first
        | (refine ⟨hrun, ?_⟩; simp [checkEligible] at he; simp_all)
        | (have hcl := matcherMissingActionRun_code hrun; simp_all)
  · refine ⟨fun hcode => ?_, fun hcode => ?_, fun hcode => ?_, fun hcode => ?_, fun hcode => ?_⟩ <;>
      first
        | (refine ⟨hrun, ?_⟩; simp [checkEligible] at he; simp_all)
        | (have hcl := ownerExplicitNilRun_code hrun; simp_all)
  · refine ⟨fun hcode => ?_, fun hcode => ?_, fun hcode => ?_, fun hcode => ?_, fun hcode => ?_⟩ <;>
      first
        | (refine ⟨hrun, ?_⟩; simp [checkEligible] at he; simp_all)
        | (have hcl := firstCallerRun_code hrun; simp_all)
  · refine ⟨fun hcode => ?_, fun hcode => ?_, fun hcode => ?_, fun hcode => ?_, fun hcode => ?_⟩ <;>
      first
        | (refine ⟨hrun, ?_⟩; simp [checkEligible] at he; simp_all)
        | (have hcl := aoSendTargetRun_code hrun; simp_all)
  · refine ⟨fun hcode => ?_, fun hcode => ?_, fun hcode => ?_, fun hcode => ?_, fun hcode => ?_⟩ <;>
      first
        | (refine ⟨hrun, ?_⟩; simp [checkEligible] at he; simp_all)
        | (have hcl := arbitraryStateRun_code hrun; simp_all)
  · refine ⟨fun hcode => ?_, fun hcode => ?_, fun hcode => ?_, fun hcode => ?_, fun hcode => ?_⟩ <;>
      first
        | (refine ⟨hrun, ?_⟩; simp [checkEligible] at he; simp_all)
        | (have hcl := noFrozenRun_code hrun; simp_all)
  · refine ⟨fun hcode => ?_, fun hcode => ?_, fun hcode => ?_, fun hcode => ?_, fun hcode => ?_⟩ <;>
      first
        | (refine ⟨hrun, ?_⟩; simp [checkEligible] at he; simp_all)
        | (have hcl := stateFrozenNotInitRun_code hrun; simp_all)
  · refine ⟨fun hcode => ?_, fun hcode => ?_, fun hcode => ?_, fun hcode => ?_, fun hcode => ?_⟩ <;>
      first
        | (refine ⟨hrun, ?_⟩; simp [checkEligible] at he; simp_all)
        | (have hcl := assertNotFrozenRun_code hrun; simp_all)
  · refine ⟨fun hcode => ?_, fun hcode => ?_, fun hcode => ?_, fun hcode => ?_, fun hcode => ?_⟩ <;>
      first
        | (refine ⟨hrun, ?_⟩; simp [checkEligible] at he; simp_all)
        | (have hcl := frozenNotInMatcherRun_code hrun; simp_all)
  · refine ⟨fun hcode => ?_, fun hcode => ?_, fun hcode => ?_, fun hcode => ?_, fun hcode => ?_⟩ <;>
      first
        | (refine ⟨hrun, ?_⟩; simp [checkEligible] at he; simp_all)
        | (have hcl := osTimeRun_code hrun; simp_all)
  · refine ⟨fun hcode => ?_, fun hcode => ?_, fun hcode => ?_, fun hcode => ?_, fun hcode => ?_⟩ <;>
      first
        | (refine ⟨hrun, ?_⟩; simp [checkEligible] at he; simp_all)
        | (have hcl := mathRandomRun_code hrun; simp_all)
  · refine ⟨fun hcode => ?_, fun hcode => ?_, fun hcode => ?_, fun hcode => ?_, fun hcode => ?_⟩ <;>
      first
        | (refine ⟨hrun, ?_⟩; simp [checkEligible] at he; simp_all)
        | (have hcl := ioOperationRun_code hrun; simp_all)
  · refine ⟨fun hcode => ?_, fun hcode => ?_, fun hcode => ?_, fun hcode => ?_, fun hcode => ?_⟩ <;>
      first
        | (refine ⟨hrun, ?_⟩; simp [checkEligible] at he; simp_all)
        | (have hcl := globalStateRun_code hrun; simp_all)
  · refine ⟨fun hcode => ?_, fun hcode => ?_, fun hcode => ?_, fun hcode => ?_, fun hcode => ?_⟩ <;>
      first
        | (refine ⟨hrun, ?_⟩; simp [checkEligible] at he; simp_all)
        | (have hcl := moduleLevelRun_code hrun; simp_all)
  · refine ⟨fun hcode => ?_, fun hcode => ?_, fun hcode => ?_, fun hcode => ?_, fun hcode => ?_⟩ <;>
      first
        | (refine ⟨hrun, ?_⟩; simp [checkEligible] at he; simp_all)
        | (have hcl := jsonDecodeRun_code hrun; simp_all)
  · refine ⟨fun hcode => ?_, fun hcode => ?_, fun hcode => ?_, fun hcode => ?_, fun hcode => ?_⟩ <;>
      first
        | (refine ⟨hrun, ?_⟩; simp [checkEligible] at he; simp_all)
        | (have hcl := jsonEncodeRun_code hrun; simp_all)
  · refine ⟨fun hcode => ?_, fun hcode => ?_, fun hcode => ?_, fun hcode => ?_, fun hcode => ?_⟩ <;>
      first
        | (refine ⟨hrun, ?_⟩; simp [checkEligible] at he; simp_all)
        | (have hcl := duplicateJsonRun_code hrun; simp_all)
  · refine ⟨fun hcode => ?_, fun hcode => ?_, fun hcode => ?_, fun hcode => ?_, fun hcode => ?_⟩ <;>
      first
        | (refine ⟨hrun, ?_⟩; simp [checkEligible] at he; simp_all)
        | (have hcl := msgDataNoJsonRun_code hrun; simp_all)
  · refine ⟨fun hcode => ?_, fun hcode => ?_, fun hcode => ?_, fun hcode => ?_, fun hcode => ?_⟩ <;>
      first
        | (refine ⟨hrun, ?_⟩; simp [checkEligible] at he; simp_all)
        | (have hcl := silentPcallRun_code hrun; simp_all)
  · refine ⟨fun hcode => ?_, fun hcode => ?_, fun hcode => ?_, fun hcode => ?_, fun hcode => ?_⟩ <;>
      first
        | (refine ⟨hrun, ?_⟩; simp [checkEligible] at he; simp_all)
        | (have hcl := mutatingNoResponseRun_code hrun; simp_all)
  · refine ⟨fun hcode => ?_, fun hcode => ?_, fun hcode => ?_, fun hcode => ?_, fun hcode => ?_⟩ <;>
      first
        | (refine ⟨hrun, ?_⟩; simp [checkEligible] at he; simp_all)
        | (have hcl := matcherAoSendRun_code hrun; simp_all)
  · refine ⟨fun hcode => ?_, fun hcode => ?_, fun hcode => ?_, fun hcode => ?_, fun hcode => ?_⟩ <;>
      first
        | (refine ⟨hrun, ?_⟩; simp [checkEligible] at he; simp_all)
        | (have hcl := matcherStateMutRun_code hrun; simp_all)
  · refine ⟨fun hcode => ?_, fun hcode => ?_, fun hcode => ?_, fun hcode => ?_, fun hcode => ?_⟩ <;>
      first
        | (refine ⟨hrun, ?_⟩; simp [checkEligible] at he; simp_all)
        | (have hcl := inconsistentErrorRun_code hrun; simp_all)
  · refine ⟨fun hcode => ?_, fun hcode => ?_, fun hcode => ?_, fun hcode => ?_, fun hcode => ?_⟩ <;>
      first
        | (refine ⟨hrun, ?_⟩; simp [checkEligible] at he; simp_all)
        | (have hcl := matcherNoActionRun_code hrun; simp_all)
  · refine ⟨fun hcode => ?_, fun hcode => ?_, fun hcode => ?_, fun hcode => ?_, fun hcode => ?_⟩ <;>
      first
        | (refine ⟨hrun, ?_⟩; simp [checkEligible] at he; simp_all)
        | (have hcl := noSchemaRun_code hrun; simp_all)
  · refine ⟨fun hcode => ?_, fun hcode => ?_, fun hcode => ?_, fun hcode => ?_, fun hcode => ?_⟩ <;>
      first
        | (refine ⟨hrun, ?_⟩; simp [checkEligible] at he; simp_all)
        | (have hcl := alwaysTrueRun_code hrun; simp_all)
  · refine ⟨fun hcode => ?_, fun hcode => ?_, fun hcode => ?_, fun hcode => ?_, fun hcode => ?_⟩ <;>
      first
        | (refine ⟨hrun, ?_⟩; simp [checkEligible] at he; simp_all)
        | (have hcl := msgTagsRun_code hrun; simp_all)
  · refine ⟨fun hcode => ?_, fun hcode => ?_, fun hcode => ?_, fun hcode => ?_, fun hcode => ?_⟩ <;>
      first
        | (refine ⟨hrun, ?_⟩; simp [checkEligible] at he; simp_all)
        | (have hcl := msgActionRun_code hrun; simp_all)
  · refine ⟨fun hcode => ?_, fun hcode => ?_, fun hcode => ?_, fun hcode => ?_, fun hcode => ?_⟩ <;>
      first
        | (refine ⟨hrun, ?_⟩; simp [checkEligible] at he; simp_all)
        | (have hcl := msgUnknownRun_code hrun; simp_all)
  · refine ⟨fun hcode => ?_, fun hcode => ?_, fun hcode => ?_, fun hcode => ?_, fun hcode => ?_⟩ <;>
      first
        | (refine ⟨hrun, ?_⟩; simp [checkEligible] at he; simp_all)
        | (have hcl := tonumberRun_code hrun; simp_all)
  · refine ⟨fun hcode => ?_, fun hcode => ?_, fun hcode => ?_, fun hcode => ?_, fun hcode => ?_⟩ <;>
      first
        | (refine ⟨hrun, ?_⟩; simp [checkEligible] at he; simp_all)
        | (have hcl := noNanRun_code hrun; simp_all)
  · refine ⟨fun hcode => ?_, fun hcode => ?_, fun hcode => ?_, fun hcode => ?_, fun hcode => ?_⟩ <;>
      first
        | (refine ⟨hrun, ?_⟩; simp [checkEligible] at he; simp_all)
        | (have hcl := infoLeakSenderRun_code hrun; simp_all)
  · refine ⟨fun hcode => ?_, fun hcode => ?_, fun hcode => ?_, fun hcode => ?_, fun hcode => ?_⟩ <;>
      first
        | (refine ⟨hrun, ?_⟩; simp [checkEligible] at he; simp_all)
        | (have hcl := infoLeakDataRun_code hrun; simp_all)
  · refine ⟨fun hcode => ?_, fun hcode => ?_, fun hcode => ?_, fun hcode => ?_, fun hcode => ?_⟩ <;>
      first
        | (refine ⟨hrun, ?_⟩; simp [checkEligible] at he; simp_all)
        | (have hcl := handlerNoMutRun_code hrun; simp_all)
  · refine ⟨fun hcode => ?_, fun hcode => ?_, fun hcode => ?_, fun hcode => ?_, fun hcode => ?_⟩ <;>
      first
        | (refine ⟨hrun, ?_⟩; simp [checkEligible] at he; simp_all)
        | (have hcl := noTimestampRun_code hrun; simp_all)
  · refine ⟨fun hcode => ?_, fun hcode => ?_, fun hcode => ?_, fun hcode => ?_, fun hcode => ?_⟩ <;>
      first
        | (refine ⟨hrun, ?_⟩; simp [checkEligible] at he; simp_all)
        | (have hcl := noBoundsRun_code hrun; simp_all)
  · refine ⟨fun hcode => ?_, fun hcode => ?_, fun hcode => ?_, fun hcode => ?_, fun hcode => ?_⟩ <;>
      first
        | (refine ⟨hrun, ?_⟩; simp [checkEligible] at he; simp_all)
        | (have hcl := boundsNotEnforcedRun_code hrun; simp_all)
  · refine ⟨fun hcode => ?_, fun hcode => ?_, fun hcode => ?_, fun hcode => ?_, fun hcode => ?_⟩ <;>
      first
        | (refine ⟨hrun, ?_⟩; simp [checkEligible] at he; simp_all)
        | (have hcl := nilGuardRun_code hrun; simp_all)

end AoLens

namespace AoLens

/-- No registered built-in check declares `appliesToLibrary`. -/
theorem registry_no_library_checks : ∀ c ∈ registryChecks, c.appliesToLibrary = false := by
  decide

/-- For a library context, the gathering loop skips every check without
`appliesToLibrary` and collects nothing. -/
theorem runChecks_library_nil {checks : List SecurityCheck} {ctx : ProcessContext}
    (hlib : ctx.isLibrary = true)
    (hall : ∀ c ∈ checks, c.appliesToLibrary = false) :
    runChecks checks ctx = [] := by
  unfold runChecks
  have hfil : checks.filter (fun c => checkEligible ctx c) = [] := by
    rw [List.filter_eq_nil]
    intro c hc
    simp [checkEligible, hlib, hall c hc]
  rw [hfil]
  rfl

/-- C10: every file classified as a library (path `/lib/` segment, trailing
`return <Identifier>`, library annotation, or local-module-table pattern —
all four folded into `detectLibrary`) yields an empty finding list from the
adapter: no built-in check declares `appliesToLibrary`, so the analyzer
loop skips them all, and the dynamic-rule stage is also gated on
`!isLibrary` — not only process-only checks are suppressed. -/
theorem C10_library_empty_findings (result : ParseResult)
    (handlerFacts : List (HandlerInfo × HandlerBodyFacts))
    (ruleLoader : Option RuleLoaderState)
    (hlib : detectLibrary (result.sourceCode.getD "") result.file = true) :
    (∀ c ∈ registryChecks, c.appliesToLibrary = false)
      ∧ (adapterAnalyze result handlerFacts ruleLoader).findings = [] := by
  refine ⟨registry_no_library_checks, ?_⟩
  have hctx : (build (result.sourceCode.getD "") result.file handlerFacts).isLibrary = true := by
    simpa [build] using hlib
  have hrun : securityAnalyze (build (result.sourceCode.getD "") result.file handlerFacts) = [] := by
    unfold securityAnalyze securityAnalyzeWith
    rw [runChecks_library_nil hctx registry_no_library_checks]
    rfl
  unfold adapterAnalyze
  simp only [hctx, hrun, createReport, Bool.not_true, Bool.and_false]
  cases ruleLoader <;> simp

/-- C10 witness: a concrete library file (path contains `/lib/`). -/
theorem C10_witness :
    detectLibrary "x = 1" "proc/lib/a.lua" = true
      ∧ (adapterAnalyze { file := "proc/lib/a.lua", sourceCode := some "x = 1" } []
          none).findings = [] :=
  ⟨by decide,
   (C10_library_empty_findings { file := "proc/lib/a.lua", sourceCode := some "x = 1" } []
     none (by decide)).2⟩

/-- C9: the per-file report is a pure function of the source text, the file
path, the tree-derived handler facts, and the loaded rule state: parse
results equal in `sourceCode` and `file` (they may differ in `success` or
`parse_time_ms`) produce identical reports, so two runs on the same
`(S, R)` yield identical ordered finding lists. -/
theorem C9_deterministic_analysis (r1 r2 : ParseResult)
    (handlerFacts : List (HandlerInfo × HandlerBodyFacts))
    (ruleLoader : Option RuleLoaderState)
    (hsrc : r1.sourceCode = r2.sourceCode) (hfile : r1.file = r2.file) :
    adapterAnalyze r1 handlerFacts ruleLoader = adapterAnalyze r2 handlerFacts ruleLoader := by
  unfold adapterAnalyze
  rw [hsrc, hfile]

/-- C9 witness: two parse results that differ in `success` and
`parse_time_ms` but agree on source and file. -/
theorem C9_witness :
    adapterAnalyze
        { file := "a.lua", sourceCode := some "x = 1", success := true, parse_time_ms := 5 }
        [] none
      = adapterAnalyze
        { file := "a.lua", sourceCode := some "x = 1", success := false, parse_time_ms := 99 }
        [] none :=
  C9_deterministic_analysis _ _ [] none rfl rfl

end AoLens

namespace AoLens

/-- C2 amended: the dedup invariant does hold for the built-in pipeline —
with no dynamic-rule loader, no two findings of a report share a
`(code, line)` pair, because the analyzer's `deduplicate` keeps the first
finding per key. -/
theorem C2_dedup_amended (result : ParseResult)
    (handlerFacts : List (HandlerInfo × HandlerBodyFacts)) :
    List.Pairwise (fun a b : SecurityFinding => ¬(a.code = b.code ∧ a.line = b.line))
      (adapterAnalyze result handlerFacts none).findings := by
  have hfind : (adapterAnalyze result handlerFacts none).findings
      = (deduplicate (runChecks registryChecks
          (build (result.sourceCode.getD "") result.file handlerFacts))).map
          toSecurityFinding := by
    simp [adapterAnalyze, createReport, securityAnalyze, securityAnalyzeWith]
  rw [hfind]
  refine List.Pairwise.map _ ?_ (deduplicate_pairwise_keyNe _)
  intro a b hab hk
  exact hab ⟨hk.1, by simpa [toSecurityFinding] using hk.2⟩

/-- C3 amended: the ordering invariant does hold for the built-in
pipeline — with no dynamic-rule loader, a report's findings are
non-decreasing in severity rank and, within equal rank, non-decreasing in
line number, by the stable sort inside `deduplicate`. -/
theorem C3_sorted_amended (result : ParseResult)
    (handlerFacts : List (HandlerInfo × HandlerBodyFacts)) :
    List.Pairwise (fun a b : SecurityFinding =>
        severityRank a.severity < severityRank b.severity
          ∨ (severityRank a.severity = severityRank b.severity
              ∧ a.line.getD 0 ≤ b.line.getD 0))
      (adapterAnalyze result handlerFacts none).findings := by
  have hfind : (adapterAnalyze result handlerFacts none).findings
      = (deduplicate (runChecks registryChecks
          (build (result.sourceCode.getD "") result.file handlerFacts))).map
          toSecurityFinding := by
    simp [adapterAnalyze, createReport, securityAnalyze, securityAnalyzeWith]
  rw [hfind]
  refine List.Pairwise.map _ ?_ (deduplicate_sorted _)
  intro a b hab
  rcases hab with h | ⟨h1, h2⟩
  · exact Or.inl h
  · exact Or.inr ⟨h1, by simpa [toSecurityFinding] using h2⟩

end AoLens

namespace AoLens

/-- C4 counterexample: the claim says *moderate* holds iff the predicate
checks exactly one of identity, payload-validation, stop-flag.  A matcher
body that validates the payload (`pcall`) and checks the stop flag
(`State.Frozen`) but not the sender checks two of the three, so the claim
would classify it loose, yet the analyzer derives moderate (its condition
is a disjunction, not an exactly-one count). -/
theorem C4_counterexample :
    (analyzeInlineMatcher
        (some "return pcall(json.decode, msg.Data) and not State.Frozen")).1.strictness
        = Strictness.moderate
      ∧ strIncludes "return pcall(json.decode, msg.Data) and not State.Frozen" "msg.From"
        = false
      ∧ strIncludes "return pcall(json.decode, msg.Data) and not State.Frozen" "pcall"
        = true
      ∧ strIncludes "return pcall(json.decode, msg.Data) and not State.Frozen" "State.Frozen"
        = true := by
  decide

/-- C4 amended: for an inline matcher body, strictness is *strict* iff it
checks sender identity and validates payload shape and is not the
degenerate always-true predicate; *moderate* iff it is not always-true,
not strict, and checks at least one of identity, payload-validation, or
stop-flag; and *loose* otherwise (in particular for the always-true
predicate).  Identity is `msg.From`, payload validation is `pcall` or
`type(`, the stop flag is `State.Frozen` or `Frozen`. -/
theorem C4_strictness_amended (body : String) :
    ((analyzeInlineMatcher (some body)).1.strictness = Strictness.strict
      ↔ (isAlwaysTrueBody body = false ∧ strIncludes body "msg.From" = true
          ∧ (strIncludes body "pcall" || strIncludes body "type(") = true))
    ∧ ((analyzeInlineMatcher (some body)).1.strictness = Strictness.moderate
      ↔ (isAlwaysTrueBody body = false
          ∧ ¬(strIncludes body "msg.From" = true
              ∧ (strIncludes body "pcall" || strIncludes body "type(") = true)
          ∧ (strIncludes body "msg.From"
              || (strIncludes body "pcall" || strIncludes body "type(")
              || (strIncludes body "State.Frozen" || strIncludes body "Frozen")) = true))
    ∧ ((analyzeInlineMatcher (some body)).1.strictness = Strictness.loose
      ↔ (isAlwaysTrueBody body = true
          ∨ (strIncludes body "msg.From"
              || (strIncludes body "pcall" || strIncludes body "type(")
              || (strIncludes body "State.Frozen" || strIncludes body "Frozen")) = false)) := by
  cases hA : isAlwaysTrueBody body
    <;> cases hF : strIncludes body "msg.From"
    <;> cases hP : strIncludes body "pcall"
    <;> cases hT : strIncludes body "type("
    <;> cases hSF : strIncludes body "State.Frozen"
    <;> cases hFr : strIncludes body "Frozen"
    <;> simp_all [analyzeInlineMatcher]

end AoLens

namespace AoLens

/-- A fold step that preserves `P` keeps it to the end. -/
theorem foldl_pres {α β : Type} {step : α → β → α} {P : α → Prop}
    (hmono : ∀ a b, P a → P (step a b)) :
    ∀ (l : List β) (a : α), P a → P (l.foldl step a) := by
  intro l
  induction l with
  | nil => intro a ha; simpa using ha
  | cons b bs ih => intro a ha; exact ih _ (hmono a b ha)

/-- If some list element forces `P` regardless of the accumulator, and
every step preserves `P`, the fold's result satisfies `P`. -/
theorem foldl_prop_from {α β : Type} {step : α → β → α} {P : α → Prop}
    (hmono : ∀ a b, P a → P (step a b)) :
    ∀ (l : List β) (a : α) (b : β), b ∈ l → (∀ a, P (step a b)) →
      P (l.foldl step a) := by
  intro l
  induction l with
  | nil => intro a b hb; exact absurd hb (List.not_mem_nil b)
  | cons c cs ih =>
    intro a b hb hset
    rcases List.mem_cons.mp hb with rfl | h2
    · exact foldl_pres hmono cs _ (hset a)
    · exact ih _ b h2 hset

/-- The first state-init block never clears `ownerInitialized`. -/
theorem stateInitLineA_owner_mono {lines : List String} {acc : StateAnalysis}
    {il : Nat × String} (ha : acc.ownerInitialized = true) :
    (stateInitLineA lines acc il).ownerInitialized = true := by
  unfold stateInitLineA
  simp only []
  repeat' split
  all_goals simp_all

/-- The second state-init block never clears `ownerInitialized`. -/
theorem stateInitLineB_owner_mono {acc : StateAnalysis}
    {il : Nat × String} (ha : acc.ownerInitialized = true) :
    (stateInitLineB acc il).ownerInitialized = true := by
  unfold stateInitLineB
  simp only []
  repeat' split
  all_goals simp_all

/-- The third state-init block never clears `ownerInitialized`. -/
theorem stateInitLineC_owner_mono {lines : List String} {acc : StateAnalysis}
    {il : Nat × String} (ha : acc.ownerInitialized = true) :
    (stateInitLineC lines acc il).ownerInitialized = true := by
  unfold stateInitLineC
  simp only []
  repeat' split
  all_goals simp_all

/-- No branch of the state-init line loop ever clears `ownerInitialized`. -/
theorem stateInitStep_owner_mono {lines : List String} {acc : StateAnalysis}
    {il : Nat × String} (ha : acc.ownerInitialized = true) :
    (stateInitStep lines acc il).ownerInitialized = true :=
  stateInitLineC_owner_mono (stateInitLineB_owner_mono (stateInitLineA_owner_mono ha))

/-- The recognized env-fallback line with an assert in its 5-line window
sets `ownerInitialized` whatever the accumulator holds. -/
theorem stateInitStep_owner_set {lines : List String} {acc : StateAnalysis}
    {i : Nat} {line : String}
    (hor : rxTest rxOwnerOrEnv line = true)
    (hassert : rxTest rxAssertStateOwnerNotNil
      (joinLines (sliceList i (i + 5) lines)) = true) :
    (stateInitStep lines acc (i, line)).ownerInitialized = true := by
  unfold stateInitStep stateInitLineC
  simp [hor, hassert]

/-- The sender-identity fallback with a non-nil assert on its field: the
state profiler records nothing for it. -/
theorem c8SenderFallback :
    (analyzeStateInit
        "Owner = Owner or msg.From\nassert(Owner ~= nil)").ownerInitialized = false
      ∧ mapGet (analyzeStateInit
          "Owner = Owner or msg.From\nassert(Owner ~= nil)").fields "Owner" = none := by
  decide

/-- The recognized env fallback without an assert: the state profiler
records nothing for it either. -/
theorem c8EnvNoAssert :
    (analyzeStateInit
        "State.Owner = State.Owner or ao.env.Process.Owner").ownerInitialized = false
      ∧ mapGet (analyzeStateInit
          "State.Owner = State.Owner or ao.env.Process.Owner").fields "Owner" = none := by
  decide

/-- C8 counterexample: the profiler's `field = field or <fallback>`
handling is not fallback-agnostic and records nothing without the assert.
A sender-identity fallback (`Owner = Owner or msg.From`) followed by a
non-nil assert on the field is not recorded as initialized — the pattern
matched is literally `State.Owner = State.Owner or ao.env.Process.Owner`
— and the recognized env fallback without an assert leaves no Owner field
entry at all, rather than one marked present-but-unverified. -/
theorem C8_counterexample :
    (analyzeStateInit
        "Owner = Owner or msg.From\nassert(Owner ~= nil)").ownerInitialized = false
      ∧ mapGet (analyzeStateInit
          "Owner = Owner or msg.From\nassert(Owner ~= nil)").fields "Owner" = none
      ∧ (analyzeStateInit
          "State.Owner = State.Owner or ao.env.Process.Owner").ownerInitialized = false
      ∧ mapGet (analyzeStateInit
          "State.Owner = State.Owner or ao.env.Process.Owner").fields "Owner" = none :=
  ⟨c8SenderFallback.1, c8SenderFallback.2, c8EnvNoAssert.1, c8EnvNoAssert.2⟩

/-- C8 amended: for the fallback pattern the profiler actually recognizes
— `State.Owner = State.Owner or ao.env.Process.Owner` — with an explicit
non-nil assertion on the field within the 5-line lookahead window starting
at the assignment, the analysis records the owner as initialized.  (Other
fallback expressions are not given this treatment, and with no assertion
the line records nothing, as the counterexample shows.) -/
theorem C8_env_fallback_amended (sourceCode : String) (i : Nat) (line : String)
    (hmem : (i, line) ∈ enumLines (splitLines sourceCode))
    (hor : rxTest rxOwnerOrEnv line = true)
    (hassert : rxTest rxAssertStateOwnerNotNil
      (joinLines (sliceList i (i + 5) (splitLines sourceCode))) = true) :
    (analyzeStateInit sourceCode).ownerInitialized = true := by
  unfold analyzeStateInit
  exact foldl_prop_from (P := fun s : StateAnalysis => s.ownerInitialized = true)
    (fun a b ha => stateInitStep_owner_mono ha) _ _ (i, line) hmem
    (fun a => stateInitStep_owner_set hor hassert)

/-- The env-fallback line sits at index 0 of the witness source. -/
theorem c8wMem :
    (0, "State.Owner = State.Owner or ao.env.Process.Owner")
      ∈ enumLines (splitLines
        "State.Owner = State.Owner or ao.env.Process.Owner\nassert(State.Owner ~= nil)") := by
  decide

/-- The witness line matches the recognized env-fallback pattern. -/
theorem c8wOr :
    rxTest rxOwnerOrEnv "State.Owner = State.Owner or ao.env.Process.Owner" = true := by
  decide

/-- The witness lookahead window contains the recognized assert. -/
theorem c8wAssert :
    rxTest rxAssertStateOwnerNotNil
      (joinLines (sliceList 0 (0 + 5) (splitLines
        "State.Owner = State.Owner or ao.env.Process.Owner\nassert(State.Owner ~= nil)")))
      = true := by
  decide

/-- C8 witness: the recognized env fallback with the assert on the next
line is recorded as initialized. -/
theorem C8_witness :
    (0, "State.Owner = State.Owner or ao.env.Process.Owner")
        ∈ enumLines (splitLines
          "State.Owner = State.Owner or ao.env.Process.Owner\nassert(State.Owner ~= nil)")
      ∧ (analyzeStateInit
          "State.Owner = State.Owner or ao.env.Process.Owner\nassert(State.Owner ~= nil)").ownerInitialized
        = true :=
  ⟨c8wMem,
   C8_env_fallback_amended
     "State.Owner = State.Owner or ao.env.Process.Owner\nassert(State.Owner ~= nil)"
     0 "State.Owner = State.Owner or ao.env.Process.Owner"
     c8wMem c8wOr c8wAssert⟩

end AoLens

namespace AoLens

/-- Indices are unique in the enumerated line list. -/
theorem enumLines_uniq {l : List String} {i : Nat} {a b : String}
    (ha : (i, a) ∈ enumLines l) (hb : (i, b) ∈ enumLines l) : a = b := by
  rw [enumLines, List.mk_mem_enum_iff_getElem?] at ha hb
  rw [ha] at hb
  exact (Option.some.injEq _ _).mp hb

/-- Findings of a prefix of the registry are findings of the whole. -/
theorem runChecks_append_left {checks more : List SecurityCheck}
    {ctx : ProcessContext} {f : Finding} (hf : f ∈ runChecks checks ctx) :
    f ∈ runChecks (checks ++ more) ctx := by
  obtain ⟨c, hc, he, hrun⟩ := runChecks_mem hf
  exact runChecks_intro (List.mem_append_left _ hc) he hrun

/-- In a non-test, non-library context every registered check is eligible,
so its findings reach the gathering loop. -/
theorem check_in_analyzer {checks : List SecurityCheck} {ctx : ProcessContext}
    {f : Finding} {n : Nat} (hn : n < checks.length)
    (hTF : ctx.isTestFile = false) (hLib : ctx.isLibrary = false)
    (hf : f ∈ (checks.get ⟨n, hn⟩).run ctx) : f ∈ runChecks checks ctx :=
  runChecks_intro (checks.get_mem _ _) (by simp [checkEligible, hTF, hLib]) hf

/-- A gathered finding's `(code, line)` key survives into the analyzer's
deduplicated, sorted output. -/
theorem analyze_key_present {checks : List SecurityCheck} {ctx : ProcessContext}
    {f : Finding} (hf : f ∈ runChecks checks ctx) :
    ∃ g ∈ securityAnalyzeWith checks ctx,
      g.code = f.code ∧ g.line = f.line ∧ g ∈ runChecks checks ctx := by
  unfold securityAnalyzeWith
  exact deduplicate_key_mem hf

/-- Every `UNSAFE_OWNER_OR_PATTERN` finding points at a line matching the
`or` pattern, free of `ao.env.Process.Owner`, with no owner assert in the
six-line window starting there. -/
theorem unsafeOwnerOrRun_mem {ctx : ProcessContext} {f : Finding}
    (hf : f ∈ unsafeOwnerOrPatternRun ctx) :
    ∃ il ∈ enumLines (splitLines ctx.sourceCode),
      f.line = il.1 + 1
      ∧ rxTest rxOwnerOrAny il.2 = true
      ∧ rxTest (rxLit "ao.env.Process.Owner") il.2 = false
      ∧ rxTest rxAssertStateOwnerNotNil
          (joinLines (sliceList il.1 (il.1 + 6) (splitLines ctx.sourceCode))) = false
      ∧ rxTest rxAssertAnyOwnerNotNil
          (joinLines (sliceList il.1 (il.1 + 6) (splitLines ctx.sourceCode))) = false := by
  simp only [unsafeOwnerOrPatternRun, List.mem_flatMap] at hf
  obtain ⟨il, hil, hfil⟩ := hf
  refine ⟨il, hil, ?_⟩
  repeat' split at hfil
  all_goals simp_all

/-- Conversely, such a line produces the `UNSAFE_OWNER_OR_PATTERN`
finding. -/
theorem unsafeOwnerOrRun_intro {ctx : ProcessContext} {i : Nat} {line : String}
    (hmem : (i, line) ∈ enumLines (splitLines ctx.sourceCode))
    (h1 : rxTest rxOwnerOrAny line = true)
    (h2 : rxTest (rxLit "ao.env.Process.Owner") line = false)
    (h3 : rxTest rxAssertStateOwnerNotNil
      (joinLines (sliceList i (i + 6) (splitLines ctx.sourceCode))) = false)
    (h4 : rxTest rxAssertAnyOwnerNotNil
      (joinLines (sliceList i (i + 6) (splitLines ctx.sourceCode))) = false) :
    ∃ f ∈ unsafeOwnerOrPatternRun ctx,
      f.code = "UNSAFE_OWNER_OR_PATTERN" ∧ f.severity = Severity.critical
        ∧ f.line = i + 1 := by
  refine ⟨{ code := "UNSAFE_OWNER_OR_PATTERN",
            message := "Owner set with 'or' pattern without assert - could remain nil",
            severity := .critical, line := i + 1,
            fix := some "Add assert(State.Owner ~= nil, 'Owner not initialized') after assignment" },
          List.mem_flatMap.mpr ⟨(i, line), hmem, ?_⟩, rfl, rfl, rfl⟩
  dsimp only
  rw [h1, h2, h3, h4]
  exact List.mem_cons_self _ _

/-- A line matching the first-caller-wins pattern produces the
`FIRST_CALLER_WINS_OWNER` finding, with no assertion condition. -/
theorem firstCallerRun_intro {ctx : ProcessContext} {i : Nat} {line : String}
    (hmem : (i, line) ∈ enumLines (splitLines ctx.sourceCode))
    (hfc : rxTest rxFirstCallerWins line = true) :
    ∃ f ∈ firstCallerWinsOwnerRun ctx,
      f.code = "FIRST_CALLER_WINS_OWNER" ∧ f.severity = Severity.critical
        ∧ f.line = i + 1 := by
  refine ⟨{ code := "FIRST_CALLER_WINS_OWNER",
            message := "First-caller-wins owner pattern: any caller can claim ownership before legitimate owner",
            severity := .critical, line := i + 1,
            fix := some "Use spawn parameter: State.Owner = ao.env.Process.Owner or require explicit Init handler" },
          List.mem_flatMap.mpr ⟨(i, line), hmem, ?_⟩, rfl, rfl, rfl⟩
  dsimp only
  rw [hfc]
  exact List.mem_cons_self _ _

end AoLens

namespace AoLens

/-- C6 counterexample: the claim's iff fails.  A line matching the
first-caller-wins pattern whose text also mentions `ao.env.Process.Owner`
has no assert anywhere in the lookahead window, so the claim requires an
`UNSAFE_OWNER_OR_PATTERN` finding, yet the check suppresses it (it skips
any line containing `ao.env.Process.Owner`), while the first-caller-wins
finding is emitted. -/
theorem C6_counterexample :
    rxTest rxFirstCallerWins "Owner = Owner or msg.From and ao.env.Process.Owner" = true
      ∧ rxTest rxAssertStateOwnerNotNil (joinLines (sliceList 0 6
          (splitLines "Owner = Owner or msg.From and ao.env.Process.Owner"))) = false
      ∧ rxTest rxAssertAnyOwnerNotNil (joinLines (sliceList 0 6
          (splitLines "Owner = Owner or msg.From and ao.env.Process.Owner"))) = false
      ∧ (∀ f ∈ securityAnalyze
            (build "Owner = Owner or msg.From and ao.env.Process.Owner" "p.lua" []),
          ¬f.code = "UNSAFE_OWNER_OR_PATTERN")
      ∧ (∃ f ∈ securityAnalyze
            (build "Owner = Owner or msg.From and ao.env.Process.Owner" "p.lua" []),
          f.code = "FIRST_CALLER_WINS_OWNER" ∧ f.line = 1) := by
  refine ⟨by decide, by decide, by decide, ?_, ?_⟩
  · intro f hf hcode
    have hrc := mem_of_mem_deduplicate hf
    have horg := (registry_code_origin (runChecks_append_left hrc)).2.2.1 hcode
    obtain ⟨il, hil, hline, hc1, hc2, hc3, hc4⟩ := unsafeOwnerOrRun_mem horg.1
    have hil2 : il ∈ enumLines
        (splitLines "Owner = Owner or msg.From and ao.env.Process.Owner") := hil
    have hsingle :
        enumLines (splitLines "Owner = Owner or msg.From and ao.env.Process.Owner")
          = [(0, "Owner = Owner or msg.From and ao.env.Process.Owner")] := by decide
    rw [hsingle] at hil2
    have hileq : il = (0, "Owner = Owner or msg.From and ao.env.Process.Owner") := by
      simpa using hil2
    rw [hileq] at hc2
    exact absurd hc2 (by decide)
  · have hmem : (0, "Owner = Owner or msg.From and ao.env.Process.Owner")
        ∈ enumLines (splitLines
          (build "Owner = Owner or msg.From and ao.env.Process.Owner" "p.lua"
            []).sourceCode) := by decide
    obtain ⟨f0, hf0, hc0, hs0, hl0⟩ := firstCallerRun_intro hmem (by decide)
    have hrc : f0 ∈ runChecks registryChecks
        (build "Owner = Owner or msg.From and ao.env.Process.Owner" "p.lua" []) :=
      check_in_analyzer (n := 9) (by decide) (by decide) (by decide) hf0
    obtain ⟨g, hg, hgc, hgl, -⟩ := analyze_key_present hrc
    exact ⟨g, hg, hgc.trans hc0, by rw [hgl, hl0]⟩

/-- C6 amended: in a non-test, non-library file, a line matching the
first-caller-wins pattern always yields a critical
`FIRST_CALLER_WINS_OWNER` finding at that line (no assertion can remove
it), while a critical `UNSAFE_OWNER_OR_PATTERN` finding appears at that
line iff the line matches the `or`-fallback pattern, does not mention
`ao.env.Process.Owner`, and neither owner assert form occurs in the
six-line window starting at the line (the line itself plus the next
five). -/
theorem C6_first_caller_vs_unsafe_amended (sourceCode filePath : String)
    (handlerFacts : List (HandlerInfo × HandlerBodyFacts)) (i : Nat) (line : String)
    (hTF : detectTestFile filePath = false)
    (hLib : detectLibrary sourceCode filePath = false)
    (hmem : (i, line) ∈ enumLines (splitLines sourceCode))
    (hfc : rxTest rxFirstCallerWins line = true) :
    (∃ f ∈ securityAnalyze (build sourceCode filePath handlerFacts),
        f.code = "FIRST_CALLER_WINS_OWNER" ∧ f.severity = Severity.critical ∧ f.line = i + 1)
      ∧ ((∃ f ∈ securityAnalyze (build sourceCode filePath handlerFacts),
            f.code = "UNSAFE_OWNER_OR_PATTERN" ∧ f.line = i + 1)
          ↔ (rxTest rxOwnerOrAny line = true
              ∧ rxTest (rxLit "ao.env.Process.Owner") line = false
              ∧ rxTest rxAssertStateOwnerNotNil
                  (joinLines (sliceList i (i + 6) (splitLines sourceCode))) = false
              ∧ rxTest rxAssertAnyOwnerNotNil
                  (joinLines (sliceList i (i + 6) (splitLines sourceCode))) = false)) := by
  have hTF2 : (build sourceCode filePath handlerFacts).isTestFile = false := hTF
  have hLib2 : (build sourceCode filePath handlerFacts).isLibrary = false := hLib
  have hmem2 : (i, line) ∈ enumLines
      (splitLines (build sourceCode filePath handlerFacts).sourceCode) := hmem
  constructor
  · obtain ⟨f0, hf0, hc0, hs0, hl0⟩ := firstCallerRun_intro hmem2 hfc
    have hrc : f0 ∈ runChecks registryChecks (build sourceCode filePath handlerFacts) :=
      check_in_analyzer (n := 9) (by decide) hTF2 hLib2 hf0
    obtain ⟨g, hg, hgc, hgl, hgrun⟩ := analyze_key_present hrc
    refine ⟨g, hg, hgc.trans hc0, ?_, hgl.trans hl0⟩
    have horg := (registry_code_origin (runChecks_append_left hgrun)).2.2.2.1
      (hgc.trans hc0)
    exact (firstCallerRun_code horg.1).2
  · constructor
    · rintro ⟨f, hf, hfc2, hfl⟩
      have hrc : f ∈ runChecks registryChecks (build sourceCode filePath handlerFacts) :=
        mem_of_mem_deduplicate hf
      have horg := (registry_code_origin (runChecks_append_left hrc)).2.2.1 hfc2
      obtain ⟨il, hil, hline, hc1, hc2, hc3, hc4⟩ := unsafeOwnerOrRun_mem horg.1
      have hieq : il.1 = i := by
        have : il.1 + 1 = i + 1 := hline.symm.trans hfl
        omega
      have hleq : il.2 = line := by
        refine enumLines_uniq ?_ hmem2
        rw [← hieq]
        simpa using hil
      rw [hieq] at hc3 hc4
      rw [hleq] at hc1 hc2
      exact ⟨hc1, hc2, hc3, hc4⟩
    · rintro ⟨h1, h2, h3, h4⟩
      obtain ⟨f0, hf0, hc0, hs0, hl0⟩ := unsafeOwnerOrRun_intro hmem2 h1 h2 h3 h4
      have hrc : f0 ∈ runChecks registryChecks (build sourceCode filePath handlerFacts) :=
        check_in_analyzer (n := 6) (by decide) hTF2 hLib2 hf0
      obtain ⟨g, hg, hgc, hgl, hgrun⟩ := analyze_key_present hrc
      exact ⟨g, hg, hgc.trans hc0, hgl.trans hl0⟩

/-- C6 witness: the bare first-caller-wins line with no assert gets both
findings; the iff's right side holds concretely. -/
theorem C6_witness :
    (∃ f ∈ securityAnalyze (build "Owner = Owner or msg.From" "p.lua" []),
        f.code = "FIRST_CALLER_WINS_OWNER" ∧ f.severity = Severity.critical ∧ f.line = 0 + 1)
      ∧ ((∃ f ∈ securityAnalyze (build "Owner = Owner or msg.From" "p.lua" []),
            f.code = "UNSAFE_OWNER_OR_PATTERN" ∧ f.line = 0 + 1)
          ↔ (rxTest rxOwnerOrAny "Owner = Owner or msg.From" = true
              ∧ rxTest (rxLit "ao.env.Process.Owner") "Owner = Owner or msg.From" = false
              ∧ rxTest rxAssertStateOwnerNotNil
                  (joinLines (sliceList 0 (0 + 6)
                    (splitLines "Owner = Owner or msg.From"))) = false
              ∧ rxTest rxAssertAnyOwnerNotNil
                  (joinLines (sliceList 0 (0 + 6)
                    (splitLines "Owner = Owner or msg.From"))) = false)) :=
  C6_first_caller_vs_unsafe_amended "Owner = Owner or msg.From" "p.lua" [] 0
    "Owner = Owner or msg.From" (by decide) (by decide) (by decide) (by decide)

end AoLens

namespace AoLens

/-- A mutating handler with no authorization produces the `NO_AUTH_CHECK`
finding at its start line. -/
theorem noAuthCheckRun_intro {ctx : ProcessContext} {n : String}
    {h : HandlerContext} (hp : (n, h) ∈ ctx.handlers)
    (hmut : h.mutatesState = true)
    (hauth : h.authLocation = AuthLocation.none) :
    ∃ f ∈ noAuthCheckRun ctx,
      f.code = "NO_AUTH_CHECK" ∧ f.severity = Severity.critical
        ∧ f.line = h.startLine := by
  refine ⟨{ code := "NO_AUTH_CHECK",
            message := "Mutating handler \"" ++ n ++ "\" has no authorization check",
            severity := .critical, line := h.startLine,
            fix := some "Add auth check: if msg.From ~= State.Owner then return false end" },
          List.mem_flatMap.mpr ⟨(n, h), hp, ?_⟩, rfl, rfl, rfl⟩
  dsimp only
  rw [hmut, hauth]
  exact List.mem_cons_self _ _

/-- C7 counterexample: in a test file (production auth rules are skipped
for test files), a mutating handler with no authorization check gets no
`NO_AUTH_CHECK` finding, so neither side of the claimed exactly-one
disjunction holds. -/
theorem C7_counterexample :
    (∃ p ∈ (build "x = 1" "test_p.lua"
        [({ name := "H", line := 1, end_line := 1,
            signature_type := SignatureType.function_matcher,
            trigger := { action_tag := none, required_tags := [], checks_from := false,
                         checks_data := false, checks_frozen := false },
            matcher_analysis := { type := MatcherType.inline_function,
                                  strictness := Strictness.loose,
                                  validates_schema := false,
                                  checks_authorization := false },
            has_handler_body := true, is_safe_library := false },
          { auth := { validates := false, pattern := AuthPattern.none },
            reads := [], writes := [{ field := "X", line := 1 }], sends := [] })]).handlers,
      p.2.mutatesState = true ∧ p.2.authLocation = AuthLocation.none)
    ∧ (∀ f ∈ securityAnalyze (build "x = 1" "test_p.lua"
        [({ name := "H", line := 1, end_line := 1,
            signature_type := SignatureType.function_matcher,
            trigger := { action_tag := none, required_tags := [], checks_from := false,
                         checks_data := false, checks_frozen := false },
            matcher_analysis := { type := MatcherType.inline_function,
                                  strictness := Strictness.loose,
                                  validates_schema := false,
                                  checks_authorization := false },
            has_handler_body := true, is_safe_library := false },
          { auth := { validates := false, pattern := AuthPattern.none },
            reads := [], writes := [{ field := "X", line := 1 }], sends := [] })]),
        ¬f.code = "NO_AUTH_CHECK") := by
  constructor
  · decide
  · intro f hf hcode
    have hrc := mem_of_mem_deduplicate hf
    have horg := (registry_code_origin (runChecks_append_left hrc)).1 hcode
    exact absurd horg.2.1 (by decide)

/-- C7 amended: in a non-test, non-library file, for a mutating handler
whose start line is not shared by a different handler context, the
coverage invariant holds as an equivalence: the handler's authorization
location is `none` iff the analysis result carries a critical
`NO_AUTH_CHECK` finding at the handler's start line. -/
theorem C7_auth_coverage_amended (sourceCode filePath : String)
    (handlerFacts : List (HandlerInfo × HandlerBodyFacts)) (n : String)
    (h : HandlerContext)
    (hTF : detectTestFile filePath = false)
    (hLib : detectLibrary sourceCode filePath = false)
    (hp : (n, h) ∈ (build sourceCode filePath handlerFacts).handlers)
    (hmut : h.mutatesState = true)
    (huniq : ∀ q ∈ (build sourceCode filePath handlerFacts).handlers,
        q.2.startLine = h.startLine → q.2 = h) :
    h.authLocation = AuthLocation.none
      ↔ ∃ f ∈ securityAnalyze (build sourceCode filePath handlerFacts),
          f.code = "NO_AUTH_CHECK" ∧ f.severity = Severity.critical
            ∧ f.line = h.startLine := by
  have hTF2 : (build sourceCode filePath handlerFacts).isTestFile = false := hTF
  have hLib2 : (build sourceCode filePath handlerFacts).isLibrary = false := hLib
  constructor
  · intro hauth
    obtain ⟨f0, hf0, hc0, hs0, hl0⟩ := noAuthCheckRun_intro hp hmut hauth
    have hrc : f0 ∈ runChecks registryChecks (build sourceCode filePath handlerFacts) :=
      check_in_analyzer (n := 0) (by decide) hTF2 hLib2 hf0
    obtain ⟨g, hg, hgc, hgl, hgrun⟩ := analyze_key_present hrc
    have horg := (registry_code_origin (runChecks_append_left hgrun)).1 (hgc.trans hc0)
    obtain ⟨-, hsev, -⟩ := noAuthCheckRun_mem horg.1
    exact ⟨g, hg, hgc.trans hc0, hsev, hgl.trans hl0⟩
  · rintro ⟨f, hf, hcode, hsev, hline⟩
    have hrc : f ∈ runChecks registryChecks (build sourceCode filePath handlerFacts) :=
      mem_of_mem_deduplicate hf
    have horg := (registry_code_origin (runChecks_append_left hrc)).1 hcode
    obtain ⟨-, -, q, hq, hqmut, hqauth, hqline⟩ := noAuthCheckRun_mem horg.1
    have : q.2 = h := huniq q hq (hqline.symm.trans hline)
    rw [← this]
    exact hqauth

/-- C7 witness: a single mutating handler with no auth in a production
file — the equivalence holds and both sides are true. -/
theorem C7_witness :
    (buildHandlerContext "x = 1"
        { name := "H", line := 1, end_line := 1,
          signature_type := SignatureType.function_matcher,
          trigger := { action_tag := none, required_tags := [], checks_from := false,
                       checks_data := false, checks_frozen := false },
          matcher_analysis := { type := MatcherType.inline_function,
                                strictness := Strictness.loose,
                                validates_schema := false,
                                checks_authorization := false },
          has_handler_body := true, is_safe_library := false }
        { auth := { validates := false, pattern := AuthPattern.none },
          reads := [], writes := [{ field := "X", line := 1 }],
          sends := [] }).authLocation = AuthLocation.none
      ↔ ∃ f ∈ securityAnalyze (build "x = 1" "p.lua"
          [({ name := "H", line := 1, end_line := 1,
              signature_type := SignatureType.function_matcher,
              trigger := { action_tag := none, required_tags := [], checks_from := false,
                           checks_data := false, checks_frozen := false },
              matcher_analysis := { type := MatcherType.inline_function,
                                    strictness := Strictness.loose,
                                    validates_schema := false,
                                    checks_authorization := false },
              has_handler_body := true, is_safe_library := false },
            { auth := { validates := false, pattern := AuthPattern.none },
              reads := [], writes := [{ field := "X", line := 1 }], sends := [] })]),
          f.code = "NO_AUTH_CHECK" ∧ f.severity = Severity.critical
            ∧ f.line = (buildHandlerContext "x = 1"
                { name := "H", line := 1, end_line := 1,
                  signature_type := SignatureType.function_matcher,
                  trigger := { action_tag := none, required_tags := [], checks_from := false,
                               checks_data := false, checks_frozen := false },
                  matcher_analysis := { type := MatcherType.inline_function,
                                        strictness := Strictness.loose,
                                        validates_schema := false,
                                        checks_authorization := false },
                  has_handler_body := true, is_safe_library := false }
                { auth := { validates := false, pattern := AuthPattern.none },
                  reads := [], writes := [{ field := "X", line := 1 }],
                  sends := [] }).startLine :=
  C7_auth_coverage_amended "x = 1" "p.lua" _ "H" _
    (by decide) (by decide) (by decide) (by decide) (by decide)

end AoLens

namespace AoLens

/-- An uninitialized owner in an auth-using, acl-free, env-free context
produces the `OWNER_NEVER_INITIALIZED` finding at line 1. -/
theorem ownerNeverRun_intro {ctx : ProcessContext}
    (h1 : ctx.project.usesAuth = true)
    (h2 : ctx.state.ownerInitialized = false)
    (h3 : rxTest rxAclRequire ctx.sourceCode = false)
    (h4 : rxTest (rxLit "ao.env.Process.Owner") ctx.sourceCode = false)
    (h5 : ctx.isAosStyle = false)
    (h6 : ctx.handlers.any (fun p => p.2.authLocation ≠ AuthLocation.none) = true) :
    ∃ f ∈ ownerNeverInitializedRun ctx,
      f.code = "OWNER_NEVER_INITIALIZED" ∧ f.severity = Severity.critical
        ∧ f.line = 1 := by
  refine ⟨{ code := "OWNER_NEVER_INITIALIZED",
            message := "State.Owner is referenced but never properly initialized",
            severity := .critical, line := 1,
            fix := some "Initialize Owner: State = State or \x7b Owner = ao.env.Process.Owner \x7d" },
          ?_, rfl, rfl, rfl⟩
  unfold ownerNeverInitializedRun
  rw [h1, h2, h3, h4, h5]
  cases hfind : ctx.handlers.find? (fun p => p.2.authLocation ≠ AuthLocation.none) with
  | none =>
    obtain ⟨q, hq, hpq⟩ := List.any_eq_true.mp h6
    rw [List.find?_eq_none] at hfind
    exact absurd hpq (by simpa using hfind q hq)
  | some q2 =>
    simp [hfind]

/-- A sender-owner equality line with neither safe form in its window
produces the `NIL_GUARD_REQUIRED` finding. -/
theorem nilGuardRun_intro {ctx : ProcessContext} {i : Nat} {line : String}
    (hmem : (i, line) ∈ enumLines (splitLines ctx.sourceCode))
    (heq : rxTest rxSenderOwnerEquality line = true)
    (hw1 : rxTest rxConjunctiveGuard
      (joinLines (sliceList (i - 5) (i + 1) (splitLines ctx.sourceCode))) = false)
    (hw2 : rxTest rxAssertStateOwnerNotNil
      (joinLines (sliceList (i - 5) (i + 1) (splitLines ctx.sourceCode))) = false) :
    ∃ f ∈ nilGuardRequiredRun ctx,
      f.code = "NIL_GUARD_REQUIRED" ∧ f.severity = Severity.critical
        ∧ f.line = i + 1 := by
  refine ⟨{ code := "NIL_GUARD_REQUIRED",
            message := "msg.From == State.Owner without nil guards allows nil==nil bypass",
            severity := .critical, line := i + 1,
            fix := some "Use: if State.Owner and msg.From and msg.From == State.Owner then" },
          List.mem_flatMap.mpr ⟨(i, line), hmem, ?_⟩, rfl, rfl, rfl⟩
  dsimp only
  rw [heq, hw1, hw2]
  exact List.mem_cons_self _ _

end AoLens

namespace AoLens

/-- C1 counterexample: a test file satisfying every condition of the
claim's scenario — mutable-state table with an uninitialized ownership
field, a handler whose body compares `msg.From == State.Owner` with no
guard — receives neither finding, because both checks (the spec-modelled
nil-guard one and `OWNER_NEVER_INITIALIZED`) are production rules skipped
for test files. -/
theorem C1_counterexample :
    rxTest rxSenderOwnerEquality "if msg.From == State.Owner then" = true
      ∧ (build "State = State or \x7b Owner = nil \x7d\nif msg.From == State.Owner then\nState.X = 1\nend"
          "test_p.lua"
          [({ name := "H", line := 2, end_line := 4,
              signature_type := SignatureType.function_matcher,
              trigger := { action_tag := none, required_tags := [], checks_from := false,
                           checks_data := false, checks_frozen := false },
              matcher_analysis := { type := MatcherType.inline_function,
                                    strictness := Strictness.loose,
                                    validates_schema := false,
                                    checks_authorization := false },
              has_handler_body := true, is_safe_library := false },
            { auth := { validates := true, pattern := AuthPattern.conditional },
              reads := [], writes := [{ field := "X", line := 3 }],
              sends := [] })]).state.ownerInitialized = false
      ∧ (∀ f ∈ securityAnalyzeWith registryWithNilGuard
          (build "State = State or \x7b Owner = nil \x7d\nif msg.From == State.Owner then\nState.X = 1\nend"
            "test_p.lua"
            [({ name := "H", line := 2, end_line := 4,
                signature_type := SignatureType.function_matcher,
                trigger := { action_tag := none, required_tags := [], checks_from := false,
                             checks_data := false, checks_frozen := false },
                matcher_analysis := { type := MatcherType.inline_function,
                                      strictness := Strictness.loose,
                                      validates_schema := false,
                                      checks_authorization := false },
                has_handler_body := true, is_safe_library := false },
              { auth := { validates := true, pattern := AuthPattern.conditional },
                reads := [], writes := [{ field := "X", line := 3 }],
                sends := [] })]),
          ¬f.code = "NIL_GUARD_REQUIRED" ∧ ¬f.code = "OWNER_NEVER_INITIALIZED") := by
  refine ⟨by decide, by decide, ?_⟩
  intro f hf
  have hrc := mem_of_mem_deduplicate hf
  constructor
  · intro hcode
    have horg := (registry_code_origin hrc).2.2.2.2 hcode
    exact absurd horg.2.1 (by decide)
  · intro hcode
    have horg := (registry_code_origin hrc).2.1 hcode
    exact absurd horg.2.1 (by decide)

/-- Modelled from the spec: C1 amended.  In a non-test, non-library file
whose state table leaves the owner uninitialized and whose handlers use
authorization, with no acl module and no `ao.env.Process.Owner` mention,
an unguarded sender-owner equality line yields a critical
`NIL_GUARD_REQUIRED` finding at that line (the nil-guard evaluator is
modelled from the spec, absent from `src/`), and a critical
`OWNER_NEVER_INITIALIZED` finding is reported at line 1. -/
theorem C1_nil_guard_owner_amended (sourceCode filePath : String)
    (handlerFacts : List (HandlerInfo × HandlerBodyFacts)) (i : Nat) (line : String)
    (hTF : detectTestFile filePath = false)
    (hLib : detectLibrary sourceCode filePath = false)
    (hmem : (i, line) ∈ enumLines (splitLines sourceCode))
    (heq : rxTest rxSenderOwnerEquality line = true)
    (hw1 : rxTest rxConjunctiveGuard
      (joinLines (sliceList (i - 5) (i + 1) (splitLines sourceCode))) = false)
    (hw2 : rxTest rxAssertStateOwnerNotNil
      (joinLines (sliceList (i - 5) (i + 1) (splitLines sourceCode))) = false)
    (husesAuth : (build sourceCode filePath handlerFacts).project.usesAuth = true)
    (howner : (build sourceCode filePath handlerFacts).state.ownerInitialized = false)
    (hacl : rxTest rxAclRequire sourceCode = false)
    (henv : rxTest (rxLit "ao.env.Process.Owner") sourceCode = false) :
    (∃ f ∈ securityAnalyzeWith registryWithNilGuard (build sourceCode filePath handlerFacts),
        f.code = "NIL_GUARD_REQUIRED" ∧ f.severity = Severity.critical ∧ f.line = i + 1)
      ∧ (∃ f ∈ securityAnalyzeWith registryWithNilGuard (build sourceCode filePath handlerFacts),
        f.code = "OWNER_NEVER_INITIALIZED" ∧ f.severity = Severity.critical ∧ f.line = 1) := by
  have hTF2 : (build sourceCode filePath handlerFacts).isTestFile = false := hTF
  have hLib2 : (build sourceCode filePath handlerFacts).isLibrary = false := hLib
  constructor
  · obtain ⟨f0, hf0, hc0, hs0, hl0⟩ := @nilGuardRun_intro (build sourceCode filePath handlerFacts) _ _ hmem heq hw1 hw2
    have hrc : f0 ∈ runChecks registryWithNilGuard (build sourceCode filePath handlerFacts) :=
      check_in_analyzer (n := 44) (by decide) hTF2 hLib2 hf0
    obtain ⟨g, hg, hgc, hgl, hgrun⟩ := analyze_key_present hrc
    have horg := (registry_code_origin hgrun).2.2.2.2 (hgc.trans hc0)
    exact ⟨g, hg, hgc.trans hc0, (nilGuardRun_code horg.1).2, hgl.trans hl0⟩
  · obtain ⟨f0, hf0, hc0, hs0, hl0⟩ := @ownerNeverRun_intro (build sourceCode filePath handlerFacts) husesAuth howner hacl henv rfl husesAuth
    have hrc : f0 ∈ runChecks registryWithNilGuard (build sourceCode filePath handlerFacts) :=
      check_in_analyzer (n := 4) (by decide) hTF2 hLib2 hf0
    obtain ⟨g, hg, hgc, hgl, hgrun⟩ := analyze_key_present hrc
    have horg := (registry_code_origin hgrun).2.1 (hgc.trans hc0)
    obtain ⟨-, hsev, hln⟩ := ownerNeverRun_mem horg.1
    exact ⟨g, hg, hgc.trans hc0, hsev, hln⟩

set_option maxHeartbeats 4000000 in
/-- File-level context facts for the nil-guard scenario: production file,
not a library, no acl module, no env-owner mention. -/
theorem c1wCtx :
    detectTestFile "p.lua" = false
      ∧ detectLibrary c1Src "p.lua" = false
      ∧ rxTest rxAclRequire c1Src = false
      ∧ rxTest (rxLit "ao.env.Process.Owner") c1Src = false := by
  decide

set_option maxHeartbeats 4000000 in
/-- The unguarded sender-owner equality line sits at index 1 of the
scenario source and matches the equality pattern. -/
theorem c1wLine :
    (1, "if msg.From == State.Owner then") ∈ enumLines (splitLines c1Src)
      ∧ rxTest rxSenderOwnerEquality "if msg.From == State.Owner then" = true := by
  decide

set_option maxHeartbeats 4000000 in
/-- The lookback window of the scenario line has neither a conjunctive
guard nor an owner assert. -/
theorem c1wWindow :
    rxTest rxConjunctiveGuard
        (joinLines (sliceList (1 - 5) (1 + 1) (splitLines c1Src))) = false
      ∧ rxTest rxAssertStateOwnerNotNil
        (joinLines (sliceList (1 - 5) (1 + 1) (splitLines c1Src))) = false := by
  decide

set_option maxHeartbeats 4000000 in
/-- The built scenario context uses authorization and leaves the owner
uninitialized. -/
theorem c1wBuild :
    (build c1Src "p.lua" c1Facts).project.usesAuth = true
      ∧ (build c1Src "p.lua" c1Facts).state.ownerInitialized = false := by
  decide

/-- C1 witness: the scenario source in a production file gets both
critical findings. -/
theorem C1_witness :
    (∃ f ∈ securityAnalyzeWith registryWithNilGuard (build c1Src "p.lua" c1Facts),
        f.code = "NIL_GUARD_REQUIRED" ∧ f.severity = Severity.critical ∧ f.line = 1 + 1)
      ∧ (∃ f ∈ securityAnalyzeWith registryWithNilGuard (build c1Src "p.lua" c1Facts),
        f.code = "OWNER_NEVER_INITIALIZED" ∧ f.severity = Severity.critical ∧ f.line = 1) :=
  C1_nil_guard_owner_amended c1Src "p.lua" c1Facts 1 "if msg.From == State.Owner then"
    c1wCtx.1 c1wCtx.2.1 c1wLine.1 c1wLine.2 c1wWindow.1 c1wWindow.2
    c1wBuild.1 c1wBuild.2 c1wCtx.2.2.1 c1wCtx.2.2.2

end AoLens

namespace AoLens

/-- `find?` over the replace-map of `mapSetK` when the key is present. -/
theorem find_map_rep_self {κ : Type} [DecidableEq κ] {k : κ} {v : List FWF} :
    ∀ {m : List (κ × List FWF)}, m.any (fun p => p.1 = k) = true →
      (m.map (fun p => if p.1 = k then (k, v) else p)).find? (fun p => p.1 = k)
        = some (k, v) := by
  intro m
  induction m with
  | nil => simp
  | cons p rest ih =>
    intro h
    by_cases hp : p.1 = k
    · simp [hp, List.find?]
    · have h2 : rest.any (fun p => p.1 = k) = true := by simpa [hp] using h
      simp [hp, List.find?, ih h2]

/-- The replace-map of `mapSetK` leaves other keys' lookups unchanged. -/
theorem find_map_rep_other {κ : Type} [DecidableEq κ] {k k' : κ} {v : List FWF}
    (hne : ¬k' = k) :
    ∀ {m : List (κ × List FWF)},
      (m.map (fun p => if p.1 = k then (k, v) else p)).find? (fun p => p.1 = k')
        = m.find? (fun p => p.1 = k') := by
  intro m
  induction m with
  | nil => simp
  | cons p rest ih =>
    by_cases hp : p.1 = k
    · have hk : ¬(k = k') := fun h => hne h.symm
      have hp2 : ¬(p.1 = k') := by rw [hp]; exact hk
      simp [hp, List.find?, hk, hp2, ih]
    · by_cases hq : p.1 = k'
      · simp [hp, List.find?, hq, hne]
      · simp [hp, List.find?, hq, ih]

/-- When the key is absent no entry matches it. -/
theorem find_none_of_any_false {κ : Type} [DecidableEq κ] {k : κ} :
    ∀ {m : List (κ × List FWF)}, m.any (fun p => p.1 = k) = false →
      m.find? (fun p => p.1 = k) = none := by
  intro m
  induction m with
  | nil => simp
  | cons p rest ih =>
    intro h
    rw [List.any_cons] at h
    obtain ⟨h1, h2⟩ := Bool.or_eq_false_iff.mp h
    have hp : ¬(p.1 = k) := of_decide_eq_false h1
    simp [List.find?, hp, ih h2]

/-- `mapSetK` then lookup at the written key. -/
theorem bucketGet_mapSetK_self {k : String × String × Severity × String}
    {v : List FWF} {m : List ((String × String × Severity × String) × List FWF)} :
    bucketGet (fuzzyBuckets.mapSetK m k v) k = some v := by
  unfold fuzzyBuckets.mapSetK bucketGet
  split
  next h =>
    rw [find_map_rep_self h]
    rfl
  next h =>
    have hnone := find_none_of_any_false (k := k) (m := m) (Bool.eq_false_iff.mpr h)
    rw [List.find?_append, hnone]
    simp [List.find?]

/-- `mapSetK` then lookup at another key. -/
theorem bucketGet_mapSetK_other {k k' : String × String × Severity × String}
    (hne : ¬k' = k) {v : List FWF}
    {m : List ((String × String × Severity × String) × List FWF)} :
    bucketGet (fuzzyBuckets.mapSetK m k v) k' = bucketGet m k' := by
  unfold fuzzyBuckets.mapSetK bucketGet
  split
  · rw [find_map_rep_other hne]
  · rw [List.find?_append]
    have hne2 : ¬k = k' := fun hx => hne hx.symm
    cases hf : m.find? (fun p => p.1 = k') with
    | some q => simp
    | none => simp [List.find?, hne2]

end AoLens

namespace AoLens

/-- `mapGetK` and `bucketGet` are the same lookup. -/
theorem mapGetK_eq_bucketGet
    {m : List ((String × String × Severity × String) × List FWF)}
    {k : String × String × Severity × String} :
    fuzzyBuckets.mapGetK m k = bucketGet m k := rfl

/-- Entries after `mapSetK` are old entries or the written pair. -/
theorem mem_mapSetK {κ : Type} [DecidableEq κ] {m : List (κ × List FWF)}
    {k : κ} {v : List FWF} {p : κ × List FWF}
    (hp : p ∈ fuzzyBuckets.mapSetK m k v) : p ∈ m ∨ p = (k, v) := by
  unfold fuzzyBuckets.mapSetK at hp
  split at hp
  · obtain ⟨q, hq, hpq⟩ := List.mem_map.mp hp
    by_cases hqk : q.1 = k
    · right
      rw [← hpq]
      simp [hqk]
    · left
      rw [← hpq]
      simpa [hqk] using hq
  · rcases List.mem_append.mp hp with h | h
    · exact Or.inl h
    · exact Or.inr (by simpa using h)

/-- A successful `bucketGet` comes from an entry of the map with that key. -/
theorem bucketGet_entry
    {m : List ((String × String × Severity × String) × List FWF)}
    {k : String × String × Severity × String} {bucket : List FWF}
    (h : bucketGet m k = some bucket) :
    ∃ e ∈ m, e.1 = k ∧ e.2 = bucket := by
  unfold bucketGet at h
  cases hf : m.find? (fun p => p.1 = k) with
  | none => rw [hf] at h; exact absurd h (by simp)
  | some e =>
    rw [hf] at h
    refine ⟨e, List.mem_of_find?_eq_some hf, ?_, ?_⟩
    · have hpe := List.find?_some hf
      simpa using hpe
    · simpa using h

/-- Fold soundness for the fuzzy buckets: every bucket member satisfies
the ambient property and carries the bucket's key. -/
theorem fuzzyBuckets_fold_sound (Q : FWF → Prop) :
    ∀ (l : List FWF) (m : List ((String × String × Severity × String) × List FWF)),
      (∀ c ∈ l, Q c) →
      (∀ p ∈ m, ∀ x ∈ p.2, Q x ∧ fuzzyKey x = p.1) →
      ∀ p ∈ l.foldl (fun m f => fuzzyBuckets.mapSetK m (fuzzyKey f)
          ((fuzzyBuckets.mapGetK m (fuzzyKey f)).getD [] ++ [f])) m,
        ∀ x ∈ p.2, Q x ∧ fuzzyKey x = p.1 := by
  intro l
  induction l with
  | nil => intro m hl hm; simpa using hm
  | cons f fs ih =>
    intro m hl hm
    refine ih _ (fun c hc => hl c (List.mem_cons_of_mem f hc)) ?_
    intro p hp x hx
    have hv : ∀ y ∈ (fuzzyBuckets.mapGetK m (fuzzyKey f)).getD [] ++ [f],
        Q y ∧ fuzzyKey y = fuzzyKey f := by
      intro y hy
      rcases List.mem_append.mp hy with h | h
      · cases hb : fuzzyBuckets.mapGetK m (fuzzyKey f) with
        | none => rw [hb] at h; simp at h
        | some bucket =>
          rw [hb] at h
          obtain ⟨e, he, hek, heb⟩ := bucketGet_entry (mapGetK_eq_bucketGet ▸ hb)
          have := hm e he y (heb ▸ h)
          exact ⟨this.1, this.2.trans hek⟩
      · have : y = f := by simpa using h
        exact ⟨this ▸ hl f (List.mem_cons_self f fs), by rw [this]⟩
    rcases mem_mapSetK hp with h | h
    · exact hm p h x hx
    · rw [h] at hx ⊢
      exact hv x hx

/-- Fold completeness for the fuzzy buckets: every folded-in finding sits
in the bucket of its own fuzzy key. -/
theorem fuzzyBuckets_fold_complete :
    ∀ (l : List FWF) (m : List ((String × String × Severity × String) × List FWF))
      (c : FWF),
      ((∃ bucket, bucketGet m (fuzzyKey c) = some bucket ∧ c ∈ bucket) ∨ c ∈ l) →
      ∃ bucket,
        bucketGet (l.foldl (fun m f => fuzzyBuckets.mapSetK m (fuzzyKey f)
          ((fuzzyBuckets.mapGetK m (fuzzyKey f)).getD [] ++ [f])) m) (fuzzyKey c)
          = some bucket ∧ c ∈ bucket := by
  intro l
  induction l with
  | nil =>
    intro m c h
    rcases h with h | h
    · simpa using h
    · exact absurd h (List.not_mem_nil c)
  | cons f fs ih =>
    intro m c h
    rcases h with ⟨bucket, hb, hc⟩ | h
    · by_cases hkey : fuzzyKey c = fuzzyKey f
      · refine ih _ c (Or.inl ⟨(fuzzyBuckets.mapGetK m (fuzzyKey f)).getD [] ++ [f], ?_, ?_⟩)
        · rw [hkey]
          exact bucketGet_mapSetK_self
        · refine List.mem_append_left _ ?_
          rw [mapGetK_eq_bucketGet, ← hkey, hb]
          simpa using hc
      · refine ih _ c (Or.inl ⟨bucket, ?_, hc⟩)
        rw [bucketGet_mapSetK_other hkey, hb]
    · rcases List.mem_cons.mp h with rfl | h2
      · refine ih _ c (Or.inl ⟨(fuzzyBuckets.mapGetK m (fuzzyKey c)).getD [] ++ [c], ?_, ?_⟩)
        · exact bucketGet_mapSetK_self
        · exact List.mem_append_right _ (List.mem_singleton.mpr rfl)
      · exact ih _ c (Or.inr h2)

/-- Bucket soundness at the top level: members of any bucket of
`fuzzyBuckets l` are elements of `l` carrying the bucket's key. -/
theorem fuzzyBuckets_sound {l : List FWF}
    {k : String × String × Severity × String} {bucket : List FWF}
    (h : bucketGet (fuzzyBuckets l) k = some bucket) :
    ∀ x ∈ bucket, x ∈ l ∧ fuzzyKey x = k := by
  intro x hx
  obtain ⟨e, he, hek, heb⟩ := bucketGet_entry h
  have := fuzzyBuckets_fold_sound (Q := fun c => c ∈ l) l [] (fun c hc => hc)
    (by simp) e (by rw [fuzzyBuckets] at he; exact he) x (heb ▸ hx)
  exact ⟨this.1, this.2.trans hek⟩

/-- Bucket completeness at the top level. -/
theorem fuzzyBuckets_complete {l : List FWF} {c : FWF} (hc : c ∈ l) :
    ∃ bucket, bucketGet (fuzzyBuckets l) (fuzzyKey c) = some bucket ∧ c ∈ bucket := by
  rw [fuzzyBuckets]
  exact fuzzyBuckets_fold_complete l [] c (Or.inr hc)

/-- Fold invariant whose step property only needs the elements to come
from a fixed carrier list. -/
theorem foldl_inv_mem {α β : Type} {step : α → β → α} {P : α → Prop} {l0 : List β}
    (hstep : ∀ a b, b ∈ l0 → P a → P (step a b)) :
    ∀ (l : List β), (∀ b ∈ l, b ∈ l0) → ∀ a, P a → P (l.foldl step a) := by
  intro l
  induction l with
  | nil => intro _ a ha; simpa using ha
  | cons b bs ih =>
    intro hsub a ha
    exact ih (fun x hx => hsub x (List.mem_cons_of_mem b hx)) _
      (hstep a b (hsub b (List.mem_cons_self b bs)) ha)

end AoLens

namespace AoLens

/-- Every key the diff loop marks consumed shares its fuzzy part with some
current finding. -/
theorem diffStep_matched_inv {B C : List FWF} {st : DiffLoopState} {f : FWF}
    (hf : f ∈ C)
    (hinv : ∀ k ∈ st.matchedBaseline, ∃ c ∈ C,
      (k.1, k.2.1, k.2.2.1, k.2.2.2.1) = fuzzyKey c) :
    ∀ k ∈ (diffStep (B.map strictKey) (fuzzyBuckets B) st f).matchedBaseline,
      ∃ c ∈ C, (k.1, k.2.1, k.2.2.1, k.2.2.2.1) = fuzzyKey c := by
  intro k hk
  unfold diffStep at hk
  dsimp only at hk
  split at hk
  · dsimp only at hk
    rcases List.mem_append.mp hk with h | h
    · exact hinv k h
    · have hkf : k = strictKey f := by simpa using h
      exact ⟨f, hf, by rw [hkf]; rfl⟩
  · split at hk
    next baseMatches heq =>
      split at hk
      next b hfind =>
        obtain ⟨hbB, hbk⟩ := fuzzyBuckets_sound heq b (List.mem_of_find?_eq_some hfind)
        split at hk
        all_goals dsimp only at hk
        all_goals rcases List.mem_append.mp hk with h | h
        · exact hinv k h
        · have hkb : k = strictKey b := by simpa using h
          exact ⟨f, hf, by rw [hkb]; exact hbk⟩
        · exact hinv k h
        · have hkb : k = strictKey b := by simpa using h
          exact ⟨f, hf, by rw [hkb]; exact hbk⟩
      next hfind =>
        dsimp only at hk
        exact hinv k hk
    next heq =>
      dsimp only at hk
      exact hinv k hk

/-- Pointwise: the code's resolved filter agrees with "no current finding
shares the fuzzy key". -/
theorem diff_resolved_pointwise {C : List FWF} {st : DiffLoopState}
    (hinv : ∀ k ∈ st.matchedBaseline, ∃ c ∈ C,
      (k.1, k.2.1, k.2.2.1, k.2.2.2.1) = fuzzyKey c)
    (b : FWF) :
    (!(decide (strictKey b ∈ st.matchedBaseline))
        && ((bucketGet (fuzzyBuckets C) (fuzzyKey b)).getD []).isEmpty)
      = decide (∀ c ∈ C, ¬fuzzyKey c = fuzzyKey b) := by
  rw [Bool.eq_iff_iff]
  simp only [Bool.and_eq_true, Bool.not_eq_true', decide_eq_false_iff_not,
    decide_eq_true_eq, List.isEmpty_iff]
  constructor
  · rintro ⟨hnm, hemp⟩ c hc hkey
    obtain ⟨bucket, hbg, hcb⟩ := fuzzyBuckets_complete hc
    rw [hkey] at hbg
    rw [hbg] at hemp
    simp only [Option.getD_some] at hemp
    rw [hemp] at hcb
    exact absurd hcb (List.not_mem_nil c)
  · intro hall
    constructor
    · intro hmem
      obtain ⟨c, hc, hproj⟩ := hinv _ hmem
      exact hall c hc (show fuzzyKey c = fuzzyKey b from hproj.symm)
    · cases hbg : bucketGet (fuzzyBuckets C) (fuzzyKey b) with
      | none => simp
      | some bucket =>
        cases bucket with
        | nil => simp
        | cons x xs =>
          obtain ⟨hxC, hxk⟩ := fuzzyBuckets_sound hbg x (List.mem_cons_self x xs)
          exact absurd hxk (hall x hxC)

/-- Each loop step only extends the new-findings list. -/
theorem diffStep_new_mono {K : List (String × String × Severity × String × Nat)}
    {M : List ((String × String × Severity × String) × List FWF)}
    {st : DiffLoopState} {f x : FWF} (hx : x ∈ st.newFindings) :
    x ∈ (diffStep K M st f).newFindings := by
  unfold diffStep
  dsimp only
  repeat' split
  all_goals first
    | exact hx
    | exact List.mem_append_left _ hx

/-- Every finding the loop classifies as new is a current finding whose
strict key matches no baseline strict key. -/
theorem diffStep_new_inv {B C : List FWF} {st : DiffLoopState} {f : FWF}
    (hf : f ∈ C)
    (hinv : ∀ x ∈ st.newFindings, x ∈ C ∧ ¬strictKey x ∈ B.map strictKey) :
    ∀ x ∈ (diffStep (B.map strictKey) (fuzzyBuckets B) st f).newFindings,
      x ∈ C ∧ ¬strictKey x ∈ B.map strictKey := by
  intro x hx
  unfold diffStep at hx
  dsimp only at hx
  split at hx
  · exact hinv x hx
  next hsk =>
    split at hx
    next baseMatches heq =>
      split at hx
      next b hfind =>
        split at hx
        all_goals dsimp only at hx
        all_goals exact hinv x hx
      next hfind =>
        dsimp only at hx
        rcases List.mem_append.mp hx with h | h
        · exact hinv x h
        · have hxf : x = f := by simpa using h
          exact hxf ▸ ⟨hf, hsk⟩
    next heq =>
      dsimp only at hx
      rcases List.mem_append.mp hx with h | h
      · exact hinv x h
      · have hxf : x = f := by simpa using h
        exact hxf ▸ ⟨hf, hsk⟩

/-- Every relocation entry the loop records pairs a current finding that
has no exact baseline match with a fuzzy-matching baseline finding on a
different line, taking `from_line` and `to_line` from the pair. -/
theorem diffStep_moved_inv {B C : List FWF} {st : DiffLoopState} {f : FWF}
    (hf : f ∈ C)
    (hinv : ∀ m ∈ st.movedFindings, m.finding ∈ C
      ∧ ¬strictKey m.finding ∈ B.map strictKey
      ∧ ∃ b ∈ B, fuzzyKey b = fuzzyKey m.finding ∧ ¬b.2.line = m.finding.2.line
          ∧ m.from_line = b.2.line.getD 0 ∧ m.to_line = m.finding.2.line.getD 0) :
    ∀ m ∈ (diffStep (B.map strictKey) (fuzzyBuckets B) st f).movedFindings,
      m.finding ∈ C ∧ ¬strictKey m.finding ∈ B.map strictKey
        ∧ ∃ b ∈ B, fuzzyKey b = fuzzyKey m.finding ∧ ¬b.2.line = m.finding.2.line
            ∧ m.from_line = b.2.line.getD 0 ∧ m.to_line = m.finding.2.line.getD 0 := by
  intro m hm
  unfold diffStep at hm
  dsimp only at hm
  split at hm
  · exact hinv m hm
  next hsk =>
    split at hm
    next baseMatches heq =>
      split at hm
      next b hfind =>
        split at hm
        next hline =>
          dsimp only at hm
          rcases List.mem_append.mp hm with h | h
          · exact hinv m h
          · obtain ⟨hbB, hbk⟩ := fuzzyBuckets_sound heq b (List.mem_of_find?_eq_some hfind)
            have hmf : m = ⟨f, b.2.line.getD 0, f.2.line.getD 0⟩ := by simpa using h
            subst hmf
            exact ⟨hf, hsk, b, hbB, hbk, hline, rfl, rfl⟩
        next hline =>
          dsimp only at hm
          exact hinv m hm
      next hfind =>
        dsimp only at hm
        exact hinv m hm
    next heq =>
      dsimp only at hm
      exact hinv m hm

/-- A current finding whose fuzzy key matches no baseline finding is
pushed onto the new-findings list by its own loop step. -/
theorem diffStep_new_self {B : List FWF} {st : DiffLoopState} {f : FWF}
    (hno : ∀ b ∈ B, ¬fuzzyKey b = fuzzyKey f) :
    f ∈ (diffStep (B.map strictKey) (fuzzyBuckets B) st f).newFindings := by
  have hsk : ¬strictKey f ∈ B.map strictKey := by
    intro hmem2
    obtain ⟨b, hb, hkey⟩ := List.mem_map.mp hmem2
    apply hno b hb
    simp only [strictKey, Prod.mk.injEq] at hkey
    simp only [fuzzyKey, Prod.mk.injEq]
    exact ⟨hkey.1, hkey.2.1, hkey.2.2.1, hkey.2.2.2.1⟩
  unfold diffStep
  dsimp only
  split
  next h => exact absurd h hsk
  next =>
    split
    next baseMatches heq =>
      split
      next b hfind =>
        obtain ⟨hbB, hbk⟩ := fuzzyBuckets_sound heq b (List.mem_of_find?_eq_some hfind)
        exact absurd hbk (hno b hbB)
      next hfind =>
        exact List.mem_append_right _ (by simp)
    next heq =>
      exact List.mem_append_right _ (by simp)

/-- Positive severity count iff a finding of that severity is present. -/
theorem countSev_pos {l : List FWF} {sev : Severity} :
    0 < countSev l sev ↔ ∃ f ∈ l, f.2.severity = sev := by
  unfold countSev
  rw [List.length_pos_iff_exists_mem]
  constructor
  · rintro ⟨x, hx⟩
    rw [List.mem_filter] at hx
    exact ⟨x, hx.1, by simpa using hx.2⟩
  · rintro ⟨f, hf, hsev⟩
    exact ⟨f, List.mem_filter.mpr ⟨hf, by simp [hsev]⟩⟩

end AoLens

namespace AoLens

/-- C5 counterexample: `resolved` is not "everything left unconsumed on
the baseline side".  Baseline holds two findings sharing a fuzzy key on
lines 1 and 2; current holds only the line-1 finding, which strict-matches
the first baseline entry.  The second baseline entry is consumed by
nothing — no current finding strict-matches it and no relocation consumed
it (no moved entries) — yet the engine reports nothing resolved, because
resolution additionally requires the current side's fuzzy bucket for that
key to be empty. -/
theorem C5_counterexample :
    (diffAuditResults
        (⟨"", "", [⟨"a.lua",
          [⟨Severity.high, "X", "m", "s", some "H", some 1, none⟩,
           ⟨Severity.high, "X", "m", "s", some "H", some 2, none⟩],
          ⟨0, 2, 0, 0, 0, 2⟩⟩], true⟩ : AuditResult)
        (⟨"", "", [⟨"a.lua",
          [⟨Severity.high, "X", "m", "s", some "H", some 1, none⟩],
          ⟨0, 1, 0, 0, 0, 1⟩⟩], true⟩ : AuditResult)).resolved_findings = []
      ∧ (diffAuditResults
        (⟨"", "", [⟨"a.lua",
          [⟨Severity.high, "X", "m", "s", some "H", some 1, none⟩,
           ⟨Severity.high, "X", "m", "s", some "H", some 2, none⟩],
          ⟨0, 2, 0, 0, 0, 2⟩⟩], true⟩ : AuditResult)
        (⟨"", "", [⟨"a.lua",
          [⟨Severity.high, "X", "m", "s", some "H", some 1, none⟩],
          ⟨0, 1, 0, 0, 0, 1⟩⟩], true⟩ : AuditResult)).moved_findings = []
      ∧ ("a.lua", (⟨Severity.high, "X", "m", "s", some "H", some 2, none⟩ : SecurityFinding))
          ∈ extractFindings
            (⟨"", "", [⟨"a.lua",
              [⟨Severity.high, "X", "m", "s", some "H", some 1, none⟩,
               ⟨Severity.high, "X", "m", "s", some "H", some 2, none⟩],
              ⟨0, 2, 0, 0, 0, 2⟩⟩], true⟩ : AuditResult)
      ∧ (∀ c ∈ extractFindings
            (⟨"", "", [⟨"a.lua",
              [⟨Severity.high, "X", "m", "s", some "H", some 1, none⟩],
              ⟨0, 1, 0, 0, 0, 1⟩⟩], true⟩ : AuditResult),
          ¬strictKey c = strictKey ("a.lua",
            ⟨Severity.high, "X", "m", "s", some "H", some 2, none⟩)) := by
  decide

/-- C5 amended: the classification of `diffAuditResults`.  A current
finding that exact-key-matches a baseline finding is unchanged — it lands
in neither `new_findings` nor `moved_findings`.  Every relocation entry
pairs a current finding with no exact match with a fuzzy-matching
baseline finding on a different line, recording `from_line` and `to_line`
from the pair.  Every new finding is a current finding with no exact
match, and a current finding whose fuzzy key matches no baseline finding
at all is always classified new.  Resolved, however, is not every
baseline finding left unconsumed: the engine resolves exactly the
baseline findings whose fuzzy key (file, code, severity, handler) matches
no current finding — a same-key current finding anywhere, even one
strict-matched to a different baseline entry, blocks resolution.  The
regression flag is as claimed: set iff some new finding is critical or
high. -/
theorem C5_diff_amended (baseline current : AuditResult) :
    (∀ f ∈ extractFindings current,
        strictKey f ∈ (extractFindings baseline).map strictKey →
          ¬f ∈ (diffAuditResults baseline current).new_findings
            ∧ ∀ m ∈ (diffAuditResults baseline current).moved_findings, ¬m.finding = f)
    ∧ (∀ m ∈ (diffAuditResults baseline current).moved_findings,
        m.finding ∈ extractFindings current
          ∧ ¬strictKey m.finding ∈ (extractFindings baseline).map strictKey
          ∧ ∃ b ∈ extractFindings baseline,
              fuzzyKey b = fuzzyKey m.finding ∧ ¬b.2.line = m.finding.2.line
                ∧ m.from_line = b.2.line.getD 0 ∧ m.to_line = m.finding.2.line.getD 0)
    ∧ (∀ f ∈ (diffAuditResults baseline current).new_findings,
        f ∈ extractFindings current
          ∧ ¬strictKey f ∈ (extractFindings baseline).map strictKey)
    ∧ (∀ f ∈ extractFindings current,
        (∀ b ∈ extractFindings baseline, ¬fuzzyKey b = fuzzyKey f) →
          f ∈ (diffAuditResults baseline current).new_findings)
    ∧ (diffAuditResults baseline current).resolved_findings
        = (extractFindings baseline).filter (fun b =>
            decide (∀ c ∈ extractFindings current, ¬fuzzyKey c = fuzzyKey b))
    ∧ ((diffAuditResults baseline current).regression_detected = true
        ↔ ∃ f ∈ (diffAuditResults baseline current).new_findings,
            f.2.severity = Severity.critical ∨ f.2.severity = Severity.high) := by
  have hinv : ∀ k ∈ ((extractFindings current).foldl
      (diffStep ((extractFindings baseline).map strictKey)
        (fuzzyBuckets (extractFindings baseline)))
      { matchedBaseline := [], newFindings := [], movedFindings := [] }).matchedBaseline,
      ∃ c ∈ extractFindings current,
        (k.1, k.2.1, k.2.2.1, k.2.2.2.1) = fuzzyKey c := by
    refine foldl_inv_mem (P := fun s : DiffLoopState => ∀ k ∈ s.matchedBaseline,
        ∃ c ∈ extractFindings current, (k.1, k.2.1, k.2.2.1, k.2.2.2.1) = fuzzyKey c)
      ?_ (extractFindings current) (fun b hb => hb) _ ?_
    · intro a b hb ha
      exact diffStep_matched_inv hb ha
    · simp
  have hnewS : ∀ x ∈ ((extractFindings current).foldl
      (diffStep ((extractFindings baseline).map strictKey)
        (fuzzyBuckets (extractFindings baseline)))
      { matchedBaseline := [], newFindings := [], movedFindings := [] }).newFindings,
      x ∈ extractFindings current
        ∧ ¬strictKey x ∈ (extractFindings baseline).map strictKey := by
    refine foldl_inv_mem (P := fun s : DiffLoopState => ∀ x ∈ s.newFindings,
        x ∈ extractFindings current
          ∧ ¬strictKey x ∈ (extractFindings baseline).map strictKey)
      ?_ (extractFindings current) (fun b hb => hb) _ ?_
    · intro a b hb ha
      exact diffStep_new_inv hb ha
    · simp
  have hmovS : ∀ m ∈ ((extractFindings current).foldl
      (diffStep ((extractFindings baseline).map strictKey)
        (fuzzyBuckets (extractFindings baseline)))
      { matchedBaseline := [], newFindings := [], movedFindings := [] }).movedFindings,
      m.finding ∈ extractFindings current
        ∧ ¬strictKey m.finding ∈ (extractFindings baseline).map strictKey
        ∧ ∃ b ∈ extractFindings baseline,
            fuzzyKey b = fuzzyKey m.finding ∧ ¬b.2.line = m.finding.2.line
              ∧ m.from_line = b.2.line.getD 0 ∧ m.to_line = m.finding.2.line.getD 0 := by
    refine foldl_inv_mem (P := fun s : DiffLoopState => ∀ m ∈ s.movedFindings,
        m.finding ∈ extractFindings current
          ∧ ¬strictKey m.finding ∈ (extractFindings baseline).map strictKey
          ∧ ∃ b ∈ extractFindings baseline,
              fuzzyKey b = fuzzyKey m.finding ∧ ¬b.2.line = m.finding.2.line
                ∧ m.from_line = b.2.line.getD 0 ∧ m.to_line = m.finding.2.line.getD 0)
      ?_ (extractFindings current) (fun b hb => hb) _ ?_
    · intro a b hb ha
      exact diffStep_moved_inv hb ha
    · simp
  refine ⟨?_, hmovS, hnewS, ?_, ?_, ?_⟩
  · intro f hf hstrict
    constructor
    · intro hmem
      exact absurd hstrict (hnewS f hmem).2
    · intro m hm hmf
      exact absurd hstrict (hmf ▸ (hmovS m hm).2.1)
  · intro f hf hno
    exact foldl_prop_from (P := fun s : DiffLoopState => f ∈ s.newFindings)
      (fun a b ha => diffStep_new_mono ha) (extractFindings current) _ f hf
      (fun a => diffStep_new_self hno)
  · exact List.filter_congr (fun b hb => diff_resolved_pointwise hinv b)
  · unfold diffAuditResults
    dsimp only
    simp only [Bool.or_eq_true, decide_eq_true_eq, countSev_pos]
    constructor
    · rintro (⟨f, hf, h⟩ | ⟨f, hf, h⟩)
      · exact ⟨f, hf, Or.inl h⟩
      · exact ⟨f, hf, Or.inr h⟩
    · rintro ⟨f, hf, h | h⟩
      · exact Or.inl ⟨f, hf, h⟩
      · exact Or.inr ⟨f, hf, h⟩

end AoLens

namespace AoLens

/-- C2 counterexample: the claim extends the dedup invariant to reports
in which dynamic rules contributed findings, but the adapter appends
dynamic findings after `deduplicate` ran and never reprocesses the
combined list.  A loaded dynamic rule whose id collides with a built-in
code (`LOCAL_STATE_SHADOW`) firing on the same line yields two findings
with the same `(code, line)` pair in one report. -/
theorem C2_counterexample :
    ¬ List.Pairwise (fun a b : SecurityFinding => ¬(a.code = b.code ∧ a.line = b.line))
      (adapterAnalyze { file := "p.lua", sourceCode := some "local State = \x7b\x7d" } []
        (some { rules := [{ id := "LOCAL_STATE_SHADOW", skillId := "s", description := "d", severity := Severity.high, detection := some (Detection.regex (rxLit "local") none none none), techStack := ["lua"] }], loaded := true })).findings := by
  intro hpw
  have hlib : (build "local State = \x7b\x7d" "p.lua" []).isLibrary = false := by decide
  have hTFb : (build "local State = \x7b\x7d" "p.lua" []).isTestFile = false := by decide
  have hfind : (adapterAnalyze { file := "p.lua", sourceCode := some "local State = \x7b\x7d" } []
        (some { rules := [{ id := "LOCAL_STATE_SHADOW", skillId := "s", description := "d", severity := Severity.high, detection := some (Detection.regex (rxLit "local") none none none), techStack := ["lua"] }], loaded := true })).findings
      = (securityAnalyzeWith registryChecks (build "local State = \x7b\x7d" "p.lua" [])).map
          toSecurityFinding
        ++ (applyDynamicRules [{ id := "LOCAL_STATE_SHADOW", skillId := "s", description := "d", severity := Severity.high, detection := some (Detection.regex (rxLit "local") none none none), techStack := ["lua"] }] "local State = \x7b\x7d").map
          toSecurityFinding := by
    simp [adapterAnalyze, createReport, securityAnalyze, securityAnalyzeWith, hlib]
  rw [hfind] at hpw
  obtain ⟨-, -, hcross⟩ := List.pairwise_append.mp hpw
  have hf0 : ∃ f0 ∈ localStateShadowRun (build "local State = \x7b\x7d" "p.lua" []),
      f0.code = "LOCAL_STATE_SHADOW" ∧ f0.line = 1 := by decide
  obtain ⟨f0, hf0m, hf0c, hf0l⟩ := hf0
  have hrc : f0 ∈ runChecks registryChecks (build "local State = \x7b\x7d" "p.lua" []) :=
    check_in_analyzer (n := 5) (by decide) hTFb hlib hf0m
  obtain ⟨g, hg, hgc, hgl, -⟩ := analyze_key_present hrc
  have hd : ∃ d ∈ applyDynamicRules [{ id := "LOCAL_STATE_SHADOW", skillId := "s", description := "d", severity := Severity.high, detection := some (Detection.regex (rxLit "local") none none none), techStack := ["lua"] }] "local State = \x7b\x7d",
      d.code = "LOCAL_STATE_SHADOW" ∧ d.line = 1 := by decide
  obtain ⟨d, hdm, hdc, hdl⟩ := hd
  have hR := hcross (toSecurityFinding g) (List.mem_map_of_mem _ hg)
    (toSecurityFinding d) (List.mem_map_of_mem _ hdm)
  exact hR ⟨by simp [toSecurityFinding, hgc, hf0c, hdc],
            by simp [toSecurityFinding, hgl, hf0l, hdl]⟩

/-- C3 counterexample: the claim extends the ordering invariant to reports
in which dynamic rules contributed findings, but dynamic findings are
appended after the sort.  Two dynamic rules firing in source order
(low severity on line 1, critical on line 2) leave the report out of
severity order. -/
theorem C3_counterexample :
    ¬ List.Pairwise (fun a b : SecurityFinding =>
        severityRank a.severity < severityRank b.severity
          ∨ (severityRank a.severity = severityRank b.severity
              ∧ a.line.getD 0 ≤ b.line.getD 0))
      (adapterAnalyze { file := "p.lua", sourceCode := some "x = 1\ny = 2" } []
        (some { rules := [{ id := "R_A", skillId := "s", description := "d", severity := Severity.low, detection := some (Detection.regex (rxLit "x") none none none), techStack := ["lua"] }, { id := "R_B", skillId := "s", description := "d", severity := Severity.critical, detection := some (Detection.regex (rxLit "y") none none none), techStack := ["lua"] }], loaded := true })).findings := by
  intro hpw
  have hlib : (build "x = 1\ny = 2" "p.lua" []).isLibrary = false := by decide
  have hfind : (adapterAnalyze { file := "p.lua", sourceCode := some "x = 1\ny = 2" } []
        (some { rules := [{ id := "R_A", skillId := "s", description := "d", severity := Severity.low, detection := some (Detection.regex (rxLit "x") none none none), techStack := ["lua"] }, { id := "R_B", skillId := "s", description := "d", severity := Severity.critical, detection := some (Detection.regex (rxLit "y") none none none), techStack := ["lua"] }], loaded := true })).findings
      = (securityAnalyzeWith registryChecks (build "x = 1\ny = 2" "p.lua" [])).map
          toSecurityFinding
        ++ (applyDynamicRules [{ id := "R_A", skillId := "s", description := "d", severity := Severity.low, detection := some (Detection.regex (rxLit "x") none none none), techStack := ["lua"] }, { id := "R_B", skillId := "s", description := "d", severity := Severity.critical, detection := some (Detection.regex (rxLit "y") none none none), techStack := ["lua"] }] "x = 1\ny = 2").map
          toSecurityFinding := by
    simp [adapterAnalyze, createReport, securityAnalyze, securityAnalyzeWith, hlib]
  rw [hfind] at hpw
  obtain ⟨-, hdyn, -⟩ := List.pairwise_append.mp hpw
  have hbad : ¬ List.Pairwise (fun a b : SecurityFinding =>
      severityRank a.severity < severityRank b.severity
        ∨ (severityRank a.severity = severityRank b.severity
            ∧ a.line.getD 0 ≤ b.line.getD 0))
      ((applyDynamicRules [{ id := "R_A", skillId := "s", description := "d", severity := Severity.low, detection := some (Detection.regex (rxLit "x") none none none), techStack := ["lua"] }, { id := "R_B", skillId := "s", description := "d", severity := Severity.critical, detection := some (Detection.regex (rxLit "y") none none none), techStack := ["lua"] }] "x = 1\ny = 2").map
        toSecurityFinding) := by decide
  exact hbad hdyn

end AoLens
